import Mathlib

/-!
# ElectronicQueue: the ticket lifecycle engine

A shallow embedding of the ticket services of the electronic queue
(`internal/services/ticket_service.go`, `internal/services/doctor_service.go`)
together with the repository queries they run
(`internal/repository/ticket_repository.go`,
`internal/repository/reception_log_repository.go`,
`internal/repository/registrar_priority_repository.go`,
`internal/repository/service_repository.go`), of the appointment service
(`internal/services/appointment_service.go`,
`internal/repository/appointment_repository.go`,
`internal/repository/patient_repository.go`), of the business process switches
(`internal/services/business_process_service.go`) and of the broker of
server-sent events (`internal/pubsub/pubsub.go`).

The relational store is a record of tables (lists of rows).  Every service
method becomes a function from the store, the clock readings it takes and the
failures the store may report, to its Go result paired with the store it
leaves behind.  The broker is a list of buffered channels with the set of
subscribed handles; a panic of the Go runtime is the result `none`.
-/

namespace ElectronicQueue

/-! ## Data model -/

/-- Go strings whose characters are inspected (ticket numbers, letters). -/
abbrev Str := List Char

/-- `models.TicketStatus` is a Go string type, so any string is a value. -/
abbrev TicketStatus := String

def StatusWaiting : TicketStatus := "ожидает"
def StatusInvited : TicketStatus := "приглашен"
def StatusInProgress : TicketStatus := "на_приеме"
def StatusCompleted : TicketStatus := "завершен"
def StatusRegistered : TicketStatus := "зарегистрирован"

/-- `models.Ticket`.  Instants (`time.Time`) are integers: nanoseconds on the
application clock. -/
structure Ticket where
  ID : Nat
  TicketNumber : Str
  Status : TicketStatus
  ServiceType : Option String
  WindowNumber : Option Int
  QRCode : List Nat
  CreatedAt : Int
  CalledAt : Option Int
  StartedAt : Option Int
  CompletedAt : Option Int
  deriving DecidableEq, Repr

/-- `models.ReceptionLog`; `Duration` is a `time.Duration` (nanoseconds). -/
structure ReceptionLog where
  LogID : Nat
  TicketID : Nat
  RegistrarID : Option Nat
  WindowNumber : Int
  CalledAt : Int
  CompletedAt : Option Int
  Duration : Option Int
  deriving DecidableEq, Repr

/-- `models.Service`. -/
structure Service where
  ID : Nat
  ServiceID : String
  Name : String
  Letter : Str
  deriving DecidableEq, Repr

/-- `models.RegistrarCategoryPriority`. -/
structure RegistrarCategoryPriority where
  RegistrarID : Nat
  ServiceID : Nat
  deriving DecidableEq, Repr

/-- The columns of `models.Schedule` the ticket queries read.  `Date` is a day
number and `StartTime` a time of day in microseconds (SQL `date` and `time`). -/
structure Schedule where
  ID : Nat
  DoctorID : Nat
  Date : Nat
  StartTime : Nat
  EndTime : Nat
  IsAvailable : Bool
  Cabinet : Option Int
  deriving DecidableEq, Repr

/-- The columns of `models.Appointment`. -/
structure Appointment where
  ID : Nat
  ScheduleID : Nat
  PatientID : Option Nat
  TicketID : Option Nat
  CreatedAt : Int
  deriving DecidableEq, Repr

/-- The columns of `models.Patient`. -/
structure Patient where
  ID : Nat
  PassportSeries : String
  PassportNumber : String
  FullName : String
  BirthDate : Int
  Phone : Str
  OmsNumber : String
  deriving DecidableEq, Repr

/-- The columns of `models.Doctor`. -/
structure Doctor where
  ID : Nat
  FullName : String
  Specialization : String
  Login : String
  PasswordHash : String
  Status : String
  deriving DecidableEq, Repr

/-- The tables of the relational store. -/
structure Store where
  tickets : List Ticket
  receptionLogs : List ReceptionLog
  services : List Service
  priorities : List RegistrarCategoryPriority
  schedules : List Schedule
  appointments : List Appointment
  patients : List Patient := []
  doctors : List Doctor := []
  deriving DecidableEq, Repr

/-- Which repository calls report an infrastructure failure during one service
call (the store is an external collaborator; `true` means the call fails). -/
structure Faults where
  getPriorities : Bool
  nextWaiting : Bool
  ticketGet : Bool
  ticketCreate : Bool
  ticketUpdate : Bool
  serviceGet : Bool
  maxNumber : Bool
  logCreate : Bool
  logFind : Bool
  logUpdate : Bool
  scheduleLock : Bool := false
  scheduleSave : Bool := false
  appointmentCreate : Bool := false
  appointmentReload : Bool := false
  appointmentFind : Bool := false
  appointmentUpdate : Bool := false
  appointmentRevert : Bool := false
  appointmentLink : Bool := false
  patientFind : Bool := false
  upcomingFind : Bool := false
  processFind : Bool := false
  processUpdate : Bool := false
  scheduleFind : Bool := false
  queueFind : Bool := false
  minMaxTimes : Bool := false
  schedulesForDate : Bool := false
  appointmentLock : Bool := false
  appointmentDelete : Bool := false
  slotFree : Bool := false
  cleanupBegin : Bool := false
  cleanupAppointments : Bool := false
  cleanupTickets : Bool := false
  cleanupCommit : Bool := false
  deriving DecidableEq, Repr

/-- No repository call fails. -/
def Faults.none : Faults :=
  { getPriorities := false, nextWaiting := false, ticketGet := false, ticketCreate := false,
    ticketUpdate := false, serviceGet := false, maxNumber := false, logCreate := false,
    logFind := false, logUpdate := false }

/-- The errors the services return, one constructor per message. -/
inductive Error where
  /-- `gorm.ErrRecordNotFound` -/
  | recordNotFound
  /-- any other error reported by the store (connection, constraint, cast) -/
  | storeFailure
  /-- a unique or primary-key constraint rejected the row -/
  | uniqueViolation
  /-- the SQL `CAST(... AS INTEGER)` rejected its argument -/
  | invalidInteger
  /-- "serviceID is required" -/
  | serviceIDRequired
  /-- "очередь пуста" -/
  | queueEmpty
  /-- "талон с ID %d не найден" -/
  | ticketNotFound (id : Nat)
  /-- "ошибка получения талона" -/
  | ticketFetchFailed
  /-- "талон %s имеет неверный статус '%s' для вызова (ожидался 'ожидает')" -/
  | wrongStatusForCall (number : Str) (status : TicketStatus)
  /-- "талон не найден: %w" -/
  | doctorTicketNotFound (cause : Error)
  /-- "для начала приема талон должен иметь статус 'зарегистрирован'" -/
  | mustBeRegistered
  /-- "для завершения приема талон должен иметь статус 'на_приеме'" -/
  | mustBeInProgress
  /-- "не удалось обновить талон: %w" -/
  | doctorUpdateFailed (cause : Error)
  /-- "ScheduleID является обязательным полем" -/
  | scheduleIDRequired
  /-- "указанный слот в расписании не найден" -/
  | slotNotFound
  /-- "выбранное время уже занято" -/
  | slotTaken
  /-- "не удалось создать запись на прием: %w" -/
  | createAppointmentFailed (cause : Error)
  /-- "запись не найдена: %w" -/
  | appointmentNotFound (cause : Error)
  /-- "запись уже подтверждена и привязана к талону" -/
  | appointmentAlreadyConfirmed
  /-- "этот талон уже используется" -/
  | ticketInUse
  /-- "не удалось обновить запись: %w" -/
  | appointmentUpdateFailed (cause : Error)
  /-- "не удалось обновить статус талона: %w" -/
  | ticketStatusUpdateFailed (cause : Error)
  /-- "пациент с указанным номером телефона не найден" -/
  | patientNotFound
  /-- "ошибка поиска пациента: %w" -/
  | patientSearchFailed (cause : Error)
  /-- "у вас нет предстоящих записей на сегодня" -/
  | noUpcomingAppointment
  /-- "ошибка поиска записи: %w" -/
  | appointmentSearchFailed (cause : Error)
  /-- "не удалось создать талон и привязать к записи: %w" -/
  | assignTicketFailed (cause : Error)
  /-- "process '%s' not found" -/
  | processNotFound (name : String)
  /-- "failed to update process '%s' in DB: %w" -/
  | processUpdateFailed (name : String) (cause : Error)
  /-- "ошибка получения диапазона времени: %w" -/
  | scheduleRangeFailed (cause : Error)
  /-- "ошибка получения расписаний на сегодня: %w" -/
  | schedulesFetchFailed (cause : Error)
  /-- "запись с ID %d не найдена" -/
  | appointmentIDNotFound (id : Nat)
  deriving DecidableEq, Repr

/-- `const maxTicketNumber = 1000`. -/
def maxTicketNumber : Int := 1000


/-! ## Formatting and parsing of ticket numbers -/

/-- The decimal digit character of `d` (for `d < 10`). -/
def digitChar (d : Nat) : Char := Char.ofNat (48 + d)

/-- The digit loop of Go's `fmt` integer formatting: digits are produced from
the least significant one and written in front of what is already there. -/
def fmtDigitsAux : Nat → Nat → List Char → List Char
  | 0, _, acc => acc
  | fuel + 1, u, acc =>
    if u < 10 then digitChar u :: acc
    else fmtDigitsAux fuel (u / 10) (digitChar (u % 10) :: acc)

/-- The decimal digits of `u`, most significant first. -/
def fmtDigits (u : Nat) : List Char := fmtDigitsAux (u + 1) u []

/-- Left padding with `0` up to `width` characters. -/
def padZeros (width : Nat) (ds : List Char) : List Char :=
  List.replicate (width - ds.length) '0' ++ ds

/-- Go's `fmt.Sprintf("%03d", n)`: at least three characters, zero padded, the
sign counted in the width. -/
def fmt03d (n : Int) : Str :=
  if n < 0 then '-' :: padZeros 2 (fmtDigits n.natAbs) else padZeros 3 (fmtDigits n.toNat)

/-- SQL `LIKE` with the default escape character: `%` matches any run of
characters, `_` any one character, a backslash makes the next pattern
character literal (`escaped` records that the previous pattern character was
that backslash).  (A pattern ending in a lone backslash is rejected by the
database; no pattern built below ends that way, and it matches nothing here.) -/
def likeMatchAux : Bool → List Char → List Char → Bool
  | escaped, [], s => !escaped && s.isEmpty
  | escaped, c :: p, s =>
    if escaped then
      match s with
      | [] => false
      | x :: s' => x = c && likeMatchAux false p s'
    else if c = '%' then s.tails.any (fun t => likeMatchAux false p t)
    else if c = '_' then
      match s with
      | [] => false
      | _ :: s' => likeMatchAux false p s'
    else if c = Char.ofNat 92 then likeMatchAux true p s
    else
      match s with
      | [] => false
      | x :: s' => x = c && likeMatchAux false p s'

/-- `s LIKE pattern`. -/
def likeMatch (pattern s : List Char) : Bool := likeMatchAux false pattern s

/-- White space as skipped by the SQL integer input routine. -/
def isSpaceChar (c : Char) : Bool :=
  c = ' ' || c.toNat = 9 || c.toNat = 10 || c.toNat = 11 || c.toNat = 12 || c.toNat = 13

/-- A decimal digit. -/
def isDigitChar (c : Char) : Bool := 48 ≤ c.toNat && c.toNat ≤ 57

/-- The value of a run of decimal digits. -/
def digitsValue (ds : List Char) : Nat := ds.foldl (fun acc c => acc * 10 + (c.toNat - 48)) 0

/-- SQL `CAST(s AS INTEGER)`: optional white space, an optional sign, at least
one decimal digit, optional white space; the value must fit 32 bits.  `none`
is the cast error. -/
def castInteger (s : Str) : Option Int :=
  let s1 := s.dropWhile isSpaceChar
  let neg := s1.head? = some '-'
  let s2 := if s1.head? = some '-' ∨ s1.head? = some '+' then s1.drop 1 else s1
  let ds := s2.takeWhile isDigitChar
  let rest := s2.dropWhile isDigitChar
  if ds = [] ∨ rest.all isSpaceChar = false then none
  else
    let v : Int := if neg then -(digitsValue ds : Int) else (digitsValue ds : Int)
    if -2147483648 ≤ v ∧ v ≤ 2147483647 then some v else none

/-- All casts of a column succeed, or the query fails. -/
def castAll : List Str → Option (List Int)
  | [] => some []
  | s :: rest =>
    match castInteger s, castAll rest with
    | some v, some vs => some (v :: vs)
    | _, _ => none

/-- SQL `MAX` over the rows: `none` (NULL) when there is no row. -/
def sqlMax : List Int → Option Int
  | [] => none
  | v :: vs => some (vs.foldl max v)

/-! ## Repository queries -/

/-- `serviceRepo.GetByServiceID`: the service with this `service_id` (a unique
column). -/
def serviceRepo.GetByServiceID (f : Faults) (st : Store) (serviceID : String) :
    Except Error Service :=
  if f.serviceGet then .error .storeFailure
  else
    match st.services.find? (fun s => s.ServiceID = serviceID) with
    | some s => .ok s
    | none => .error .recordNotFound

/-- The rows selected by `WHERE ticket_number LIKE prefix || '%'`. -/
def ticketsLike (st : Store) (pfx : Str) : List Ticket :=
  st.tickets.filter (fun t => likeMatch (pfx ++ ['%']) t.TicketNumber)

/-- `ticketRepo.GetMaxTicketNumberForPrefix`:
`SELECT COALESCE(MAX(CAST(SUBSTRING(ticket_number, 2) AS INTEGER)), 0)
 FROM tickets WHERE ticket_number LIKE ?` with `prefix + "%"`. -/
def ticketRepo.GetMaxTicketNumberForPrefix (f : Faults) (st : Store) (pfx : Str) :
    Except Error Int :=
  if f.maxNumber then .error .storeFailure
  else
    match castAll ((ticketsLike st pfx).map (fun t => t.TicketNumber.drop 1)) with
    | none => .error .invalidInteger
    | some vals => .ok ((sqlMax vals).getD 0)

/-- A fresh primary key for the tickets table. -/
def nextTicketID (st : Store) : Nat := (st.tickets.map (fun t => t.ID)).foldl max 0 + 1

/-- The insert of `ticketRepo.Create` (`db.Create`): the `unique` column
`ticket_number` and the primary key reject duplicates; a zero primary key is
replaced by a generated one, written back into the ticket. -/
def insertTicket (st : Store) (t : Ticket) : Except Error (Ticket × Store) :=
  if st.tickets.any (fun x => x.TicketNumber = t.TicketNumber) then .error .uniqueViolation
  else if t.ID ≠ 0 ∧ st.tickets.any (fun x => x.ID = t.ID) then .error .uniqueViolation
  else
    let t' : Ticket := if t.ID = 0 then { t with ID := nextTicketID st } else t
    .ok (t', { st with tickets := st.tickets ++ [t'] })

/-- `ticketRepo.Create`. -/
def ticketRepo.Create (f : Faults) (st : Store) (t : Ticket) : Except Error (Ticket × Store) :=
  if f.ticketCreate then .error .storeFailure else insertTicket st t

/-- `ticketRepo.Update` (`db.Save`): a zero primary key makes it an insert;
otherwise every column of the row with this primary key is overwritten, and
when no row has it the ticket is inserted. -/
def ticketRepo.Update (f : Faults) (st : Store) (t : Ticket) : Except Error (Ticket × Store) :=
  if f.ticketUpdate then .error .storeFailure
  else if t.ID = 0 then insertTicket st t
  else if st.tickets.any (fun x => x.ID = t.ID) then
    if st.tickets.any (fun x => x.ID ≠ t.ID ∧ x.TicketNumber = t.TicketNumber) then
      .error .uniqueViolation
    else .ok (t, { st with tickets := st.tickets.map (fun x => if x.ID = t.ID then t else x) })
  else insertTicket st t

/-- `ticketRepo.GetByID` (`db.First(&ticket, id)`). -/
def ticketRepo.GetByID (f : Faults) (st : Store) (id : Nat) : Except Error Ticket :=
  if f.ticketGet then .error .storeFailure
  else
    match st.tickets.find? (fun t => t.ID = id) with
    | some t => .ok t
    | none => .error .recordNotFound

/-! ## Ticket creation -/

/-- `TicketService.generateTicketNumber`. -/
def generateTicketNumber (f : Faults) (st : Store) (serviceID : String) : Except Error Str :=
  match serviceRepo.GetByServiceID f st serviceID with
  | .error e => .error e
  | .ok service =>
    let letter := service.Letter
    match ticketRepo.GetMaxTicketNumberForPrefix f st letter with
    | .error e => .error e
    | .ok maxNum =>
      let num := maxNum + 1
      let num := if num ≥ maxTicketNumber then 1 else num
      .ok (letter ++ fmt03d num)

/-- `TicketService.CreateTicket`, with `now` the reading of `time.Now()`. -/
def CreateTicket (f : Faults) (st : Store) (now : Int) (serviceID : String) :
    Except Error Ticket × Store :=
  if serviceID = "" then (.error .serviceIDRequired, st)
  else
    match generateTicketNumber f st serviceID with
    | .error e => (.error e, st)
    | .ok ticketNumber =>
      let ticket : Ticket :=
        { ID := 0, TicketNumber := ticketNumber, Status := StatusWaiting,
          ServiceType := some serviceID, WindowNumber := none, QRCode := [],
          CreatedAt := now, CalledAt := none, StartedAt := none, CompletedAt := none }
      match ticketRepo.Create f st ticket with
      | .error e => (.error e, st)
      | .ok (ticket', st') => (.ok ticket', st')

/-! ## The call-next query -/

/-- The clock of the database session: `CURRENT_DATE` as a day number and
`NOW()::time` in microseconds since midnight. -/
structure DBClock where
  date : Nat
  time : Nat
  deriving DecidableEq, Repr

/-- Microseconds in a day. -/
def usPerDay : Nat := 86400000000

/-- `INTERVAL '5 minutes'` in microseconds. -/
def fiveMinutes : Nat := 300000000

/-- `(NOW() + INTERVAL '5 minutes')::time`: a time of day, so it wraps at
midnight. -/
def DBClock.timePlusFive (c : DBClock) : Nat := (c.time + fiveMinutes) % usPerDay

/-- A row of `tickets t LEFT JOIN appointments a LEFT JOIN schedules s`:
`t.*` and `s.start_time` (NULL when no schedule row was joined). -/
structure WaitingRow where
  ticket : Ticket
  startTime : Option Nat
  deriving DecidableEq, Repr

/-- The rows the two left joins produce for one ticket:
`LEFT JOIN appointments a ON t.ticket_id = a.ticket_id` and
`LEFT JOIN schedules s ON a.schedule_id = s.schedule_id AND s.date = CURRENT_DATE`. -/
def joinSchedules (st : Store) (today : Nat) (t : Ticket) : List WaitingRow :=
  match st.appointments.filter (fun a => a.TicketID = some t.ID) with
  | [] => [{ ticket := t, startTime := none }]
  | a :: as =>
    (a :: as).flatMap (fun a =>
      match st.schedules.filter (fun s => s.ID = a.ScheduleID ∧ s.Date = today) with
      | [] => [{ ticket := t, startTime := none }]
      | s :: ss => (s :: ss).map (fun s => { ticket := t, startTime := some s.StartTime }))

/-- The `CASE` expression of the `ORDER BY` clause. -/
def orderRank (c : DBClock) (r : WaitingRow) : Nat :=
  match r.startTime with
  | some s =>
    if s < c.time then 0
    else if c.time ≤ s ∧ s ≤ c.timePlusFive then 1
    else 2
  | none => 2

/-- `s.start_time ASC`: ascending, NULLs after every value. -/
def startBefore : Option Nat → Option Nat → Prop
  | some x, some y => x < y
  | some _, none => True
  | none, _ => False

instance : DecidableRel startBefore := fun a b =>
  match a, b with
  | some x, some y => inferInstanceAs (Decidable (x < y))
  | some _, none => isTrue trivial
  | none, _ => isFalse (fun h => h)

/-- The row order of the query: the `CASE` rank, `s.start_time ASC`,
`t.created_at ASC`, and the primary key that `First` appends to the ordering. -/
def rowBefore (c : DBClock) (a b : WaitingRow) : Prop :=
  orderRank c a < orderRank c b ∨
  (orderRank c a = orderRank c b ∧
    (startBefore a.startTime b.startTime ∨
      (a.startTime = b.startTime ∧
        (a.ticket.CreatedAt < b.ticket.CreatedAt ∨
          (a.ticket.CreatedAt = b.ticket.CreatedAt ∧ a.ticket.ID < b.ticket.ID)))))

instance (c : DBClock) : DecidableRel (rowBefore c) := fun a b => by
  unfold rowBefore; infer_instance

/-- `LIMIT 1` after the ordering: the first row in the row order. -/
def firstRow (c : DBClock) : List WaitingRow → Option WaitingRow
  | [] => none
  | r :: rs => some (rs.foldl (fun best x => if rowBefore c x best then x else best) r)

/-- The rows left by the `WHERE` clauses: status `ожидает` and, when prefixes
are given, `LEFT(t.ticket_number, 1) IN prefixes`. -/
def waitingRows (st : Store) (c : DBClock) (categoryPrefixes : List Str) : List WaitingRow :=
  (st.tickets.flatMap (joinSchedules st c.date)).filter (fun r =>
    r.ticket.Status = "ожидает" ∧
      (categoryPrefixes.length > 0 → r.ticket.TicketNumber.take 1 ∈ categoryPrefixes))

/-- `ticketRepo.GetNextWaitingTicket`. -/
def ticketRepo.GetNextWaitingTicket (f : Faults) (st : Store) (c : DBClock)
    (categoryPrefixes : List Str) : Except Error Ticket :=
  if f.nextWaiting then .error .storeFailure
  else
    match firstRow c (waitingRows st c categoryPrefixes) with
    | none => .error .recordNotFound
    | some r => .ok r.ticket

/-- `registrarPriorityRepo.GetPriorities`: the services joined with the
priority rows of the registrar, ordered by `services.id`. -/
def registrarPriorityRepo.GetPriorities (f : Faults) (st : Store) (registrarID : Nat) :
    Except Error (List Service) :=
  if f.getPriorities then .error .storeFailure
  else
    .ok ((st.services.flatMap (fun s =>
      (st.priorities.filter (fun p => s.ID = p.ServiceID ∧ p.RegistrarID = registrarID)).map
        (fun _ => s))).insertionSort (fun a b => a.ID ≤ b.ID))

/-! ## The reception log repository -/

/-- A fresh primary key for the reception log. -/
def nextLogID (st : Store) : Nat := (st.receptionLogs.map (fun l => l.LogID)).foldl max 0 + 1

/-- The insert of a reception-log row; a zero primary key is generated. -/
def insertLog (st : Store) (l : ReceptionLog) : Except Error Store :=
  if l.LogID ≠ 0 ∧ st.receptionLogs.any (fun x => x.LogID = l.LogID) then
    .error .uniqueViolation
  else
    let l' : ReceptionLog := if l.LogID = 0 then { l with LogID := nextLogID st } else l
    .ok { st with receptionLogs := st.receptionLogs ++ [l'] }

/-- `receptionLogRepo.Create`. -/
def receptionLogRepo.Create (f : Faults) (st : Store) (l : ReceptionLog) : Except Error Store :=
  if f.logCreate then .error .storeFailure else insertLog st l

/-- `receptionLogRepo.Update` (`db.Save`). -/
def receptionLogRepo.Update (f : Faults) (st : Store) (l : ReceptionLog) : Except Error Store :=
  if f.logUpdate then .error .storeFailure
  else if l.LogID = 0 then insertLog st l
  else if st.receptionLogs.any (fun x => x.LogID = l.LogID) then
    .ok { st with
      receptionLogs := st.receptionLogs.map (fun x => if x.LogID = l.LogID then l else x) }
  else insertLog st l

/-- The row with the least primary key (`First` orders by it). -/
def firstLog : List ReceptionLog → Option ReceptionLog
  | [] => none
  | l :: ls => some (ls.foldl (fun best x => if x.LogID < best.LogID then x else best) l)

/-- `receptionLogRepo.FindActiveLogByTicketID`:
`WHERE ticket_id = ? AND completed_at IS NULL`, first row. -/
def receptionLogRepo.FindActiveLogByTicketID (f : Faults) (st : Store) (ticketID : Nat) :
    Except Error ReceptionLog :=
  if f.logFind then .error .storeFailure
  else
    match firstLog (st.receptionLogs.filter
        (fun l => l.TicketID = ticketID ∧ l.CompletedAt = none)) with
    | none => .error .recordNotFound
    | some l => .ok l

/-! ## Registrar operations -/

/-- The prefix list built at the head of `CallNextTicket` (and of
`GetTicketsForRegistrar`): the given category prefix alone when it is not
empty, otherwise the letters of the registrar's priority services. -/
def registrarPrefixes (f : Faults) (st : Store) (categoryPrefix : Str) (registrarID : Nat) :
    Except Error (List Str) :=
  if categoryPrefix ≠ [] then .ok [categoryPrefix]
  else
    match registrarPriorityRepo.GetPriorities f st registrarID with
    | .error e => .error e
    | .ok priorities => .ok (priorities.map (fun p => p.Letter))

/-- `TicketService.CallNextTicket`; `c` is the clock of the database session
that runs the query and `now` the reading of `time.Now()`. -/
def CallNextTicket (f : Faults) (st : Store) (c : DBClock) (now : Int) (windowNumber : Int)
    (categoryPrefix : Str) (registrarID : Nat) : Except Error Ticket × Store :=
  match registrarPrefixes f st categoryPrefix registrarID with
  | .error e => (.error e, st)
  | .ok prefixes =>
    match ticketRepo.GetNextWaitingTicket f st c prefixes with
    | .error e =>
      if e = .recordNotFound then (.error .queueEmpty, st) else (.error e, st)
    | .ok ticket =>
      let ticket : Ticket :=
        { ticket with
          Status := StatusInvited, WindowNumber := some windowNumber, CalledAt := some now }
      match ticketRepo.Update f st ticket with
      | .error e => (.error e, st)
      | .ok (ticket, st1) =>
        let receptionLog : ReceptionLog :=
          { LogID := 0, TicketID := ticket.ID, RegistrarID := some registrarID,
            WindowNumber := windowNumber, CalledAt := now, CompletedAt := none,
            Duration := none }
        match receptionLogRepo.Create f st1 receptionLog with
        | .error _ => (.ok ticket, st1)
        | .ok st2 => (.ok ticket, st2)

/-- `TicketService.CallSpecificTicket`. -/
def CallSpecificTicket (f : Faults) (st : Store) (now : Int) (ticketID : Nat)
    (windowNumber : Int) : Except Error Ticket × Store :=
  match ticketRepo.GetByID f st ticketID with
  | .error e =>
    if e = .recordNotFound then (.error (.ticketNotFound ticketID), st)
    else (.error .ticketFetchFailed, st)
  | .ok ticket =>
    if ticket.Status ≠ StatusWaiting then
      (.error (.wrongStatusForCall ticket.TicketNumber ticket.Status), st)
    else
      let ticket : Ticket :=
        { ticket with
          Status := StatusInvited, WindowNumber := some windowNumber, CalledAt := some now }
      match ticketRepo.Update f st ticket with
      | .error e => (.error e, st)
      | .ok (ticket, st1) =>
        let receptionLog : ReceptionLog :=
          { LogID := 0, TicketID := ticket.ID, RegistrarID := none,
            WindowNumber := windowNumber, CalledAt := now, CompletedAt := none,
            Duration := none }
        match receptionLogRepo.Create f st1 receptionLog with
        | .error _ => (.ok ticket, st1)
        | .ok st2 => (.ok ticket, st2)

/-- The least and greatest `time.Duration` (a 64-bit count of nanoseconds). -/
def minDuration : Int := -9223372036854775808
def maxDuration : Int := 9223372036854775807

/-- `t.Sub(u)`: the difference, saturated to the range of `time.Duration`. -/
def timeSub (t u : Int) : Int :=
  if t - u < minDuration then minDuration
  else if maxDuration < t - u then maxDuration
  else t - u

/-- `TicketService.finalizeReceptionAndUpdateTicket`; the result is the Go
`error` (`none` is `nil`). -/
def finalizeReceptionAndUpdateTicket (f : Faults) (st : Store) (now : Int) (ticket : Ticket) :
    Option Error × Store :=
  match ticketRepo.GetByID f st ticket.ID with
  | .error e => (some e, st)
  | .ok currentTicket =>
    if currentTicket.Status = StatusRegistered ∧ ticket.Status = StatusCompleted then (none, st)
    else
      let ticket : Ticket :=
        if ticket.Status = StatusCompleted then { ticket with CompletedAt := some now }
        else ticket
      match ticketRepo.Update f st ticket with
      | .error e => (some e, st)
      | .ok (ticket, st1) =>
        match receptionLogRepo.FindActiveLogByTicketID f st1 ticket.ID with
        | .error _ => (none, st1)
        | .ok receptionLog =>
          let duration := timeSub now receptionLog.CalledAt
          let receptionLog : ReceptionLog :=
            { receptionLog with CompletedAt := some now, Duration := some duration }
          match receptionLogRepo.Update f st1 receptionLog with
          | .error _ => (none, st1)
          | .ok st2 => (none, st2)

/-- `TicketService.UpdateTicket`. -/
def UpdateTicket (f : Faults) (st : Store) (now : Int) (ticket : Ticket) :
    Option Error × Store :=
  let isReceptionFinalStatus :=
    ticket.Status = StatusCompleted ∨ ticket.Status = StatusRegistered
  if isReceptionFinalStatus then finalizeReceptionAndUpdateTicket f st now ticket
  else
    match ticketRepo.Update f st ticket with
    | .error e => (some e, st)
    | .ok (_, st1) => (none, st1)

/-! ## Doctor operations -/

/-- `DoctorService.StartAppointment`. -/
def StartAppointment (f : Faults) (st : Store) (now : Int) (ticketID : Nat) :
    Except Error Ticket × Store :=
  match ticketRepo.GetByID f st ticketID with
  | .error e => (.error (.doctorTicketNotFound e), st)
  | .ok ticket =>
    if ticket.Status ≠ StatusRegistered then (.error .mustBeRegistered, st)
    else
      let ticket : Ticket :=
        { ticket with Status := StatusInProgress, StartedAt := some now }
      match ticketRepo.Update f st ticket with
      | .error e => (.error (.doctorUpdateFailed e), st)
      | .ok (ticket, st1) => (.ok ticket, st1)

/-- `DoctorService.CompleteAppointment`. -/
def CompleteAppointment (f : Faults) (st : Store) (now : Int) (ticketID : Nat) :
    Except Error Ticket × Store :=
  match ticketRepo.GetByID f st ticketID with
  | .error e => (.error (.doctorTicketNotFound e), st)
  | .ok ticket =>
    if ticket.Status ≠ StatusInProgress then (.error .mustBeInProgress, st)
    else
      let ticket : Ticket :=
        { ticket with Status := StatusCompleted, CompletedAt := some now }
      match ticketRepo.Update f st ticket with
      | .error e => (.error (.doctorUpdateFailed e), st)
      | .ok (ticket, st1) => (.ok ticket, st1)

/-! ## Names for what the theorems speak about -/

/-- The reception-log row `CallNextTicket` and `CallSpecificTicket` append. -/
def callLogEntry (st : Store) (ticketID : Nat) (registrarID : Option Nat) (windowNumber : Int)
    (now : Int) : ReceptionLog :=
  { LogID := nextLogID st, TicketID := ticketID, RegistrarID := registrarID,
    WindowNumber := windowNumber, CalledAt := now, CompletedAt := none, Duration := none }

deriving instance DecidableEq for Except

/-! ## The ranking scenario -/

/-- A ticket in the state `CreateTicket` leaves it in. -/
def waitingTicket (id : Nat) (number : Str) (created : Int) : Ticket :=
  { ID := id, TicketNumber := number, Status := StatusWaiting, ServiceType := none,
    WindowNumber := none, QRCode := [], CreatedAt := created, CalledAt := none,
    StartedAt := none, CompletedAt := none }

/-- Two minutes in microseconds. -/
def twoMinutes : Nat := 120000000

/-- Three waiting tickets at database time `c`: ticket 1 is linked to a slot of
today that started ten minutes ago, ticket 2 to a slot of today starting in two
minutes, ticket 3 has no appointment. -/
def rankingStore (c : DBClock) (cA cB cC : Int) : Store :=
  { tickets :=
      [waitingTicket 1 ['A', '0', '0', '1'] cA, waitingTicket 2 ['A', '0', '0', '2'] cB,
        waitingTicket 3 ['A', '0', '0', '3'] cC]
    receptionLogs := []
    services := []
    priorities := []
    schedules :=
      [{ ID := 10, DoctorID := 1, Date := c.date, StartTime := c.time - 2 * fiveMinutes,
         EndTime := c.time, IsAvailable := false, Cabinet := none },
       { ID := 11, DoctorID := 1, Date := c.date, StartTime := c.time + twoMinutes,
         EndTime := c.time + 2 * fiveMinutes, IsAvailable := false, Cabinet := none }]
    appointments :=
      [{ ID := 1, ScheduleID := 10, PatientID := none, TicketID := some 1, CreatedAt := 0 },
       { ID := 2, ScheduleID := 11, PatientID := none, TicketID := some 2, CreatedAt := 0 }] }

/-- Noon of day 20000 on the database clock. -/
def noonClock : DBClock := { date := 20000, time := 43200000000 }

/-- The prefix holds no `LIKE` metacharacter (`%`, `_`, backslash). -/
def likeLiteral (pfx : Str) : Bool :=
  pfx.all (fun c => c ≠ '%' && c ≠ '_' && c ≠ Char.ofNat 92)

/-- The three-digit zero-padded decimal of `n` (for `n < 1000`). -/
def threeDigits (n : Nat) : Str :=
  [digitChar (n / 100), digitChar (n / 10 % 10), digitChar (n % 10)]

/-- The specification's "current maximum numeric suffix among the tickets
whose number starts with the letter, 0 when there is none": every such ticket
has a numeric suffix (what follows the letter) at most `m`, and `m` is the
suffix of one of them, or there is none and `m` is 0. -/
def IsMaxSuffix (st : Store) (letter : Str) (m : Int) : Prop :=
  (∀ t ∈ st.tickets, letter.isPrefixOf t.TicketNumber = true →
    ∃ v, castInteger (t.TicketNumber.drop letter.length) = some v ∧ v ≤ m) ∧
  ((∃ t ∈ st.tickets, letter.isPrefixOf t.TicketNumber = true ∧
      castInteger (t.TicketNumber.drop letter.length) = some m) ∨
    (m = 0 ∧ ∀ t ∈ st.tickets, letter.isPrefixOf t.TicketNumber = false))

/-- A service whose letter is the wildcard `_`, and one ticket `B007`. -/
def underscoreStore : Store :=
  { tickets := [waitingTicket 1 ['B', '0', '0', '7'] 10]
    receptionLogs := []
    services := [{ ID := 1, ServiceID := "other", Name := "other", Letter := ['_'] }]
    priorities := []
    schedules := []
    appointments := [] }

/-- A service whose letter has two characters, and one ticket `AB001`. -/
def twoLetterStore : Store :=
  { tickets := [waitingTicket 1 ['A', 'B', '0', '0', '1'] 10]
    receptionLogs := []
    services := [{ ID := 1, ServiceID := "other", Name := "other", Letter := ['A', 'B'] }]
    priorities := []
    schedules := []
    appointments := [] }

/-- A store with services A and B and tickets `A001`, `A005`, `B007`. -/
def numberingStore : Store :=
  { tickets :=
      [waitingTicket 1 ['A', '0', '0', '1'] 10, waitingTicket 2 ['A', '0', '0', '5'] 20,
        waitingTicket 3 ['B', '0', '0', '7'] 30]
    receptionLogs := []
    services :=
      [{ ID := 1, ServiceID := "make_appointment", Name := "A", Letter := ['A'] },
       { ID := 2, ServiceID := "confirm_appointment", Name := "B", Letter := ['B'] }]
    priorities := []
    schedules := []
    appointments := [] }

/-- A store whose letter A has reached the ceiling: tickets `A001` and `A999`. -/
def wrapStore : Store :=
  { tickets :=
      [waitingTicket 1 ['A', '0', '0', '1'] 10, waitingTicket 2 ['A', '9', '9', '9'] 20]
    receptionLogs := []
    services := [{ ID := 1, ServiceID := "make_appointment", Name := "A", Letter := ['A'] }]
    priorities := []
    schedules := []
    appointments := [] }

/-- The ticket numbers in the store. -/
def ticketNumbers (st : Store) : List Str := st.tickets.map (fun t => t.TicketNumber)

/-- A sequence of `CreateTicket` calls, each with the failures the store
reports, its clock reading and its service. -/
def createTickets (st : Store) : List (Faults × Int × String) → Store
  | [] => st
  | (f, now, serviceID) :: rest => createTickets (CreateTicket f st now serviceID).2 rest

/-- The ticket as `StartAppointment` rewrites it. -/
def startTicket (t : Ticket) (now : Int) : Ticket :=
  { t with Status := StatusInProgress, StartedAt := some now }

/-- The ticket as `CompleteAppointment` rewrites it. -/
def completeTicket (t : Ticket) (now : Int) : Ticket :=
  { t with Status := StatusCompleted, CompletedAt := some now }

/-- The store after the rows with the primary key of `t1` are overwritten by
`t1`. -/
def replaceTicket (st : Store) (t1 : Ticket) : Store :=
  { st with tickets := st.tickets.map (fun y => if y.ID = t1.ID then t1 else y) }

/-- The ticket stored under a primary key. -/
def storedTicket (st : Store) (id : Nat) : Option Ticket :=
  st.tickets.find? (fun y => decide (y.ID = id))

/-- A registration desk in the middle of a day: ticket 1 waits, ticket 2 is
registered for a doctor, ticket 3 is with the doctor and ticket 4 is invited
to window 2; the reception-log rows of tickets 3 and 4 are still open. -/
def deskStore : Store :=
  { tickets :=
      [waitingTicket 1 ['A', '0', '0', '1'] 10,
       { waitingTicket 2 ['A', '0', '0', '2'] 20 with
         Status := StatusRegistered, WindowNumber := some 1, CalledAt := some 90 },
       { waitingTicket 3 ['A', '0', '0', '3'] 30 with
         Status := StatusInProgress, WindowNumber := some 1, CalledAt := some 100,
         StartedAt := some 150 },
       { waitingTicket 4 ['A', '0', '0', '4'] 40 with
         Status := StatusInvited, WindowNumber := some 2, CalledAt := some 200 }]
    receptionLogs :=
      [{ LogID := 1, TicketID := 2, RegistrarID := some 7, WindowNumber := 1, CalledAt := 90,
         CompletedAt := some 95, Duration := some 5 },
       { LogID := 2, TicketID := 3, RegistrarID := some 7, WindowNumber := 1, CalledAt := 100,
         CompletedAt := none, Duration := none },
       { LogID := 3, TicketID := 4, RegistrarID := some 8, WindowNumber := 2, CalledAt := 200,
         CompletedAt := none, Duration := none }]
    services := [{ ID := 1, ServiceID := "make_appointment", Name := "A", Letter := ['A'] }]
    priorities := []
    schedules := []
    appointments := [] }

/-- The store reports a failure for the reception-log insert only. -/
def logCreateFails : Faults := { Faults.none with logCreate := true }

/-- The specification's eligibility: a waiting ticket whose first letter is in
the filter set, or any waiting ticket when the set is empty. -/
def eligible (filterSet : List Str) (t : Ticket) : Prop :=
  t.Status = StatusWaiting ∧ (filterSet = [] ∨ t.TicketNumber.take 1 ∈ filterSet)

instance (filterSet : List Str) : DecidablePred (eligible filterSet) := fun t => by
  unfold eligible; infer_instance

/-- The filter set of the specification: the category prefix alone when it is
not empty, otherwise the letters of the services the registrar has a priority
row for. -/
def specFilterSet (st : Store) (categoryPrefix : Str) (registrarID : Nat) : List Str :=
  if categoryPrefix ≠ [] then [categoryPrefix]
  else
    (st.services.filter (fun s =>
      st.priorities.any (fun p => p.RegistrarID = registrarID ∧ p.ServiceID = s.ID))).map
      (fun s => s.Letter)

/-- The store with other service and priority tables. -/
def withPriorities (st : Store) (services : List Service)
    (priorities : List RegistrarCategoryPriority) : Store :=
  { st with services := services, priorities := priorities }

/-- The ticket as `finalizeReceptionAndUpdateTicket` saves it: `completed_at`
is stamped when the target status is completed. -/
def stampCompleted (ticket : Ticket) (now : Int) : Ticket :=
  if ticket.Status = StatusCompleted then { ticket with CompletedAt := some now } else ticket

/-- The reception-log row as `finalizeReceptionAndUpdateTicket` closes it. -/
def closeLog (l : ReceptionLog) (now : Int) : ReceptionLog :=
  { l with CompletedAt := some now, Duration := some (timeSub now l.CalledAt) }

/-- The store after the log rows with the primary key of `l1` are overwritten
by `l1`. -/
def replaceLog (st : Store) (l1 : ReceptionLog) : Store :=
  { st with
    receptionLogs := st.receptionLogs.map (fun x => if x.LogID = l1.LogID then l1 else x) }

/-! ## Phone normalisation -/

/-- `regexp.MustCompile("[^0-9]+").ReplaceAllString(src, repl)`: every maximal
run of characters other than `0`..`9` is replaced by `repl`. The flag tells
whether the scan is inside such a run, whose replacement was already written. -/
def replaceNonDigitRuns (repl : Str) : Bool → Str → Str
  | _, [] => []
  | inRun, c :: cs =>
    if isDigitChar c then c :: replaceNonDigitRuns repl false cs
    else if inRun then replaceNonDigitRuns repl true cs
    else repl ++ replaceNonDigitRuns repl true cs

/-- The first statement of `CheckInByPhone`: the runs are replaced by the empty
string. -/
def sanitizePhone (phone : Str) : Str := replaceNonDigitRuns [] false phone

/-! ## Business processes -/

/-- The columns of `models.BusinessProcess`; `process_name` is the primary key. -/
structure BusinessProcess where
  ProcessName : String
  IsEnabled : Bool
  deriving DecidableEq, Repr

/-- What `BusinessProcessService` works on: the table `business_processes`
behind its repository and the in-memory map `states`. -/
structure ProcessState where
  processes : List BusinessProcess
  states : String → Option Bool

/-- `businessProcessRepo.FindByName`. -/
def businessProcessRepo.FindByName (f : Faults) (s : ProcessState) (name : String) :
    Except Error BusinessProcess :=
  if f.processFind then .error .storeFailure
  else
    match s.processes.find? (fun p => p.ProcessName = name) with
    | some p => .ok p
    | none => .error .recordNotFound

/-- `businessProcessRepo.Update` (`db.Save`): an empty primary key makes it an
insert, which the primary key rejects when the name is taken; otherwise the row
with this name is overwritten, or inserted when there is none. -/
def businessProcessRepo.Update (f : Faults) (s : ProcessState) (p : BusinessProcess) :
    Except Error ProcessState :=
  if f.processUpdate then .error .storeFailure
  else if p.ProcessName = "" then
    if s.processes.any (fun x => x.ProcessName = p.ProcessName) then .error .uniqueViolation
    else .ok { s with processes := s.processes ++ [p] }
  else if s.processes.any (fun x => x.ProcessName = p.ProcessName) then
    .ok { s with processes := s.processes.map (fun x => if x.ProcessName = p.ProcessName then p else x) }
  else .ok { s with processes := s.processes ++ [p] }

/-- `BusinessProcessService.IsEnabled`: `enabled, exists := s.states[name]`,
`return exists && enabled`. -/
def IsEnabled (s : ProcessState) (name : String) : Bool :=
  match s.states name with
  | some enabled => enabled
  | none => false

/-- `BusinessProcessService.UpdateStatus`. -/
def UpdateStatus (f : Faults) (s : ProcessState) (name : String) (isEnabled : Bool) :
    Except Error BusinessProcess × ProcessState :=
  match businessProcessRepo.FindByName f s name with
  | .error _ => (.error (.processNotFound name), s)
  | .ok found =>
    let process : BusinessProcess := { found with IsEnabled := isEnabled }
    match businessProcessRepo.Update f s process with
    | .error e => (.error (.processUpdateFailed name e), s)
    | .ok s1 => (.ok process, { s1 with states := Function.update s1.states name (some isEnabled) })

/-! ## The broker of server-sent events -/

/-- A buffered `chan string`: the messages waiting in its buffer, oldest first,
and whether `close` was called on it. -/
structure Chan where
  buf : List String
  closed : Bool
  deriving DecidableEq, Repr

/-- The capacity of the channels `Subscribe` makes: `make(chan string, 10)`. -/
def subscriberBuffer : Nat := 10

/-- The channels made so far, a handle being the position of its channel, and
the keys of the map `Broker.subscribers`. -/
structure Broker where
  chans : List Chan
  subscribers : List Nat
  deriving DecidableEq, Repr

/-- `NewBroker`. -/
def NewBroker : Broker := { chans := [], subscribers := [] }

/-- `Broker.Subscribe`: a new channel is made and becomes a key of the map. -/
def Broker.Subscribe (b : Broker) : Nat × Broker :=
  let ch := b.chans.length
  (ch, { chans := b.chans ++ [{ buf := [], closed := false }]
         subscribers := b.subscribers.insert ch })

/-- `Broker.Unsubscribe`: only a key of the map is deleted and closed. Closing a
closed channel panics: `none`. -/
def Broker.Unsubscribe (b : Broker) (ch : Nat) : Option Broker :=
  if ch ∈ b.subscribers then
    match b.chans[ch]? with
    | some c =>
      if c.closed then none
      else some { chans := b.chans.set ch { c with closed := true }
                  subscribers := b.subscribers.filter (fun x => x ≠ ch) }
    | none => none
  else some b

/-- The `select` of `Publish` on one channel: the send is taken when the buffer
has room, the `default` branch otherwise. A send on a closed channel panics:
`none`. -/
def sendOrDrop (chans : List Chan) (ch : Nat) (msg : String) : Option (List Chan) :=
  match chans[ch]? with
  | some c =>
    if c.closed then none
    else if c.buf.length < subscriberBuffer then
      some (chans.set ch { c with buf := c.buf ++ [msg] })
    else some chans
  | none => some chans

/-- The loop of `Publish` over the keys of the map. -/
def publishLoop (msg : String) : List Nat → List Chan → Option (List Chan)
  | [], chans => some chans
  | ch :: rest, chans =>
    match sendOrDrop chans ch msg with
    | some chans1 => publishLoop msg rest chans1
    | none => none

/-- `Broker.Publish`. -/
def Broker.Publish (b : Broker) (msg : String) : Option Broker :=
  match publishLoop msg b.subscribers b.chans with
  | some chans => some { b with chans := chans }
  | none => none

/-- The receive `<-clientChan` of a subscriber: the oldest buffered message, if
there is one, leaves the buffer. -/
def Broker.Receive (b : Broker) (ch : Nat) : Option String × Broker :=
  match b.chans[ch]? with
  | some c =>
    match c.buf with
    | m :: rest => (some m, { b with chans := b.chans.set ch { c with buf := rest } })
    | [] => (none, b)
  | none => (none, b)

/-- What can happen to a broker. -/
inductive BrokerEvent where
  | subscribe
  | unsubscribe (ch : Nat)
  | publish (msg : String)
  | receive (ch : Nat)
  deriving DecidableEq, Repr

/-- One event; `none` is a panic. -/
def Broker.step (b : Broker) : BrokerEvent → Option Broker
  | .subscribe => some b.Subscribe.2
  | .unsubscribe ch => b.Unsubscribe ch
  | .publish msg => b.Publish msg
  | .receive ch => some (b.Receive ch).2

/-- A sequence of events. -/
def Broker.run (b : Broker) : List BrokerEvent → Option Broker
  | [] => some b
  | e :: es =>
    match b.step e with
    | some b1 => b1.run es
    | none => none

/-- The messages the reader of `ch` takes during a sequence of events. -/
def Broker.reads (ch : Nat) (b : Broker) : List BrokerEvent → List String
  | [] => []
  | e :: es =>
    match b.step e with
    | some b1 =>
      (if e = .receive ch then (b.Receive ch).1.toList else []) ++ Broker.reads ch b1 es
    | none => []

/-- The messages published during a sequence of events. -/
def published : List BrokerEvent → List String
  | [] => []
  | .publish msg :: es => msg :: published es
  | _ :: es => published es

/-- The buffer of a channel, empty for a handle without channel. -/
def Broker.buffer (b : Broker) (ch : Nat) : List String :=
  match b.chans[ch]? with
  | some c => c.buf
  | none => []

/-- Every key of the subscriber map is an open channel, and no key is listed
twice. -/
def Broker.WellFormed (b : Broker) : Prop :=
  b.subscribers.Nodup ∧
  ∀ ch ∈ b.subscribers, ∃ c, b.chans[ch]? = some c ∧ c.closed = false

/-- A service with one enabled and one disabled process. -/
def processCache : ProcessState :=
  { processes := [{ ProcessName := "appointment", IsEnabled := true },
                  { ProcessName := "registry", IsEnabled := false }]
    states := fun n =>
      if n = "appointment" then some true else if n = "registry" then some false else none }

/-- What the `select` of `Publish` does to an open channel. -/
def deliver (c : Chan) (msg : String) : Chan :=
  if c.buf.length < subscriberBuffer then { c with buf := c.buf ++ [msg] } else c

/-- A broker with one full, one half-empty and one unsubscribed, closed channel. -/
def busyBroker : Broker :=
  { chans := [{ buf := ["1", "2", "3", "4", "5", "6", "7", "8", "9", "10"], closed := false },
              { buf := ["9", "10"], closed := false },
              { buf := ["10"], closed := true }]
    subscribers := [1, 0] }

/-- Two subscriptions, a publication, the first subscriber leaving, and a
second publication. -/
def sessionEvents : List BrokerEvent :=
  [.subscribe, .subscribe, .publish "a", .unsubscribe 0, .publish "b"]

/-- The broker after `sessionEvents`. -/
def sessionBroker : Broker :=
  { chans := [{ buf := ["a"], closed := true }, { buf := ["a", "b"], closed := false }]
    subscribers := [1] }

/-! ## Appointments -/

/-- `models.CreateAppointmentRequest`. -/
structure CreateAppointmentRequest where
  ScheduleID : Nat
  PatientID : Option Nat
  TicketID : Option Nat
  deriving DecidableEq, Repr

/-- The primary key the sequence `appointment_id` gives next. -/
def nextAppointmentID (st : Store) : Nat :=
  (st.appointments.map (fun a => a.ID)).foldl max 0 + 1

/-- The primary key the sequence `schedule_id` gives next. -/
def nextScheduleID (st : Store) : Nat :=
  (st.schedules.map (fun s => s.ID)).foldl max 0 + 1

/-- The insert of an appointment (`Create`): the primary key rejects a
duplicate; a zero primary key is replaced by a generated one, written back. -/
def insertAppointment (st : Store) (a : Appointment) : Except Error (Appointment × Store) :=
  if a.ID ≠ 0 ∧ st.appointments.any (fun x => x.ID = a.ID) then .error .uniqueViolation
  else
    let a' : Appointment := if a.ID = 0 then { a with ID := nextAppointmentID st } else a
    .ok (a', { st with appointments := st.appointments ++ [a'] })

/-- The insert of a schedule slot: the unique index `idx_doctor_date_start` and
the primary key reject duplicates. -/
def insertSchedule (st : Store) (s : Schedule) : Except Error Store :=
  if st.schedules.any (fun x =>
      x.DoctorID = s.DoctorID ∧ x.Date = s.Date ∧ x.StartTime = s.StartTime) then
    .error .uniqueViolation
  else if s.ID ≠ 0 ∧ st.schedules.any (fun x => x.ID = s.ID) then .error .uniqueViolation
  else
    let s' : Schedule := if s.ID = 0 then { s with ID := nextScheduleID st } else s
    .ok { st with schedules := st.schedules ++ [s'] }

/-- The `Save` of a schedule slot: a zero primary key makes it an insert;
otherwise every column of the row with this primary key is overwritten, and
when no row has it the slot is inserted. -/
def saveSchedule (failed : Bool) (st : Store) (s : Schedule) : Except Error Store :=
  if failed then .error .storeFailure
  else if s.ID = 0 then insertSchedule st s
  else if st.schedules.any (fun x => x.ID = s.ID) then
    .ok { st with schedules := st.schedules.map (fun x => if x.ID = s.ID then s else x) }
  else insertSchedule st s

/-- The query `First(&schedule, id)`. -/
def firstSchedule (failed : Bool) (st : Store) (id : Nat) : Except Error Schedule :=
  if failed then .error .storeFailure
  else
    match st.schedules.find? (fun s => s.ID = id) with
    | some s => .ok s
    | none => .error .recordNotFound

/-- `appointmentRepo.FindByID` and the reload that ends
`CreateAppointmentInTransaction` (`First(&appointment, id)`). -/
def appointmentRepo.FindByID (failed : Bool) (st : Store) (id : Nat) : Except Error Appointment :=
  if failed then .error .storeFailure
  else
    match st.appointments.find? (fun a => a.ID = id) with
    | some a => .ok a
    | none => .error .recordNotFound

/-- `appointmentRepo.Update` (`db.Save`). -/
def appointmentRepo.Update (failed : Bool) (st : Store) (a : Appointment) : Except Error Store :=
  if failed then .error .storeFailure
  else if a.ID = 0 then (insertAppointment st a).map (fun r => r.2)
  else if st.appointments.any (fun x => x.ID = a.ID) then
    .ok { st with appointments := st.appointments.map (fun x => if x.ID = a.ID then a else x) }
  else (insertAppointment st a).map (fun r => r.2)

/-- `appointmentRepo.CreateAppointmentInTransaction`: an error inside the
transaction rolls it back; the reload after the commit does not. -/
def appointmentRepo.CreateAppointmentInTransaction (f : Faults) (st : Store) (now : Int)
    (req : CreateAppointmentRequest) : Except Error Appointment × Store :=
  match firstSchedule f.scheduleLock st req.ScheduleID with
  | .error e => (.error (if e = .recordNotFound then .slotNotFound else e), st)
  | .ok schedule =>
    if ¬ schedule.IsAvailable then (.error .slotTaken, st)
    else
      let appointment : Appointment :=
        { ID := 0, ScheduleID := req.ScheduleID, PatientID := req.PatientID,
          TicketID := req.TicketID, CreatedAt := now }
      match (if f.appointmentCreate then .error .storeFailure
             else insertAppointment st appointment) with
      | .error e => (.error e, st)
      | .ok (appointment, st1) =>
        match saveSchedule f.scheduleSave st1 { schedule with IsAvailable := false } with
        | .error e => (.error e, st)
        | .ok st2 =>
          match appointmentRepo.FindByID f.appointmentReload st2 appointment.ID with
          | .error e => (.error e, st2)
          | .ok reloaded => (.ok reloaded, st2)

/-- `AppointmentService.CreateAppointment`. -/
def CreateAppointment (f : Faults) (st : Store) (now : Int) (req : CreateAppointmentRequest) :
    Except Error Appointment × Store :=
  if req.ScheduleID = 0 then (.error .scheduleIDRequired, st)
  else
    match appointmentRepo.CreateAppointmentInTransaction f st now req with
    | (.error e, st1) => (.error (.createAppointmentFailed e), st1)
    | (.ok appointment, st1) => (.ok appointment, st1)

/-- One `CreateAppointment` call after the other; the results in call order. -/
def createAppointments (f : Faults) (now : Int) :
    Store → List CreateAppointmentRequest → List (Except Error Appointment) × Store
  | st, [] => ([], st)
  | st, req :: reqs =>
    ((CreateAppointment f st now req).1 ::
        (createAppointments f now (CreateAppointment f st now req).2 reqs).1,
      (createAppointments f now (CreateAppointment f st now req).2 reqs).2)

/-- `AppointmentService.ConfirmAppointment`. -/
def ConfirmAppointment (f : Faults) (st : Store) (appointmentID ticketID : Nat) :
    Except Error Appointment × Store :=
  match appointmentRepo.FindByID f.appointmentFind st appointmentID with
  | .error e => (.error (.appointmentNotFound e), st)
  | .ok found =>
    if found.TicketID ≠ none then (.error .appointmentAlreadyConfirmed, st)
    else
      match ticketRepo.GetByID f st ticketID with
      | .error e => (.error (.doctorTicketNotFound e), st)
      | .ok ticket =>
        if ticket.Status = StatusRegistered ∨ ticket.Status = StatusInProgress then
          (.error .ticketInUse, st)
        else
          let appointment : Appointment := { found with TicketID := some ticketID }
          match appointmentRepo.Update f.appointmentUpdate st appointment with
          | .error e => (.error (.appointmentUpdateFailed e), st)
          | .ok st1 =>
            match ticketRepo.Update f st1 { ticket with Status := StatusRegistered } with
            | .error e =>
              match appointmentRepo.Update f.appointmentRevert st1
                  { appointment with TicketID := none } with
              | .error _ => (.error (.ticketStatusUpdateFailed e), st1)
              | .ok st2 => (.error (.ticketStatusUpdateFailed e), st2)
            | .ok (_, st2) => (.ok appointment, st2)

/-! ## Check-in by phone -/

/-- A reading of the application clock: the calendar day `now.Format` prints
and the time of day in microseconds. -/
structure WallClock where
  date : Nat
  time : Nat
  deriving DecidableEq, Repr

/-- The row with the least primary key (`First` orders by `patient_id`). -/
def firstPatient : List Patient → Option Patient
  | [] => none
  | p :: ps => some (ps.foldl (fun best x => if x.ID < best.ID then x else best) p)

/-- `patientRepo.FindByPhone`: the stored phone is normalised by
`regexp_replace(phone, '[^0-9]+', '', 'g')` before the comparison; of the
patients with the phone, `First` takes the one with the least primary key. -/
def patientRepo.FindByPhone (f : Faults) (st : Store) (phone : Str) : Except Error Patient :=
  if f.patientFind then .error .storeFailure
  else
    match firstPatient (st.patients.filter (fun p => sanitizePhone p.Phone = phone)) with
    | some p => .ok p
    | none => .error .recordNotFound

/-- A row of the join of `FindUpcomingByPatientID`. -/
structure UpcomingRow where
  appointment : Appointment
  startTime : Nat
  deriving DecidableEq, Repr

/-- The rows of `FindUpcomingByPatientID`: appointments of the patient without
ticket, joined with their schedule slot when its date is `today`. -/
def upcomingRows (st : Store) (patientID : Nat) (today : Nat) : List UpcomingRow :=
  (st.appointments.filter (fun a => a.PatientID = some patientID ∧ a.TicketID = none)).flatMap
    (fun a => (st.schedules.filter (fun s => s.ID = a.ScheduleID ∧ s.Date = today)).map
      (fun s => { appointment := a, startTime := s.StartTime }))

/-- The order `schedules.start_time asc`, then the primary key `First` adds. -/
def upcomingBefore (a b : UpcomingRow) : Prop :=
  a.startTime < b.startTime ∨ (a.startTime = b.startTime ∧ a.appointment.ID < b.appointment.ID)

instance : DecidableRel upcomingBefore := fun a b => by
  unfold upcomingBefore; infer_instance

/-- The first row in the order `upcomingBefore`. -/
def firstUpcoming : List UpcomingRow → Option UpcomingRow
  | [] => none
  | r :: rs =>
    match firstUpcoming rs with
    | some best => if upcomingBefore best r then some best else some r
    | none => some r

/-- `appointmentRepo.FindUpcomingByPatientID`: of `now` only the day is used. -/
def appointmentRepo.FindUpcomingByPatientID (f : Faults) (st : Store) (patientID : Nat)
    (now : WallClock) : Except Error Appointment :=
  if f.upcomingFind then .error .storeFailure
  else
    match firstUpcoming (upcomingRows st patientID now.date) with
    | some r => .ok r.appointment
    | none => .error .recordNotFound

/-- `appointmentRepo.AssignTicketToAppointment`: the ticket is inserted and the
column `ticket_id` of the appointment set, in one transaction. An update
without primary key is refused. -/
def appointmentRepo.AssignTicketToAppointment (f : Faults) (st : Store)
    (appointment : Appointment) (ticket : Ticket) : Except Error (Ticket × Store) :=
  match ticketRepo.Create f st ticket with
  | .error e => .error e
  | .ok (created, st1) =>
    if f.appointmentLink then .error .storeFailure
    else if appointment.ID = 0 then .error .storeFailure
    else
      .ok (created, { st1 with appointments := st1.appointments.map (fun a =>
        if a.ID = appointment.ID then { a with TicketID := some created.ID } else a) })

/-- `TicketService.CheckInByPhone`; `now` and `created` are its two clock
readings. -/
def CheckInByPhone (f : Faults) (st : Store) (now : WallClock) (created : Int) (phone : Str) :
    Except Error Ticket × Store :=
  let sanitizedPhone := sanitizePhone phone
  match patientRepo.FindByPhone f st sanitizedPhone with
  | .error e =>
    if e = .recordNotFound then (.error .patientNotFound, st)
    else (.error (.patientSearchFailed e), st)
  | .ok patient =>
    match appointmentRepo.FindUpcomingByPatientID f st patient.ID now with
    | .error e =>
      if e = .recordNotFound then (.error .noUpcomingAppointment, st)
      else (.error (.appointmentSearchFailed e), st)
    | .ok appointment =>
      match generateTicketNumber f st "confirm_appointment" with
      | .error e => (.error e, st)
      | .ok ticketNumber =>
        let newTicket : Ticket :=
          { ID := 0, TicketNumber := ticketNumber, Status := StatusWaiting,
            ServiceType := some "confirm_appointment", WindowNumber := none, QRCode := [],
            CreatedAt := created, CalledAt := none, StartedAt := none, CompletedAt := none }
        match appointmentRepo.AssignTicketToAppointment f st appointment newTicket with
        | .error e => (.error (.assignTicketFailed e), st)
        | .ok (ticket, st1) => (.ok ticket, st1)

/-- The appointment `CreateAppointment` inserts for a request. -/
def bookedAppointment (st : Store) (now : Int) (req : CreateAppointmentRequest) : Appointment :=
  { ID := nextAppointmentID st, ScheduleID := req.ScheduleID, PatientID := req.PatientID,
    TicketID := req.TicketID, CreatedAt := now }

/-- The store with the appointment added and the slot `s` marked as taken. -/
def bookSlot (st : Store) (a : Appointment) (s : Schedule) : Store :=
  { st with
    appointments := st.appointments ++ [a]
    schedules := st.schedules.map (fun x => if x.ID = s.ID then { s with IsAvailable := false } else x) }

/-- One free slot (10), one taken slot (11) with its appointment, and two
patients; the second has two appointments without ticket on day 20000. -/
def clinicStore : Store :=
  { tickets := [waitingTicket 1 ['A', '0', '0', '1'] 5,
                { waitingTicket 2 ['A', '0', '0', '2'] 6 with Status := StatusInProgress }]
    receptionLogs := []
    services := [{ ID := 2, ServiceID := "confirm_appointment", Name := "B", Letter := ['B'] }]
    priorities := []
    schedules :=
      [{ ID := 10, DoctorID := 1, Date := 20000, StartTime := 36000000000,
         EndTime := 37800000000, IsAvailable := true, Cabinet := none },
       { ID := 11, DoctorID := 1, Date := 20000, StartTime := 54000000000,
         EndTime := 55800000000, IsAvailable := false, Cabinet := none },
       { ID := 12, DoctorID := 1, Date := 20000, StartTime := 28800000000,
         EndTime := 30600000000, IsAvailable := false, Cabinet := none }]
    appointments :=
      [{ ID := 1, ScheduleID := 11, PatientID := some 2, TicketID := none, CreatedAt := 0 },
       { ID := 2, ScheduleID := 12, PatientID := some 2, TicketID := none, CreatedAt := 0 }]
    patients :=
      [{ ID := 1, PassportSeries := "1234", PassportNumber := "567890", FullName := "A",
         BirthDate := 0, Phone := "+7 (913) 000-11-22".toList, OmsNumber := "1" },
       { ID := 2, PassportSeries := "1234", PassportNumber := "567891", FullName := "B",
         BirthDate := 0, Phone := "8-913-000-33-44".toList, OmsNumber := "2" }] }

/-- Two more requests for the slot 10. -/
def repeatedRequests : List CreateAppointmentRequest :=
  [{ ScheduleID := 10, PatientID := some 2, TicketID := none },
   { ScheduleID := 10, PatientID := none, TicketID := none }]

/-- The appointment stored under a primary key. -/
def storedAppointment (st : Store) (id : Nat) : Option Appointment :=
  st.appointments.find? (fun a => decide (a.ID = id))

/-- The store with another appointment table. -/
def withAppointments (st : Store) (appointments : List Appointment) : Store :=
  { st with appointments := appointments }

/-- The store after the rows with the primary key of `a` are overwritten by `a`. -/
def replaceAppointment (st : Store) (a : Appointment) : Store :=
  { st with appointments := st.appointments.map (fun x => if x.ID = a.ID then a else x) }

/-- The ticket `CheckInByPhone` inserts. -/
def checkInTicket (st : Store) (number : Str) (created : Int) : Ticket :=
  { ID := nextTicketID st, TicketNumber := number, Status := StatusWaiting,
    ServiceType := some "confirm_appointment", WindowNumber := none, QRCode := [],
    CreatedAt := created, CalledAt := none, StartedAt := none, CompletedAt := none }

/-- The store with the ticket added and the appointments of the primary key of
`a` referring to it. -/
def attachTicket (st : Store) (a : Appointment) (t : Ticket) : Store :=
  { st with
    tickets := st.tickets ++ [t]
    appointments := st.appointments.map (fun x =>
      if x.ID = a.ID then { x with TicketID := some t.ID } else x) }

/-- The specification's eligible rows: the patient's appointments without
ticket, dated today, "whose start time is not before now". -/
def specUpcoming (st : Store) (patientID : Nat) (now : WallClock) (r : UpcomingRow) : Prop :=
  r ∈ upcomingRows st patientID now.date ∧ now.time ≤ r.startTime

instance (st : Store) (patientID : Nat) (now : WallClock) (r : UpcomingRow) :
    Decidable (specUpcoming st patientID now r) := by
  unfold specUpcoming; infer_instance

/-- Noon of day 20000 on the application clock. -/
def noonWall : WallClock := { date := 20000, time := 43200000000 }

/-! ## Announcements -/

/-- The errors of `internal/utils/audio.go`. -/
inductive AudioError where
  /-- "неверный формат номера талона: %s" -/
  | badTicketFormat (ticket : Str)
  /-- "ошибка преобразования номера: %v" -/
  | conversion
  /-- "номер должен быть от 1 до 99" -/
  | outOfRange
  /-- "ошибка парсинга номера талона: %v" -/
  | ticketParse (cause : AudioError)
  /-- "ошибка получения файлов для номера: %v" -/
  | numberFiles (cause : AudioError)
  /-- "ошибка получения файлов для номера окна: %v" -/
  | windowFiles (cause : AudioError)
  /-- An error of the steps that read, join and mix the audio files. -/
  | rendering
  deriving DecidableEq, Repr

/-- `strconv.Atoi` with a 64-bit `int`: an optional sign and at least one
decimal digit, the value within the range of `int`; `none` is its error. -/
def strconv.Atoi (s : Str) : Option Int :=
  let neg := s.head? = some '-'
  let body := if s.head? = some '-' ∨ s.head? = some '+' then s.drop 1 else s
  if body = [] ∨ body.all isDigitChar = false then none
  else
    let v : Int := if neg then -(digitsValue body : Int) else (digitsValue body : Int)
    if -9223372036854775808 ≤ v ∧ v ≤ 9223372036854775807 then some v else none

/-- `strconv.Itoa`, also `fmt.Sprintf("%d", n)`. -/
def strconv.Itoa (n : Int) : Str :=
  if n < 0 then '-' :: fmtDigits n.natAbs else fmtDigits n.toNat

/-- A letter of `[A-Z]`. -/
def isUpperLetter (c : Char) : Bool := 65 ≤ c.toNat && c.toNat ≤ 90

/-- `parseTicketNumber`: the regular expression `^([A-Z])(\d+)$` on
`strings.ToUpper(ticket)`, then `Atoi` and `Itoa` on the digits. `upper` is
`unicode.ToUpper`, which `strings.ToUpper` applies to every character. -/
def parseTicketNumber (upper : Char → Char) (ticket : Str) : Except AudioError (Str × Str) :=
  match ticket.map upper with
  | [] => .error (.badTicketFormat ticket)
  | c :: number =>
    if isUpperLetter c = false ∨ number = [] ∨ number.all isDigitChar = false then
      .error (.badTicketFormat ticket)
    else
      match strconv.Atoi number with
      | none => .error .conversion
      | some numberInt => .ok ([c], strconv.Itoa numberInt)

/-- `getNumberFiles`; `join` is `filepath.Join`. -/
def getNumberFiles (join : Str → Str → Str) (number audioDir : Str) :
    Except AudioError (List Str) :=
  match strconv.Atoi number with
  | none => .error .conversion
  | some num =>
    if num < 1 ∨ num > 99 then .error .outOfRange
    else if num ≤ 20 then .ok [join audioDir (strconv.Itoa num ++ ".wav".toList)]
    else
      let tens := (num / 10) * 10
      let ones := num % 10
      let files := [join audioDir (strconv.Itoa tens ++ ".wav".toList)]
      if ones > 0 then .ok (files ++ [join audioDir (strconv.Itoa ones ++ ".wav".toList)])
      else .ok files

/-- `GenerateAnnouncementWav` up to the list of audio files; `render` stands
for what follows, the only part that reads files: `concatenateWavFiles` and,
with background music, `loadWavFile` and `mixAudioTracks`. -/
def GenerateAnnouncementWav (upper : Char → Char) (join : Str → Str → Str)
    (render : List Str → Bool → Except AudioError (List Nat))
    (ticketNumber windowNumber audioDir : Str) (backgroundMusicEnabled : Bool) :
    Except AudioError (List Nat) :=
  match parseTicketNumber upper ticketNumber with
  | .error e => .error (.ticketParse e)
  | .ok (letter, number) =>
    let audioFiles :=
      [join audioDir "Klient_nomer.wav".toList, join audioDir (letter ++ ".wav".toList)]
    match getNumberFiles join number audioDir with
    | .error e => .error (.numberFiles e)
    | .ok numberFiles =>
      let audioFiles :=
        audioFiles ++ numberFiles ++ [join audioDir "Podoidite_k_oknu_nomer.wav".toList]
      match getNumberFiles join windowNumber audioDir with
      | .error e => .error (.windowFiles e)
      | .ok windowFiles => render (audioFiles ++ windowFiles) backgroundMusicEnabled

/-- A stand-in for `filepath.Join` on clean relative names. -/
def slashJoin (dir name : Str) : Str := dir ++ '/' :: name

/-- The upper case of the letters `a`..`z`, other characters unchanged. -/
def asciiUpper (c : Char) : Char := c.toUpper

/-! ## Event streams -/

/-- What the `select` of a stream step takes: a payload received from the
subscription (`ok` true), the closed subscription (`ok` false), or the done
request context. -/
inductive StreamInput where
  | message (payload : Str)
  | closed
  | cancelled
  deriving DecidableEq, Repr

/-- `strings.Contains`. -/
def strings.Contains (s substr : Str) : Bool :=
  s.tails.any (fun t => substr.isPrefixOf t)

/-- The step function `sseHandler` gives to `c.Stream`: whether the stream is
kept open, and the events written by `c.SSEvent(payload.Action, payload.Data)`.
`unmarshal` is `json.Unmarshal` into a `NotificationPayload`, `none` its error. -/
def sseHandler.step {δ : Type} (unmarshal : Str → Option (Str × δ)) :
    StreamInput → Bool × List (Str × δ)
  | .message payloadStr =>
    if strings.Contains payloadStr "ticket_number".toList = false then (true, [])
    else
      match unmarshal payloadStr with
      | none => (true, [])
      | some payload => (true, [(payload.1, payload.2)])
  | .closed => (false, [])
  | .cancelled => (false, [])

/-- The step function `GetTodayScheduleUpdates` gives to `c.Stream`.
`unmarshal` is `json.Unmarshal` into a `json.RawMessage`, `none` its error. -/
def GetTodayScheduleUpdates.step (unmarshal : Str → Option Str) :
    StreamInput → Bool × List (Str × Str)
  | .message msg =>
    if strings.Contains msg "\"operation\"".toList = false then (true, [])
    else
      match unmarshal msg with
      | none => (true, [])
      | some rawData => (true, [("schedule_update".toList, rawData)])
  | .closed => (false, [])
  | .cancelled => (false, [])

/-- The payload of a row-insert notification. -/
def insertPayload : Str := "\x7b\"operation\":\"INSERT\"\x7d".toList

/-- A stand-in for a JSON decoder: it accepts the texts in braces. -/
def bracedOnly (s : Str) : Option Str :=
  if s.head? = some '{' ∧ s.getLast? = some '}' then some s else none

/-! ## The doctor's screen -/

/-- A `models.Schedule` value as a query with `Preload("Doctor")` or
`Joins("Doctor")` fills it: the columns and the `Doctor` field. -/
structure LoadedSchedule where
  schedule : Schedule
  Doctor : Doctor
  deriving DecidableEq, Repr

/-- The zero value of `models.Doctor`. -/
def Doctor.zero : Doctor :=
  { ID := 0, FullName := "", Specialization := "", Login := "", PasswordHash := "", Status := "" }

/-- The zero value of `models.Schedule`. -/
def LoadedSchedule.zero : LoadedSchedule :=
  { schedule := { ID := 0, DoctorID := 0, Date := 0, StartTime := 0, EndTime := 0,
                  IsAvailable := false, Cabinet := none }
    Doctor := Doctor.zero }

/-- The `Doctor` field of a slot: the doctor row of its `doctor_id`, the zero
value when there is none. -/
def loadDoctor (st : Store) (s : Schedule) : LoadedSchedule :=
  { schedule := s, Doctor := (st.doctors.find? (fun d => d.ID = s.DoctorID)).getD Doctor.zero }

/-- The order `start_time asc`, then the primary key `First` adds. -/
def slotBefore (a b : Schedule) : Prop :=
  a.StartTime < b.StartTime ∨ (a.StartTime = b.StartTime ∧ a.ID < b.ID)

instance : DecidableRel slotBefore := fun a b => by
  unfold slotBefore; infer_instance

/-- The first slot in the order `slotBefore`. -/
def earliestSlot : List Schedule → Option Schedule
  | [] => none
  | s :: rest =>
    match earliestSlot rest with
    | some best => if slotBefore best s then some best else some s
    | none => some s

/-- `scheduleRepo.FindFirstScheduleForCabinetByDay`: it returns `&schedule, err`,
a pointer that is never nil (`some`); when `First` reports an error the
schedule behind it is the zero value. -/
def scheduleRepo.FindFirstScheduleForCabinetByDay (f : Faults) (st : Store) (today : Nat)
    (cabinetNumber : Int) : Option LoadedSchedule × Option Error :=
  if f.scheduleFind then (some LoadedSchedule.zero, some .storeFailure)
  else
    match earliestSlot (st.schedules.filter
        (fun s => s.Cabinet = some cabinetNumber ∧ s.Date = today)) with
    | none => (some LoadedSchedule.zero, some .recordNotFound)
    | some s => (some (loadDoctor st s), none)

/-- `models.DoctorQueueTicketResponse`. -/
structure DoctorQueueTicketResponse where
  StartTime : Str
  TicketNumber : Str
  PatientFullName : String
  Status : TicketStatus
  deriving DecidableEq, Repr

/-- `to_char(t, 'HH24:MI')` of a time of day in microseconds. -/
def fmtHHMM (t : Nat) : Str :=
  [digitChar (t / 3600000000 / 10 % 10), digitChar (t / 3600000000 % 10), ':',
   digitChar (t / 60000000 % 60 / 10), digitChar (t / 60000000 % 60 % 10)]

/-- A row of the join of `FindTicketsForCabinetQueue` with its sort key:
`CASE WHEN status = 'на_приеме' THEN 0 ELSE 1 END`, then `start_time`. -/
structure QueueRow where
  rank : Nat
  startTime : Nat
  response : DoctorQueueTicketResponse
  deriving DecidableEq, Repr

/-- The rows of `FindTicketsForCabinetQueue` before the `ORDER BY`. -/
def cabinetQueueRows (st : Store) (today : Nat) (cabinetNumber : Int) : List QueueRow :=
  (st.tickets.filter
    (fun t => t.Status = StatusInProgress ∨ t.Status = StatusRegistered)).flatMap (fun t =>
    (st.appointments.filter (fun a => a.TicketID = some t.ID)).flatMap (fun a =>
      (st.schedules.filter (fun s =>
        s.ID = a.ScheduleID ∧ s.Cabinet = some cabinetNumber ∧ s.Date = today)).map (fun s =>
        { rank := if t.Status = StatusInProgress then 0 else 1
          startTime := s.StartTime
          response :=
            { StartTime := fmtHHMM s.StartTime
              TicketNumber := t.TicketNumber
              PatientFullName :=
                ((st.patients.find? (fun p => some p.ID = a.PatientID)).map
                  (fun p => p.FullName)).getD "Пациент по талону"
              Status := t.Status } })))

/-- `ticketRepo.FindTicketsForCabinetQueue`. -/
def ticketRepo.FindTicketsForCabinetQueue (f : Faults) (st : Store) (today : Nat)
    (cabinetNumber : Int) : Except Error (List DoctorQueueTicketResponse) :=
  if f.queueFind then .error .storeFailure
  else
    .ok (((cabinetQueueRows st today cabinetNumber).insertionSort
      (fun a b => a.rank < b.rank ∨ (a.rank = b.rank ∧ a.startTime ≤ b.startTime))).map
      (fun r => r.response))

/-- `DoctorService.GetDoctorScreenState`: the schedule pointer (`none` is
nil), the queue and the error. -/
def GetDoctorScreenState (f : Faults) (st : Store) (today : Nat) (cabinetNumber : Int) :
    Option LoadedSchedule × List DoctorQueueTicketResponse × Option Error :=
  match scheduleRepo.FindFirstScheduleForCabinetByDay f st today cabinetNumber with
  | (schedule, err) =>
    if err ≠ none ∧ err ≠ some .recordNotFound then (none, [], err)
    else
      match schedule with
      | some s =>
        match ticketRepo.FindTicketsForCabinetQueue f st today cabinetNumber with
        | .error _ => (some s, [], none)
        | .ok queue => (some s, queue, none)
      | none => (none, [], none)

/-! ## Today's schedule -/

/-- `services.TimeSlotModel`. -/
structure TimeSlotModel where
  StartTime : Nat
  EndTime : Nat
  IsAvailable : Bool
  Cabinet : Option Int
  deriving DecidableEq, Repr

/-- `services.DoctorScheduleModel`. -/
structure DoctorScheduleModel where
  ID : Nat
  FullName : String
  Specialization : String
  Slots : List TimeSlotModel
  deriving DecidableEq, Repr

/-- `services.TodayScheduleResponse`. -/
structure TodayScheduleResponse where
  Date : Nat
  MinStartTime : Nat
  MaxEndTime : Nat
  Doctors : List DoctorScheduleModel
  deriving DecidableEq, Repr

/-- The order `schedules.doctor_id asc, schedules.start_time asc`. -/
def doctorThenStart (a b : Schedule) : Prop :=
  a.DoctorID < b.DoctorID ∨ (a.DoctorID = b.DoctorID ∧ a.StartTime ≤ b.StartTime)

instance : DecidableRel doctorThenStart := fun a b => by
  unfold doctorThenStart; infer_instance

/-- `scheduleRepo.FindAllSchedulesForDate`. -/
def scheduleRepo.FindAllSchedulesForDate (f : Faults) (st : Store) (date : Nat) :
    Except Error (List LoadedSchedule) :=
  if f.schedulesForDate then .error .storeFailure
  else
    .ok (((st.schedules.filter (fun s => s.Date = date)).insertionSort doctorThenStart).map
      (loadDoctor st))

/-- `scheduleRepo.FindMinMaxTimesForDate`: `MIN(start_time)` and
`MAX(end_time)` of the day, record-not-found when they are NULL. -/
def scheduleRepo.FindMinMaxTimesForDate (f : Faults) (st : Store) (date : Nat) :
    Except Error (Nat × Nat) :=
  if f.minMaxTimes then .error .storeFailure
  else
    match st.schedules.filter (fun s => s.Date = date) with
    | [] => .error .recordNotFound
    | s :: rest =>
      .ok ((rest.map (fun x => x.StartTime)).foldl min s.StartTime,
           (rest.map (fun x => x.EndTime)).foldl max s.EndTime)

/-- The slot of the response built from a schedule. -/
def timeSlot (s : Schedule) : TimeSlotModel :=
  { StartTime := s.StartTime, EndTime := s.EndTime, IsAvailable := s.IsAvailable,
    Cabinet := s.Cabinet }

/-- The map assignment `m[k] = v` on a map kept as a list of entries. -/
def mapSet {β : Type} (m : List (Nat × β)) (k : Nat) (v : β) : List (Nat × β) :=
  if m.any (fun e => e.1 = k) then m.map (fun e => if e.1 = k then (k, v) else e)
  else m ++ [(k, v)]

/-- The map read `v, exists := m[k]`. -/
def mapGet {β : Type} (m : List (Nat × β)) (k : Nat) : Option β :=
  (m.find? (fun e => e.1 = k)).map (fun e => e.2)

/-- One round of the loop of `GetTodayScheduleState` over `allSchedules`. -/
def groupStep (schedulesByDoctor : List (Nat × DoctorScheduleModel)) (schedule : LoadedSchedule) :
    List (Nat × DoctorScheduleModel) :=
  if schedule.Doctor.ID = 0 then schedulesByDoctor
  else
    let docSchedule : DoctorScheduleModel :=
      match mapGet schedulesByDoctor schedule.schedule.DoctorID with
      | some d => d
      | none =>
        { ID := schedule.Doctor.ID, FullName := schedule.Doctor.FullName,
          Specialization := schedule.Doctor.Specialization, Slots := [] }
    mapSet schedulesByDoctor schedule.schedule.DoctorID
      { docSchedule with Slots := docSchedule.Slots ++ [timeSlot schedule.schedule] }

/-- The map `schedulesByDoctor` after the loop. -/
def groupByDoctor (allSchedules : List LoadedSchedule) : List (Nat × DoctorScheduleModel) :=
  allSchedules.foldl groupStep []

/-- The time of day `09:00:00` in microseconds. -/
def nineOClock : Nat := 32400000000

/-- The time of day `18:00:00` in microseconds. -/
def eighteenOClock : Nat := 64800000000

/-- `ScheduleService.GetTodayScheduleState`. The doctors are collected by a
`range` over the map `schedulesByDoctor`, whose order Go leaves open:
`mapRange` gives the order in which the entries of a map are visited. -/
def GetTodayScheduleState (f : Faults)
    (mapRange : List (Nat × DoctorScheduleModel) → List (Nat × DoctorScheduleModel))
    (st : Store) (today : Nat) : Except Error TodayScheduleResponse :=
  match scheduleRepo.FindMinMaxTimesForDate f st today with
  | .error e =>
    if e = .recordNotFound then
      .ok { Date := today, MinStartTime := nineOClock, MaxEndTime := eighteenOClock,
            Doctors := [] }
    else .error (.scheduleRangeFailed e)
  | .ok (minTime, maxTime) =>
    match scheduleRepo.FindAllSchedulesForDate f st today with
    | .error e => .error (.schedulesFetchFailed e)
    | .ok allSchedules =>
      .ok { Date := today, MinStartTime := minTime, MaxEndTime := maxTime,
            Doctors := (mapRange (groupByDoctor allSchedules)).map (fun e => e.2) }

/-! ## Deleting appointments -/

/-- `appointmentRepo.DeleteAppointmentAndFreeSlot`, which
`AppointmentService.DeleteAppointment` returns as it is: one transaction. -/
def DeleteAppointment (f : Faults) (st : Store) (appointmentID : Nat) : Option Error × Store :=
  match appointmentRepo.FindByID f.appointmentLock st appointmentID with
  | .error e =>
    (some (if e = .recordNotFound then .appointmentIDNotFound appointmentID else e), st)
  | .ok app =>
    if f.appointmentDelete ∨ app.ID = 0 then (some .storeFailure, st)
    else if f.slotFree then (some .storeFailure, st)
    else
      (none, { st with
        appointments := st.appointments.filter (fun a => a.ID ≠ app.ID)
        schedules := st.schedules.map (fun s =>
          if s.ID = app.ScheduleID then { s with IsAvailable := true } else s) })

/-- `cleanupRepo.TruncateTickets`: the appointments without ticket are deleted,
then the tickets with `completed_at`; an error rolls both back. `references`
stands for the foreign keys on `tickets`, whose declaration is not in the
sources: what they do to the store when the tickets of the given ids are
deleted, or the constraint error. -/
def TruncateTickets (f : Faults) (references : List Nat → Store → Except Error Store)
    (st : Store) : Option Error × Store :=
  if f.cleanupBegin then (some .storeFailure, st)
  else if f.cleanupAppointments then (some .storeFailure, st)
  else
    let st1 : Store :=
      { st with appointments := st.appointments.filter (fun a => a.TicketID ≠ none) }
    if f.cleanupTickets then (some .storeFailure, st)
    else
      let deleted := (st1.tickets.filter (fun t => t.CompletedAt ≠ none)).map (fun t => t.ID)
      match references deleted
          { st1 with tickets := st1.tickets.filter (fun t => t.CompletedAt = none) } with
      | .error e => (some e, st)
      | .ok st2 => if f.cleanupCommit then (some .storeFailure, st) else (none, st2)

/-- Foreign keys without action: the delete is refused while a remaining
appointment or reception-log row refers to a deleted ticket. -/
def noAction (deleted : List Nat) (st : Store) : Except Error Store :=
  if st.appointments.any (fun a => a.TicketID.any (fun id => id ∈ deleted)) ∨
      st.receptionLogs.any (fun l => l.TicketID ∈ deleted) then .error .storeFailure
  else .ok st

/-- The specification's invariant of slots: unavailable exactly when an
appointment refers to the slot. -/
def SlotInvariant (st : Store) : Prop :=
  ∀ s ∈ st.schedules, s.IsAvailable = false ↔ ∃ a ∈ st.appointments, a.ScheduleID = s.ID

instance (st : Store) : Decidable (SlotInvariant st) := by
  unfold SlotInvariant; infer_instance

/-- Two doctors; cabinet 5 has two slots of the first doctor on day 20000, one
with a registered ticket; cabinet 6 has one slot of the second doctor; a slot
of day 20000 whose doctor row is missing. -/
def cabinetStore : Store :=
  { tickets := [{ waitingTicket 1 ['A', '0', '0', '1'] 5 with Status := StatusRegistered },
                { waitingTicket 2 ['A', '0', '0', '2'] 6 with Status := StatusInProgress }]
    receptionLogs := []
    services := []
    priorities := []
    schedules :=
      [{ ID := 1, DoctorID := 7, Date := 20000, StartTime := 36000000000,
         EndTime := 37800000000, IsAvailable := false, Cabinet := some 5 },
       { ID := 2, DoctorID := 8, Date := 20000, StartTime := 32400000000,
         EndTime := 34200000000, IsAvailable := true, Cabinet := some 6 },
       { ID := 3, DoctorID := 7, Date := 20000, StartTime := 34200000000,
         EndTime := 36000000000, IsAvailable := false, Cabinet := some 5 },
       { ID := 4, DoctorID := 9, Date := 20000, StartTime := 34200000000,
         EndTime := 36000000000, IsAvailable := true, Cabinet := none }]
    appointments :=
      [{ ID := 1, ScheduleID := 1, PatientID := none, TicketID := some 1, CreatedAt := 0 },
       { ID := 2, ScheduleID := 3, PatientID := none, TicketID := some 2, CreatedAt := 0 }]
    doctors :=
      [{ ID := 7, FullName := "Иванов", Specialization := "терапевт", Login := "",
         PasswordHash := "", Status := "активен" },
       { ID := 8, FullName := "Петров", Specialization := "хирург", Login := "",
         PasswordHash := "", Status := "активен" }] }

/-- The slot 3 of `cabinetStore` with the row of its doctor 7. -/
def screenSchedule : LoadedSchedule :=
  { schedule := { ID := 3, DoctorID := 7, Date := 20000, StartTime := 34200000000,
                  EndTime := 36000000000, IsAvailable := false, Cabinet := some 5 }
    Doctor := { ID := 7, FullName := "Иванов", Specialization := "терапевт", Login := "",
                PasswordHash := "", Status := "активен" } }

/-- The rows `FindAllSchedulesForDate` returns for the day 20000 of
`cabinetStore`: by doctor id, then start time; the doctor 9 has no row. -/
def dayRows : List LoadedSchedule :=
  [screenSchedule,
   { schedule := { ID := 1, DoctorID := 7, Date := 20000, StartTime := 36000000000,
                   EndTime := 37800000000, IsAvailable := false, Cabinet := some 5 }
     Doctor := screenSchedule.Doctor },
   { schedule := { ID := 2, DoctorID := 8, Date := 20000, StartTime := 32400000000,
                   EndTime := 34200000000, IsAvailable := true, Cabinet := some 6 }
     Doctor := { ID := 8, FullName := "Петров", Specialization := "хирург", Login := "",
                 PasswordHash := "", Status := "активен" } },
   { schedule := { ID := 4, DoctorID := 9, Date := 20000, StartTime := 34200000000,
                   EndTime := 36000000000, IsAvailable := true, Cabinet := none }
     Doctor := Doctor.zero }]

/-- The answer for the day 20000 of `cabinetStore` when the map is ranged over
in the reverse of the order of insertion. -/
def daySchedule : TodayScheduleResponse :=
  { Date := 20000
    MinStartTime := 32400000000
    MaxEndTime := 37800000000
    Doctors :=
      [{ ID := 8, FullName := "Петров", Specialization := "хирург",
         Slots := [{ StartTime := 32400000000, EndTime := 34200000000, IsAvailable := true,
                     Cabinet := some 6 }] },
       { ID := 7, FullName := "Иванов", Specialization := "терапевт",
         Slots := [{ StartTime := 34200000000, EndTime := 36000000000, IsAvailable := false,
                     Cabinet := some 5 },
                   { StartTime := 36000000000, EndTime := 37800000000, IsAvailable := false,
                     Cabinet := some 5 }] }] }

/-- A store whose only ticket has the number `A-05`. -/
def signedStore : Store :=
  { tickets := [waitingTicket 1 ['A', '-', '0', '5'] 5]
    receptionLogs := []
    services := [{ ID := 1, ServiceID := "make_appointment", Name := "A", Letter := ['A'] }]
    priorities := []
    schedules := []
    appointments := [] }

/-- The slots of the loaded rows of one doctor, in the order of the rows. -/
def slotsOfDoctor (rows : List LoadedSchedule) (doctorID : Nat) : List TimeSlotModel :=
  (rows.filter (fun r => decide (r.Doctor.ID ≠ 0 ∧ r.schedule.DoctorID = doctorID))).map
    (fun r => timeSlot r.schedule)

/-- The store `clinicStore` after the free slot 10 was booked. -/
def bookedStore : Store :=
  (CreateAppointment Faults.none clinicStore 7
    { ScheduleID := 10, PatientID := some 1, TicketID := none }).2

instance : IsTotal Schedule doctorThenStart :=
  ⟨fun a b => by unfold doctorThenStart; omega⟩

instance : IsTrans Schedule doctorThenStart :=
  ⟨fun a b c h1 h2 => by unfold doctorThenStart at *; omega⟩

/-! ## The registrar's status endpoint -/

/-- `RegistrarHandler.UpdateStatus` for the ticket id scanned from the path and
the `status` field of the body (`binding:"required"` refuses the empty one):
the HTTP status of the answer and the store. -/
def RegistrarHandler.UpdateStatus (f : Faults) (st : Store) (now : Int) (id : Nat)
    (status : TicketStatus) : Nat × Store :=
  if status = "" then (400, st)
  else
    match ticketRepo.GetByID f st id with
    | .error _ => (404, st)
    | .ok ticket =>
      match UpdateTicket f st now { ticket with Status := status } with
      | (some _, st1) => (500, st1)
      | (none, st1) => (200, st1)

/-- The specification's invariant of tickets: `completed_at` is set exactly on
the completed tickets. -/
def CompletionInvariant (st : Store) : Prop :=
  ∀ t ∈ st.tickets, t.CompletedAt ≠ none ↔ t.Status = StatusCompleted

instance (st : Store) : Decidable (CompletionInvariant st) := by
  unfold CompletionInvariant; infer_instance

/-- Every completed ticket has `completed_at` set. -/
def CompletedStamped (st : Store) : Prop :=
  ∀ t ∈ st.tickets, t.Status = StatusCompleted → t.CompletedAt ≠ none

instance (st : Store) : Decidable (CompletedStamped st) := by
  unfold CompletedStamped; infer_instance

/-- The tickets of `st'` are those of `st`, or those of `st` with the rows of
the primary key of one stored ticket `t` that satisfies `guard` overwritten
by `w t`. -/
def Rewrites (st st' : Store) (guard : Ticket → Prop) (w : Ticket → Ticket) : Prop :=
  st'.tickets = st.tickets ∨
  ∃ t ∈ st.tickets, guard t ∧
    st'.tickets = st.tickets.map (fun y => if y.ID = t.ID then w t else y)

/-- The tickets of `st'` are those of `st`, or those of `st` followed by one
new waiting ticket without `completed_at`. -/
def Appends (st st' : Store) : Prop :=
  st'.tickets = st.tickets ∨
  ∃ x, x.Status = StatusWaiting ∧ x.CompletedAt = none ∧ st'.tickets = st.tickets ++ [x]

/-- A ticket that went through the whole lifecycle: called at 10 to window 1,
started at 50 and completed at 90. -/
def servedTicket : Ticket :=
  { waitingTicket 1 ['A', '0', '0', '1'] 5 with
    Status := StatusCompleted, WindowNumber := some 1, CalledAt := some 10,
    StartedAt := some 50, CompletedAt := some 90 }

/-- A completed ticket with its closed reception-log row, a waiting ticket and
an appointment without ticket. -/
def archiveStore : Store :=
  { tickets := [servedTicket, waitingTicket 2 ['A', '0', '0', '2'] 6]
    receptionLogs :=
      [{ LogID := 1, TicketID := 1, RegistrarID := some 7, WindowNumber := 1, CalledAt := 10,
         CompletedAt := some 20, Duration := some 10 }]
    services := []
    priorities := []
    schedules :=
      [{ ID := 10, DoctorID := 1, Date := 20000, StartTime := 36000000000,
         EndTime := 37800000000, IsAvailable := false, Cabinet := none }]
    appointments :=
      [{ ID := 1, ScheduleID := 10, PatientID := none, TicketID := none, CreatedAt := 0 }] }

/-- The rows of the primary key of `x` in `st`: `x` alone. -/
def OnlyRow (st : Store) (x : Ticket) : Prop :=
  x ∈ st.tickets ∧ ∀ y ∈ st.tickets, y.ID = x.ID → y = x

/-! ## The order of the specification -/

/-- The rank the specification gives a joined row: 0 when the start time of
the slot dated today is before now, 1 when it lies between now and now plus
five minutes (as instants of today, no wrap at midnight), 2 otherwise. -/
def specRank (c : DBClock) (r : WaitingRow) : Nat :=
  match r.startTime with
  | some s =>
    if s < c.time then 0
    else if c.time ≤ s ∧ s ≤ c.time + fiveMinutes then 1
    else 2
  | none => 2

/-- The order of the specification: the rank, then the earlier appointment
start time (rows without one last), then the earlier creation time. -/
def specBefore (c : DBClock) (a b : WaitingRow) : Prop :=
  specRank c a < specRank c b ∨
  (specRank c a = specRank c b ∧
    (startBefore a.startTime b.startTime ∨
      (a.startTime = b.startTime ∧ a.ticket.CreatedAt < b.ticket.CreatedAt)))

instance (c : DBClock) : DecidableRel (specBefore c) := fun a b => by
  unfold specBefore; infer_instance

/-- The ticket as `CallNextTicket` and `CallSpecificTicket` rewrite it. -/
def invite (t : Ticket) (windowNumber : Int) (now : Int) : Ticket :=
  { t with Status := StatusInvited, WindowNumber := some windowNumber, CalledAt := some now }

end ElectronicQueue

namespace ElectronicQueue

/-! ## Lemmas on the row order -/

theorem rowBefore_irrefl (c : DBClock) (a : WaitingRow) : ¬ rowBefore c a a := by
  unfold rowBefore
  rcases h : a.startTime with _ | x <;> simp [startBefore]

theorem rowBefore_trans (c : DBClock) (x y z : WaitingRow)
    (h1 : rowBefore c x y) (h2 : rowBefore c y z) : rowBefore c x z := by
  unfold rowBefore at *
  generalize orderRank c x = rx at *
  generalize orderRank c y = ry at *
  generalize orderRank c z = rz at *
  rcases hx : x.startTime with _ | sx <;> rcases hy : y.startTime with _ | sy <;>
    rcases hz : z.startTime with _ | sz <;>
    simp only [hx, hy, hz, startBefore, Option.some.injEq, reduceCtorEq, false_and, or_false,
      false_or, true_and, and_false, true_or, and_true] at h1 h2 ⊢ <;> omega

/-- The row order is a strict weak order: what is before `z` is before `y`, or
`y` is before `z`. -/
theorem rowBefore_split (c : DBClock) (x y z : WaitingRow)
    (h : rowBefore c x z) : rowBefore c x y ∨ rowBefore c y z := by
  unfold rowBefore at *
  generalize orderRank c x = rx at *
  generalize orderRank c y = ry at *
  generalize orderRank c z = rz at *
  rcases hx : x.startTime with _ | sx <;> rcases hy : y.startTime with _ | sy <;>
    rcases hz : z.startTime with _ | sz <;>
    simp only [hx, hy, hz, startBefore, Option.some.injEq, reduceCtorEq, false_and, or_false,
      false_or, true_and, and_false, true_or, and_true] at h ⊢ <;> omega

theorem foldl_first_spec (c : DBClock) (rs : List WaitingRow) (r0 : WaitingRow) :
    (rs.foldl (fun best x => if rowBefore c x best then x else best) r0 = r0 ∨
      rs.foldl (fun best x => if rowBefore c x best then x else best) r0 ∈ rs) ∧
    ¬ rowBefore c r0 (rs.foldl (fun best x => if rowBefore c x best then x else best) r0) ∧
    ∀ y ∈ rs, ¬ rowBefore c y
      (rs.foldl (fun best x => if rowBefore c x best then x else best) r0) := by
  induction rs generalizing r0 with
  | nil => simp [rowBefore_irrefl]
  | cons x rs ih =>
    simp only [List.foldl_cons, List.mem_cons, forall_eq_or_imp]
    by_cases hx : rowBefore c x r0
    · simp only [hx, if_true]
      obtain ⟨h1, h2, h3⟩ := ih x
      refine ⟨?_, ?_, h2, h3⟩
      · rcases h1 with h1 | h1
        · exact Or.inr (Or.inl h1)
        · exact Or.inr (Or.inr h1)
      · intro h
        exact h2 (rowBefore_trans c _ _ _ hx h)
    · simp only [hx, if_false]
      obtain ⟨h1, h2, h3⟩ := ih r0
      refine ⟨?_, h2, ?_, h3⟩
      · rcases h1 with h1 | h1
        · exact Or.inl h1
        · exact Or.inr (Or.inr h1)
      · intro h
        rcases rowBefore_split c x r0 _ h with h | h
        · exact hx h
        · exact h2 h

/-- The row `firstRow` returns is one of the rows and no row is before it. -/
theorem firstRow_spec (c : DBClock) (rs : List WaitingRow) (r : WaitingRow)
    (h : firstRow c rs = some r) : r ∈ rs ∧ ∀ y ∈ rs, ¬ rowBefore c y r := by
  cases rs with
  | nil => simp [firstRow] at h
  | cons r0 rs =>
    simp only [firstRow, Option.some.injEq] at h
    obtain ⟨h1, h2, h3⟩ := foldl_first_spec c rs r0
    rw [h] at h1 h2 h3
    refine ⟨?_, ?_⟩
    · rcases h1 with h1 | h1
      · simp [h1]
      · exact List.mem_cons_of_mem _ h1
    · intro y hy
      rcases List.mem_cons.mp hy with rfl | hy
      · exact h2
      · exact h3 y hy

theorem firstRow_eq_none (c : DBClock) (rs : List WaitingRow) :
    firstRow c rs = none ↔ rs = [] := by
  cases rs <;> simp [firstRow]

/-- What the specification puts first, the query puts first. -/
theorem rowBefore_of_specBefore (c : DBClock) (a b : WaitingRow) (h : specBefore c a b) :
    rowBefore c a b := by
  unfold specBefore specRank at h
  unfold rowBefore orderRank DBClock.timePlusFive
  rcases ha : a.startTime with _ | sa <;> rcases hb : b.startTime with _ | sb <;>
    simp only [ha, hb, startBefore, Option.some.injEq, reduceCtorEq, false_and, or_false,
      false_or, true_and, and_false, true_or, and_true] at h ⊢
  · omega
  · split_ifs at h <;> omega
  · split_ifs <;> omega
  · split_ifs at h ⊢ <;> omega

end ElectronicQueue

namespace ElectronicQueue

/-! ## Lemmas on the repository -/

theorem joinSchedules_ticket (st : Store) (d : Nat) (t : Ticket) (r : WaitingRow)
    (h : r ∈ joinSchedules st d t) : r.ticket = t := by
  unfold joinSchedules at h
  split at h
  · simp at h; simp [h]
  · simp only [List.mem_flatMap] at h
    obtain ⟨a, _, ha⟩ := h
    split at ha
    · simp at ha; simp [ha]
    · simp only [List.mem_map] at ha
      obtain ⟨s, _, hs⟩ := ha
      simp [← hs]

theorem waitingRows_ticket_mem (st : Store) (c : DBClock) (ps : List Str) (r : WaitingRow)
    (h : r ∈ waitingRows st c ps) : r.ticket ∈ st.tickets := by
  unfold waitingRows at h
  simp only [List.mem_filter, List.mem_flatMap] at h
  obtain ⟨⟨t, ht, hr⟩, _⟩ := h
  rw [joinSchedules_ticket st c.date t r hr]
  exact ht

/-- Saving a ticket that keeps the primary key and the number of a stored
ticket succeeds exactly when the store reports no failure and no other row
carries the number; it then overwrites the rows with that key. -/
theorem ticketRepoUpdate_stored {f : Faults} {st st1 : Store} {x t t1 : Ticket}
    (hx : x ∈ st.tickets) (hid : t.ID = x.ID) (hnum : t.TicketNumber = x.TicketNumber)
    (h : ticketRepo.Update f st t = .ok (t1, st1)) :
    f.ticketUpdate = false ∧ t.ID ≠ 0 ∧ t1 = t ∧
      st1 = { st with tickets := st.tickets.map (fun y => if y.ID = t.ID then t else y) } := by
  have hnumAny : st.tickets.any (fun y => decide (y.TicketNumber = t.TicketNumber)) = true := by
    simp only [List.any_eq_true, decide_eq_true_eq]
    exact ⟨x, hx, hnum.symm⟩
  have hidAny : st.tickets.any (fun y => decide (y.ID = t.ID)) = true := by
    simp only [List.any_eq_true, decide_eq_true_eq]
    exact ⟨x, hx, hid.symm⟩
  unfold ticketRepo.Update at h
  split_ifs at h with h1 h2
  · simp [insertTicket, hnumAny] at h
  · simp only [Except.ok.injEq, Prod.mk.injEq] at h
    refine ⟨by simpa using h1, h2, h.1.symm, h.2.symm⟩

end ElectronicQueue

namespace ElectronicQueue

theorem receptionLogRepoCreate_new (f : Faults) (st : Store) (l : ReceptionLog)
    (hl : l.LogID = 0) :
    receptionLogRepo.Create f st l =
      if f.logCreate then .error .storeFailure
      else .ok { st with receptionLogs := st.receptionLogs ++ [{ l with LogID := nextLogID st }] } := by
  unfold receptionLogRepo.Create insertLog
  simp [hl]

/-- Every successful `CallNextTicket` ran the query on the registrar's prefix
list, overwrote the selected ticket and appended a log row unless the log
insert failed. -/
theorem CallNextTicket_ok {f : Faults} {st st1 : Store} {c : DBClock} {now : Int} {w : Int}
    {cat : Str} {reg : Nat} {t : Ticket}
    (h : CallNextTicket f st c now w cat reg = (.ok t, st1)) :
    ∃ prefixes r, registrarPrefixes f st cat reg = .ok prefixes ∧ f.nextWaiting = false ∧
      firstRow c (waitingRows st c prefixes) = some r ∧ f.ticketUpdate = false ∧
      r.ticket.ID ≠ 0 ∧ t = invite r.ticket w now ∧
      st1 = { st with
        tickets := st.tickets.map (fun y => if y.ID = r.ticket.ID then t else y),
        receptionLogs :=
          if f.logCreate then st.receptionLogs
          else st.receptionLogs ++ [callLogEntry st r.ticket.ID (some reg) w now] } := by
  unfold CallNextTicket at h
  split at h
  · simp at h
  · rename_i prefixes hp
    split at h
    · split_ifs at h <;> simp at h
    · rename_i ticket hq
      unfold ticketRepo.GetNextWaitingTicket at hq
      split_ifs at hq with hf
      split at hq
      · simp at hq
      · rename_i r hr
        simp only [Except.ok.injEq] at hq
        subst hq
        have hmem := waitingRows_ticket_mem st c prefixes r (firstRow_spec c _ r hr).1
        dsimp only at h
        split at h
        · simp at h
        · rename_i t1 st2 hu
          obtain ⟨hu1, hu2, hu3, hu4⟩ :=
            ticketRepoUpdate_stored (t := invite r.ticket w now) hmem rfl rfl hu
          subst hu3
          rw [receptionLogRepoCreate_new _ _ _ rfl] at h
          refine ⟨prefixes, r, hp, by simpa using hf, hr, hu1, hu2, ?_⟩
          by_cases hl : f.logCreate = true
          · simp [hl] at h
            refine ⟨h.1.symm, ?_⟩
            rw [← h.2, hu4]
            simp [hl, ← h.1, invite]
          · simp [hl] at h
            refine ⟨h.1.symm, ?_⟩
            rw [← h.2, hu4]
            simp [hl, ← h.1, invite, callLogEntry, nextLogID]

end ElectronicQueue

namespace ElectronicQueue

theorem firstRow_of_least (c : DBClock) (rs : List WaitingRow) (r : WaitingRow)
    (hr : r ∈ rs) (hmin : ∀ y ∈ rs, y ≠ r → rowBefore c r y) : firstRow c rs = some r := by
  cases hb : firstRow c rs with
  | none =>
    rw [firstRow_eq_none] at hb
    simp [hb] at hr
  | some b =>
    obtain ⟨hb1, hb2⟩ := firstRow_spec c rs b hb
    by_cases hbr : b = r
    · rw [hbr]
    · exact absurd (hmin b hb1 hbr) (hb2 r hr)

/-- What `CallNextTicket` returns when the store reports no failure and the
query selects row `r`. -/
theorem CallNextTicket_run {f : Faults} {st : Store} {c : DBClock} {now : Int} {w : Int}
    {cat : Str} {reg : Nat} {prefixes : List Str} {r : WaitingRow}
    (hp : registrarPrefixes f st cat reg = .ok prefixes) (hq : f.nextWaiting = false)
    (hr : firstRow c (waitingRows st c prefixes) = some r) (hu : f.ticketUpdate = false)
    (hid : r.ticket.ID ≠ 0)
    (huniq : ∀ y ∈ st.tickets, y.ID ≠ r.ticket.ID → y.TicketNumber ≠ r.ticket.TicketNumber) :
    CallNextTicket f st c now w cat reg =
      (.ok (invite r.ticket w now),
        { st with
          tickets := st.tickets.map
            (fun y => if y.ID = r.ticket.ID then invite r.ticket w now else y),
          receptionLogs :=
            if f.logCreate then st.receptionLogs
            else st.receptionLogs ++ [callLogEntry st r.ticket.ID (some reg) w now] }) := by
  have hmem := waitingRows_ticket_mem st c prefixes r (firstRow_spec c _ r hr).1
  have hidAny : st.tickets.any (fun y => decide (y.ID = r.ticket.ID)) = true := by
    simp only [List.any_eq_true, decide_eq_true_eq]
    exact ⟨r.ticket, hmem, rfl⟩
  have hnumAny : st.tickets.any
      (fun y => decide (y.ID ≠ r.ticket.ID ∧ y.TicketNumber = r.ticket.TicketNumber)) = false := by
    rw [List.any_eq_false]
    intro y hy
    simp only [decide_eq_true_eq, not_and]
    exact huniq y hy
  have hsave : ticketRepo.Update f st (invite r.ticket w now) =
      .ok (invite r.ticket w now, { st with
        tickets := st.tickets.map
          (fun y => if y.ID = r.ticket.ID then invite r.ticket w now else y) }) := by
    unfold ticketRepo.Update
    simp only [hu, invite, hid, hidAny, hnumAny]
    simp
  unfold CallNextTicket
  simp only [hp]
  unfold ticketRepo.GetNextWaitingTicket
  simp only [hq, hr, Bool.false_eq_true, if_false]
  unfold invite at hsave
  rw [hsave]
  dsimp only
  rw [receptionLogRepoCreate_new _ _ _ rfl]
  by_cases hl : f.logCreate = true
  · simp [hl, invite]
  · simp [hl, invite, callLogEntry, nextLogID]

/-- The ticket a successful `CallNextTicket` invites comes from a row of the
query that no row precedes in the order of the specification. -/
theorem CallNextTicket_minimal {f : Faults} {st st1 : Store} {c : DBClock} {now : Int} {w : Int}
    {cat : Str} {reg : Nat} {t : Ticket}
    (h : CallNextTicket f st c now w cat reg = (.ok t, st1)) :
    ∃ prefixes r, registrarPrefixes f st cat reg = .ok prefixes ∧
      r ∈ waitingRows st c prefixes ∧ t = invite r.ticket w now ∧
      ∀ y ∈ waitingRows st c prefixes, ¬ specBefore c y r := by
  obtain ⟨prefixes, r, hp, _, hr, _, _, ht, _⟩ := CallNextTicket_ok h
  obtain ⟨hr1, hr2⟩ := firstRow_spec c _ r hr
  exact ⟨prefixes, r, hp, hr1, ht, fun y hy hs => hr2 y hy (rowBefore_of_specBefore c y r hs)⟩

end ElectronicQueue
namespace ElectronicQueue

/-! ## The ranking scenario, call by call -/

theorem ranking_first (c : DBClock) (cA cB cC now w : Int) (reg : Nat)
    (hc : 2 * fiveMinutes ≤ c.time) :
    CallNextTicket Faults.none (rankingStore c cA cB cC) c now w [] reg =
      (.ok (invite (waitingTicket 1 ['A', '0', '0', '1'] cA) w now),
       { rankingStore c cA cB cC with
         tickets := [invite (waitingTicket 1 ['A', '0', '0', '1'] cA) w now,
           waitingTicket 2 ['A', '0', '0', '2'] cB, waitingTicket 3 ['A', '0', '0', '3'] cC],
         receptionLogs := [callLogEntry (rankingStore c cA cB cC) 1 (some reg) w now] }) := by
  have hp : registrarPrefixes Faults.none (rankingStore c cA cB cC) [] reg = .ok [] := by
    simp [registrarPrefixes, registrarPriorityRepo.GetPriorities, Faults.none, rankingStore]
  have hrows : waitingRows (rankingStore c cA cB cC) c [] =
      [⟨waitingTicket 1 ['A', '0', '0', '1'] cA, some (c.time - 2 * fiveMinutes)⟩,
       ⟨waitingTicket 2 ['A', '0', '0', '2'] cB, some (c.time + twoMinutes)⟩,
       ⟨waitingTicket 3 ['A', '0', '0', '3'] cC, none⟩] := by
    simp [waitingRows, joinSchedules, rankingStore, waitingTicket, StatusWaiting, List.filter]
  have hr : firstRow c (waitingRows (rankingStore c cA cB cC) c []) =
      some ⟨waitingTicket 1 ['A', '0', '0', '1'] cA, some (c.time - 2 * fiveMinutes)⟩ := by
    rw [hrows]
    apply firstRow_of_least
    · simp
    · intro y hy hne
      simp only [List.mem_cons, List.mem_singleton, List.not_mem_nil, or_false] at hy
      rcases hy with rfl | rfl | rfl
      · exact absurd rfl hne
      · unfold rowBefore orderRank DBClock.timePlusFive
        simp only [startBefore, fiveMinutes, twoMinutes, usPerDay] at hc ⊢
        split_ifs <;> omega
      · unfold rowBefore orderRank DBClock.timePlusFive
        simp only [startBefore, fiveMinutes, twoMinutes, usPerDay] at hc ⊢
        split_ifs <;> simp
  rw [CallNextTicket_run hp rfl hr rfl (by simp [waitingTicket])
    (by simp [rankingStore, waitingTicket])]
  simp [rankingStore, waitingTicket, Faults.none, invite]

end ElectronicQueue

namespace ElectronicQueue

theorem ranking_second (c c2 : DBClock) (cA cB cC : Int) (tA : Ticket) (logs : List ReceptionLog)
    (now w : Int) (reg : Nat) (hd : c2.date = c.date) (hA : tA.Status = StatusInvited)
    (hA1 : tA.ID = 1) (hAn : tA.TicketNumber = ['A', '0', '0', '1']) :
    CallNextTicket Faults.none
        { rankingStore c cA cB cC with
          tickets := [tA, waitingTicket 2 ['A', '0', '0', '2'] cB,
            waitingTicket 3 ['A', '0', '0', '3'] cC],
          receptionLogs := logs } c2 now w [] reg =
      (.ok (invite (waitingTicket 2 ['A', '0', '0', '2'] cB) w now),
       { rankingStore c cA cB cC with
         tickets := [tA, invite (waitingTicket 2 ['A', '0', '0', '2'] cB) w now,
           waitingTicket 3 ['A', '0', '0', '3'] cC],
         receptionLogs := logs ++
           [callLogEntry { rankingStore c cA cB cC with
              tickets := [tA, waitingTicket 2 ['A', '0', '0', '2'] cB,
                waitingTicket 3 ['A', '0', '0', '3'] cC],
              receptionLogs := logs } 2 (some reg) w now] }) := by
  have hne : tA.Status ≠ "ожидает" := by rw [hA]; decide
  generalize hst : ({ rankingStore c cA cB cC with
          tickets := [tA, waitingTicket 2 ['A', '0', '0', '2'] cB,
            waitingTicket 3 ['A', '0', '0', '3'] cC],
          receptionLogs := logs } : Store) = st
  have hp : registrarPrefixes Faults.none st [] reg = .ok [] := by
    subst hst
    simp [registrarPrefixes, registrarPriorityRepo.GetPriorities, Faults.none, rankingStore]
  have hrows : waitingRows st c2 [] =
      [⟨waitingTicket 2 ['A', '0', '0', '2'] cB, some (c.time + twoMinutes)⟩,
       ⟨waitingTicket 3 ['A', '0', '0', '3'] cC, none⟩] := by
    subst hst
    simp [waitingRows, joinSchedules, rankingStore, waitingTicket, StatusWaiting, List.filter,
      hne, hA1, hd]
  have hr : firstRow c2 (waitingRows st c2 []) =
      some ⟨waitingTicket 2 ['A', '0', '0', '2'] cB, some (c.time + twoMinutes)⟩ := by
    rw [hrows]
    apply firstRow_of_least
    · simp
    · intro y hy hne
      simp only [List.mem_cons, List.mem_singleton, List.not_mem_nil, or_false] at hy
      rcases hy with rfl | rfl
      · exact absurd rfl hne
      · unfold rowBefore orderRank DBClock.timePlusFive
        simp only [startBefore]
        split_ifs <;> simp
  rw [CallNextTicket_run hp rfl hr rfl (by simp [waitingTicket])
    (by subst hst; simp [rankingStore, waitingTicket, hAn])]
  subst hst
  simp [rankingStore, waitingTicket, Faults.none, invite, hA1]

theorem ranking_third (c c3 : DBClock) (cA cB cC : Int) (tA tB : Ticket)
    (logs : List ReceptionLog) (now w : Int) (reg : Nat)
    (hA : tA.Status = StatusInvited) (hA1 : tA.ID = 1)
    (hAn : tA.TicketNumber = ['A', '0', '0', '1'])
    (hB : tB.Status = StatusInvited) (hB1 : tB.ID = 2)
    (hBn : tB.TicketNumber = ['A', '0', '0', '2']) :
    CallNextTicket Faults.none
        { rankingStore c cA cB cC with
          tickets := [tA, tB, waitingTicket 3 ['A', '0', '0', '3'] cC],
          receptionLogs := logs } c3 now w [] reg =
      (.ok (invite (waitingTicket 3 ['A', '0', '0', '3'] cC) w now),
       { rankingStore c cA cB cC with
         tickets := [tA, tB, invite (waitingTicket 3 ['A', '0', '0', '3'] cC) w now],
         receptionLogs := logs ++
           [callLogEntry { rankingStore c cA cB cC with
              tickets := [tA, tB, waitingTicket 3 ['A', '0', '0', '3'] cC],
              receptionLogs := logs } 3 (some reg) w now] }) := by
  have hneA : tA.Status ≠ "ожидает" := by rw [hA]; decide
  have hneB : tB.Status ≠ "ожидает" := by rw [hB]; decide
  generalize hst : ({ rankingStore c cA cB cC with
          tickets := [tA, tB, waitingTicket 3 ['A', '0', '0', '3'] cC],
          receptionLogs := logs } : Store) = st
  have hp : registrarPrefixes Faults.none st [] reg = .ok [] := by
    subst hst
    simp [registrarPrefixes, registrarPriorityRepo.GetPriorities, Faults.none, rankingStore]
  have hrows : waitingRows st c3 [] =
      [⟨waitingTicket 3 ['A', '0', '0', '3'] cC, none⟩] := by
    subst hst
    by_cases hd : c.date = c3.date <;>
      simp [waitingRows, joinSchedules, rankingStore, waitingTicket, StatusWaiting, List.filter,
        hneA, hneB, hA1, hB1, hd]
  have hr : firstRow c3 (waitingRows st c3 []) =
      some ⟨waitingTicket 3 ['A', '0', '0', '3'] cC, none⟩ := by
    rw [hrows]
    rfl
  rw [CallNextTicket_run hp rfl hr rfl (by simp [waitingTicket])
    (by subst hst; simp [rankingStore, waitingTicket, hAn, hBn])]
  subst hst
  simp [rankingStore, waitingTicket, Faults.none, invite, hA1, hB1]

end ElectronicQueue
namespace ElectronicQueue

/-- The start time of a joined row is that of a slot dated today which an
appointment links to the ticket. -/
theorem joinSchedules_startTime (st : Store) (d : Nat) (t : Ticket) (r : WaitingRow) (s : Nat)
    (h : r ∈ joinSchedules st d t) (hs : r.startTime = some s) :
    ∃ a ∈ st.appointments, ∃ sl ∈ st.schedules,
      a.TicketID = some t.ID ∧ sl.ID = a.ScheduleID ∧ sl.Date = d ∧ sl.StartTime = s := by
  unfold joinSchedules at h
  split at h
  · simp only [List.mem_singleton] at h
    simp [h] at hs
  · rename_i a0 as hf
    simp only [List.mem_flatMap] at h
    obtain ⟨a, ha, hr⟩ := h
    rw [← hf] at ha
    simp only [List.mem_filter, decide_eq_true_eq] at ha
    split at hr
    · simp only [List.mem_singleton] at hr
      simp [hr] at hs
    · rename_i s0 ss hg
      simp only [List.mem_map] at hr
      obtain ⟨sl, hsl, hr⟩ := hr
      rw [← hg] at hsl
      simp only [List.mem_filter, decide_eq_true_eq] at hsl
      refine ⟨a, ha.1, sl, hsl.1, ha.2, hsl.2.1, hsl.2.2, ?_⟩
      rw [← hr] at hs
      simpa using hs

/-- C1: a successful CallNextTicket invites the ticket of a row of the waiting
tickets left by the prefix filter that no row precedes in the order of the
specification (rank 0 for a slot of today that started before now, rank 1 for
one starting within five minutes, rank 2 otherwise; then the earlier start
time, rows without one last; then the earlier creation time), the start time
of a row being that of a slot dated today linked to the ticket.  In particular,
with a ticket whose slot started ten minutes ago, one whose slot starts in two
minutes and a walk-in, three successive calls on the same day invite them in
that order, whatever the creation times. -/
theorem callNextTicket_ranking :
    (∀ (f : Faults) (st st1 : Store) (c : DBClock) (now w : Int) (cat : Str) (reg : Nat)
        (t : Ticket),
      CallNextTicket f st c now w cat reg = (.ok t, st1) →
      ∃ prefixes r, registrarPrefixes f st cat reg = .ok prefixes ∧
        r ∈ waitingRows st c prefixes ∧ t = invite r.ticket w now ∧
        (∀ y ∈ waitingRows st c prefixes, ¬ specBefore c y r) ∧
        (∀ y ∈ waitingRows st c prefixes, ∀ s, y.startTime = some s →
          ∃ a ∈ st.appointments, ∃ sl ∈ st.schedules, a.TicketID = some y.ticket.ID ∧
            sl.ID = a.ScheduleID ∧ sl.Date = c.date ∧ sl.StartTime = s)) ∧
    (∀ (c c2 c3 : DBClock) (cA cB cC n1 n2 n3 w1 w2 w3 : Int) (reg : Nat),
      2 * fiveMinutes ≤ c.time → c2.date = c.date →
      ∃ st1 st2 st3,
        CallNextTicket Faults.none (rankingStore c cA cB cC) c n1 w1 [] reg =
          (.ok (invite (waitingTicket 1 ['A', '0', '0', '1'] cA) w1 n1), st1) ∧
        CallNextTicket Faults.none st1 c2 n2 w2 [] reg =
          (.ok (invite (waitingTicket 2 ['A', '0', '0', '2'] cB) w2 n2), st2) ∧
        CallNextTicket Faults.none st2 c3 n3 w3 [] reg =
          (.ok (invite (waitingTicket 3 ['A', '0', '0', '3'] cC) w3 n3), st3)) := by
  refine ⟨?_, ?_⟩
  · intro f st st1 c now w cat reg t h
    obtain ⟨prefixes, r, hp, hr, ht, hmin⟩ := CallNextTicket_minimal h
    refine ⟨prefixes, r, hp, hr, ht, hmin, ?_⟩
    intro y hy s hs
    unfold waitingRows at hy
    simp only [List.mem_filter, List.mem_flatMap] at hy
    obtain ⟨⟨x, _, hx⟩, _⟩ := hy
    have := joinSchedules_startTime st c.date x y s hx hs
    rwa [joinSchedules_ticket st c.date x y hx]
  · intro c c2 c3 cA cB cC n1 n2 n3 w1 w2 w3 reg hc hd
    exact ⟨_, _, _, ranking_first c cA cB cC n1 w1 reg hc,
      ranking_second c c2 cA cB cC _ _ n2 w2 reg hd rfl rfl rfl,
      ranking_third c c3 cA cB cC _ _ _ n3 w3 reg rfl rfl rfl rfl rfl rfl⟩

theorem callNextTicket_ranking_witness :
    CallNextTicket Faults.none (rankingStore noonClock 50 60 10) noonClock 100 3 [] 7 =
      (.ok (invite (waitingTicket 1 ['A', '0', '0', '1'] 50) 3 100),
        (CallNextTicket Faults.none (rankingStore noonClock 50 60 10) noonClock 100 3 [] 7).2) ∧
    ∃ prefixes r,
      registrarPrefixes Faults.none (rankingStore noonClock 50 60 10) [] 7 = .ok prefixes ∧
      r ∈ waitingRows (rankingStore noonClock 50 60 10) noonClock prefixes ∧
      invite (waitingTicket 1 ['A', '0', '0', '1'] 50) 3 100 = invite r.ticket 3 100 ∧
      ∀ y ∈ waitingRows (rankingStore noonClock 50 60 10) noonClock prefixes,
        ¬ specBefore noonClock y r :=
  ⟨by decide,
    (callNextTicket_ranking.1 Faults.none (rankingStore noonClock 50 60 10)
      (CallNextTicket Faults.none (rankingStore noonClock 50 60 10) noonClock 100 3 [] 7).2
      noonClock 100 3 [] 7 _ (by decide)).imp
      fun _ h => h.imp fun _ h => ⟨h.1, h.2.1, h.2.2.1, h.2.2.2.1⟩⟩

end ElectronicQueue

namespace ElectronicQueue

/-! ## Lemmas on ticket numbers -/

/-- For a prefix without metacharacters `LIKE prefix || '%'` is "starts with
the prefix". -/
theorem likeMatch_literal (pfx s : List Char) (h : likeLiteral pfx = true) :
    likeMatch (pfx ++ ['%']) s = pfx.isPrefixOf s := by
  unfold likeMatch
  induction pfx generalizing s with
  | nil =>
    simp only [List.nil_append, likeMatchAux, List.isPrefixOf]
    simp only [Bool.false_eq_true, if_false, if_true, List.any_eq_true]
    exact ⟨[], by simp, by simp⟩
  | cons c p ih =>
    simp only [likeLiteral, List.all_cons, Bool.and_eq_true, decide_eq_true_eq, ne_eq,
      Bool.not_eq_true', decide_eq_false_iff_not] at h
    obtain ⟨⟨⟨h1, h2⟩, h3⟩, hp⟩ := h
    have ih' := fun s => ih s (by simpa [likeLiteral] using hp)
    rw [List.cons_append]
    unfold likeMatchAux
    simp only [h1, h2, h3, if_false, Bool.false_eq_true]
    cases s with
    | nil => simp
    | cons x s' =>
      simp only [ih', List.isPrefixOf]
      by_cases hxc : x = c
      · simp [hxc]
      · have : ¬ c = x := fun h => hxc h.symm
        simp [hxc, this]

theorem digitChar_toNat (d : Nat) (h : d < 10) : (digitChar d).toNat = 48 + d := by
  unfold digitChar
  interval_cases d <;> rfl

theorem isDigitChar_digitChar (d : Nat) (h : d < 10) : isDigitChar (digitChar d) = true := by
  unfold isDigitChar
  rw [digitChar_toNat d h]
  simp only [Bool.and_eq_true, decide_eq_true_eq]
  omega

theorem isSpaceChar_of_digit (c : Char) (h : isDigitChar c = true) : isSpaceChar c = false := by
  unfold isDigitChar at h
  unfold isSpaceChar
  simp only [Bool.and_eq_true, decide_eq_true_eq] at h
  have h32 : c ≠ ' ' := by
    rintro rfl
    exact absurd h.1 (by decide)
  simp only [Bool.or_eq_false_iff, decide_eq_false_iff_not]
  refine ⟨⟨⟨⟨⟨h32, ?_⟩, ?_⟩, ?_⟩, ?_⟩, ?_⟩ <;> omega

theorem fmtDigitsAux_fuel (u : Nat) : ∀ (fuel1 fuel2 : Nat) (acc : List Char),
    u < fuel1 → u < fuel2 → fmtDigitsAux fuel1 u acc = fmtDigitsAux fuel2 u [] ++ acc := by
  induction u using Nat.strong_induction_on with
  | _ u ih =>
    intro fuel1 fuel2 acc h1 h2
    obtain ⟨k1, rfl⟩ : ∃ k, fuel1 = k + 1 := ⟨fuel1 - 1, by omega⟩
    obtain ⟨k2, rfl⟩ : ∃ k, fuel2 = k + 1 := ⟨fuel2 - 1, by omega⟩
    unfold fmtDigitsAux
    by_cases hu : u < 10
    · simp [hu]
    · simp only [hu, if_false]
      have hlt : u / 10 < u := by omega
      rw [ih (u / 10) hlt k1 k2 _ (by omega) (by omega),
        ih (u / 10) hlt k2 k2 [digitChar (u % 10)] (by omega) (by omega)]
      simp

theorem fmtDigits_small (u : Nat) (h : u < 10) : fmtDigits u = [digitChar u] := by
  unfold fmtDigits fmtDigitsAux
  simp [h]

theorem fmtDigits_step (u : Nat) (h : 10 ≤ u) :
    fmtDigits u = fmtDigits (u / 10) ++ [digitChar (u % 10)] := by
  have hu : ¬ u < 10 := by omega
  conv_lhs => unfold fmtDigits fmtDigitsAux
  simp only [hu, if_false]
  rw [fmtDigitsAux_fuel (u / 10) u (u / 10 + 1) _ (by omega) (by omega)]
  rfl

theorem digitsValue_append (xs : List Char) (c : Char) :
    digitsValue (xs ++ [c]) = digitsValue xs * 10 + (c.toNat - 48) := by
  simp [digitsValue, List.foldl_append]

theorem digitsValue_fmtDigits (u : Nat) : digitsValue (fmtDigits u) = u := by
  induction u using Nat.strong_induction_on with
  | _ u ih =>
    by_cases hu : u < 10
    · rw [fmtDigits_small u hu]
      simp [digitsValue, digitChar_toNat u hu]
    · rw [fmtDigits_step u (by omega), digitsValue_append, ih (u / 10) (by omega),
        digitChar_toNat _ (Nat.mod_lt _ (by decide))]
      omega

theorem fmtDigits_all_digits (u : Nat) : ∀ c ∈ fmtDigits u, isDigitChar c = true := by
  induction u using Nat.strong_induction_on with
  | _ u ih =>
    by_cases hu : u < 10
    · rw [fmtDigits_small u hu]
      simp [isDigitChar_digitChar u hu]
    · rw [fmtDigits_step u (by omega)]
      intro c hc
      rcases List.mem_append.mp hc with hc | hc
      · exact ih (u / 10) (by omega) c hc
      · simp only [List.mem_singleton] at hc
        rw [hc]
        exact isDigitChar_digitChar _ (Nat.mod_lt _ (by decide))

theorem fmtDigits_ne_nil (u : Nat) : fmtDigits u ≠ [] := by
  by_cases hu : u < 10
  · rw [fmtDigits_small u hu]; simp
  · rw [fmtDigits_step u (by omega)]; simp

theorem digitsValue_padZeros (w : Nat) (ds : List Char) :
    digitsValue (padZeros w ds) = digitsValue ds := by
  unfold padZeros
  generalize w - ds.length = k
  induction k with
  | zero => simp
  | succ k ih =>
    rw [List.replicate_succ, List.cons_append]
    unfold digitsValue at ih ⊢
    rw [List.foldl_cons]
    simpa using ih

theorem padZeros_all_digits (w : Nat) (ds : List Char)
    (h : ∀ c ∈ ds, isDigitChar c = true) : ∀ c ∈ padZeros w ds, isDigitChar c = true := by
  intro c hc
  unfold padZeros at hc
  rcases List.mem_append.mp hc with hc | hc
  · rw [(List.mem_replicate.mp hc).2]
    rfl
  · exact h c hc

theorem padZeros_ne_nil (w : Nat) (ds : List Char) (h : ds ≠ []) : padZeros w ds ≠ [] := by
  unfold padZeros
  simp [h]

/-- The cast of a non-empty run of digits. -/
theorem castInteger_digits (ds : List Char) (hne : ds ≠ [])
    (hd : ∀ c ∈ ds, isDigitChar c = true) :
    castInteger ds =
      if (digitsValue ds : Int) ≤ 2147483647 then some (digitsValue ds : Int) else none := by
  obtain ⟨c, cs, rfl⟩ := List.exists_cons_of_ne_nil hne
  have hc := hd c (by simp)
  have hsp := isSpaceChar_of_digit c hc
  have hminus : c ≠ '-' := by rintro rfl; exact absurd hc (by decide)
  have hplus : c ≠ '+' := by rintro rfl; exact absurd hc (by decide)
  have htake : (c :: cs).takeWhile isDigitChar = c :: cs := by
    rw [List.takeWhile_eq_self_iff]; exact hd
  have hdrop : (c :: cs).dropWhile isDigitChar = [] := by
    rw [List.dropWhile_eq_nil_iff]; exact hd
  unfold castInteger
  simp only [List.dropWhile_cons, hsp, Bool.false_eq_true, if_false, List.head?_cons,
    Option.some.injEq, hminus, hplus, or_self, htake, hdrop, decide_False]
  simp only [reduceCtorEq, List.all_nil, or_self, if_false]
  have : (0 : Int) ≤ (digitsValue (c :: cs) : Int) := Int.ofNat_nonneg _
  by_cases h : (digitsValue (c :: cs) : Int) ≤ 2147483647
  · rw [if_pos ⟨by omega, h⟩, if_pos h]
  · rw [if_neg (fun hh => h hh.2), if_neg h]

/-- The cast of a minus sign followed by a non-empty run of digits. -/
theorem castInteger_minus_digits (ds : List Char) (hne : ds ≠ [])
    (hd : ∀ c ∈ ds, isDigitChar c = true) :
    castInteger ('-' :: ds) =
      if (digitsValue ds : Int) ≤ 2147483648 then some (-(digitsValue ds : Int)) else none := by
  have htake : ds.takeWhile isDigitChar = ds := by
    rw [List.takeWhile_eq_self_iff]; exact hd
  have hdrop : ds.dropWhile isDigitChar = [] := by
    rw [List.dropWhile_eq_nil_iff]; exact hd
  have hsp : isSpaceChar '-' = false := by decide
  unfold castInteger
  simp only [List.dropWhile_cons, hsp, Bool.false_eq_true, if_false, List.head?_cons,
    true_or, if_true, List.drop_succ_cons, List.drop_zero, htake, hdrop, decide_True]
  have hif : ¬ (ds = [] ∨ ([] : List Char).all isSpaceChar = false) := by simp [hne]
  rw [if_neg hif]
  have : (0 : Int) ≤ (digitsValue ds : Int) := Int.ofNat_nonneg _
  by_cases h : (digitsValue ds : Int) ≤ 2147483648
  · rw [if_pos ⟨by omega, by omega⟩, if_pos h]
  · rw [if_neg (fun hh => h (by omega)), if_neg h]

/-- Casting what `%03d` printed gives the number back (within 32 bits). -/
theorem castInteger_fmt03d (n : Int) (hlo : -2147483648 ≤ n) (hhi : n ≤ 2147483647) :
    castInteger (fmt03d n) = some n := by
  unfold fmt03d
  by_cases hn : n < 0
  · simp only [hn, if_true]
    rw [castInteger_minus_digits _ (padZeros_ne_nil _ _ (fmtDigits_ne_nil _))
      (padZeros_all_digits _ _ (fmtDigits_all_digits _)), digitsValue_padZeros,
      digitsValue_fmtDigits]
    rw [if_pos (by omega)]
    congr 1
    omega
  · simp only [hn, if_false]
    rw [castInteger_digits _ (padZeros_ne_nil _ _ (fmtDigits_ne_nil _))
      (padZeros_all_digits _ _ (fmtDigits_all_digits _)), digitsValue_padZeros,
      digitsValue_fmtDigits]
    rw [if_pos (by omega)]
    congr 1
    omega

/-- Below 1000 and not negative, `%03d` prints exactly three digits. -/
theorem fmt03d_threeDigits (n : Nat) (h : n < 1000) : fmt03d (n : Int) = threeDigits n := by
  unfold fmt03d threeDigits
  have hn : ¬ (n : Int) < 0 := by omega
  simp only [hn, if_false, Int.toNat_ofNat]
  by_cases h1 : n < 10
  · rw [fmtDigits_small n h1]
    have e1 : n / 100 = 0 := by omega
    have e2 : n / 10 % 10 = 0 := by omega
    have e3 : n % 10 = n := by omega
    rw [e1, e2, e3]
    rfl
  · rw [fmtDigits_step n (by omega)]
    by_cases h2 : n / 10 < 10
    · rw [fmtDigits_small _ h2]
      have e1 : n / 100 = 0 := by omega
      have e2 : n / 10 % 10 = n / 10 := by omega
      rw [e1, e2]
      rfl
    · rw [fmtDigits_step _ (by omega), fmtDigits_small _ (by omega)]
      have e1 : n / 10 / 10 = n / 100 := by omega
      rw [e1]
      rfl

end ElectronicQueue
namespace ElectronicQueue

theorem foldl_max_spec (vs : List Int) (v0 : Int) :
    (vs.foldl max v0 = v0 ∨ vs.foldl max v0 ∈ vs) ∧ v0 ≤ vs.foldl max v0 ∧
      ∀ v ∈ vs, v ≤ vs.foldl max v0 := by
  induction vs generalizing v0 with
  | nil => simp
  | cons x xs ih =>
    simp only [List.foldl_cons, List.mem_cons, forall_eq_or_imp]
    obtain ⟨h1, h2, h3⟩ := ih (max v0 x)
    refine ⟨?_, by omega, by omega, h3⟩
    rcases h1 with h1 | h1
    · rw [h1]
      rcases max_choice v0 x with h | h <;> simp [h]
    · exact Or.inr (Or.inr h1)

/-- `MAX` returns a value of the column that bounds the column. -/
theorem sqlMax_spec (vs : List Int) (m : Int) (h : sqlMax vs = some m) :
    m ∈ vs ∧ ∀ v ∈ vs, v ≤ m := by
  cases vs with
  | nil => simp [sqlMax] at h
  | cons v0 vs =>
    simp only [sqlMax, Option.some.injEq] at h
    obtain ⟨h1, h2, h3⟩ := foldl_max_spec vs v0
    rw [h] at h1 h2 h3
    refine ⟨?_, ?_⟩
    · rcases h1 with h1 | h1
      · simp [h1]
      · exact List.mem_cons_of_mem _ h1
    · intro v hv
      rcases List.mem_cons.mp hv with rfl | hv
      · exact h2
      · exact h3 v hv

theorem sqlMax_eq_none (vs : List Int) : sqlMax vs = none ↔ vs = [] := by
  cases vs <;> simp [sqlMax]

theorem castAll_eq_some (xs : List Str) (vs : List Int) :
    castAll xs = some vs ↔ xs.map castInteger = vs.map some := by
  induction xs generalizing vs with
  | nil =>
    cases vs <;> simp [castAll]
  | cons x xs ih =>
    unfold castAll
    cases hx : castInteger x with
    | none =>
      cases vs <;> simp [hx]
    | some v =>
      cases hxs : castAll xs with
      | none =>
        cases vs with
        | nil => simp
        | cons w ws =>
          simp only [List.map_cons, hx, List.cons.injEq, Option.some.injEq, reduceCtorEq,
            false_iff, not_and]
          intro _ h
          rw [← ih ws] at h
          rw [hxs] at h
          exact absurd h (by simp)
      | some us =>
        have := (ih us).mp hxs
        cases vs with
        | nil => simp
        | cons w ws =>
          simp only [List.map_cons, hx, List.cons.injEq, Option.some.injEq, this]
          constructor
          · rintro ⟨rfl, rfl⟩
            exact ⟨rfl, rfl⟩
          · rintro ⟨rfl, h⟩
            refine ⟨rfl, ?_⟩
            exact List.map_injective_iff.mpr (Option.some_injective _) h

theorem isPrefixOf_singleton (c : Char) (s : List Char) :
    [c].isPrefixOf s = decide (s.head? = some c) := by
  cases s with
  | nil => simp [List.isPrefixOf]
  | cons x s =>
    simp only [List.isPrefixOf, Bool.and_true, List.head?_cons, Option.some.injEq]
    by_cases h : c = x
    · simp [h]
    · have : ¬ x = c := fun h' => h h'.symm
      simp [h, this]

/-- For a literal one-letter prefix the query selects the tickets whose
number starts with the letter. -/
theorem ticketsLike_letter (st : Store) (letter : Char) (h : likeLiteral [letter] = true) :
    ticketsLike st [letter] =
      st.tickets.filter (fun t => decide (t.TicketNumber.head? = some letter)) := by
  unfold ticketsLike
  congr 1
  funext t
  rw [likeMatch_literal _ _ h, isPrefixOf_singleton]

/-- The query computes the maximum numeric suffix of the specification. -/
theorem GetMaxTicketNumberForPrefix_of_IsMaxSuffix (f : Faults) (st : Store) (letter : Char)
    (m : Int) (hf : f.maxNumber = false) (hl : likeLiteral [letter] = true)
    (hm : IsMaxSuffix st [letter] m) :
    ticketRepo.GetMaxTicketNumberForPrefix f st [letter] = .ok m := by
  simp only [IsMaxSuffix, isPrefixOf_singleton, List.length_singleton, decide_eq_true_eq,
    decide_eq_false_iff_not] at hm
  obtain ⟨hall, hex⟩ := hm
  unfold ticketRepo.GetMaxTicketNumberForPrefix
  simp only [hf, Bool.false_eq_true, if_false]
  rw [ticketsLike_letter st letter hl]
  set matched := st.tickets.filter (fun t => decide (t.TicketNumber.head? = some letter))
    with hmatched
  have hmem : ∀ t, t ∈ matched ↔ t ∈ st.tickets ∧ t.TicketNumber.head? = some letter := by
    intro t
    simp [hmatched]
  have hcast : castAll (matched.map (fun t => t.TicketNumber.drop 1)) =
      some (matched.map (fun t => (castInteger (t.TicketNumber.drop 1)).getD 0)) := by
    rw [castAll_eq_some]
    simp only [List.map_map, List.map_inj_left, Function.comp_apply]
    intro t ht
    obtain ⟨v, hv, _⟩ := hall t ((hmem t).mp ht).1 ((hmem t).mp ht).2
    simp only [hv, Option.getD_some]
  rw [hcast]
  simp only
  congr 1
  cases hmax : sqlMax (matched.map (fun t => (castInteger (t.TicketNumber.drop 1)).getD 0)) with
  | none =>
    rw [sqlMax_eq_none, List.map_eq_nil_iff] at hmax
    rcases hex with ⟨t, ht, hh, _⟩ | ⟨h0, _⟩
    · have := (hmem t).mpr ⟨ht, hh⟩
      rw [hmax] at this
      simp at this
    · simp [h0]
  | some m' =>
    obtain ⟨h1, h2⟩ := sqlMax_spec _ _ hmax
    simp only [Option.getD_some]
    simp only [List.mem_map] at h1
    obtain ⟨t, ht, htv⟩ := h1
    obtain ⟨v, hv, hvm⟩ := hall t ((hmem t).mp ht).1 ((hmem t).mp ht).2
    rw [hv] at htv
    simp only [Option.getD_some] at htv
    rcases hex with ⟨t', ht', hh', hc'⟩ | ⟨_, hnone⟩
    · have : m ≤ m' := by
        apply h2
        simp only [List.mem_map]
        exact ⟨t', (hmem t').mpr ⟨ht', hh'⟩, by simp only [hc', Option.getD_some]⟩
      omega
    · exact absurd ((hmem t).mp ht).2 (hnone t ((hmem t).mp ht).1)

end ElectronicQueue
namespace ElectronicQueue

/-- C2 (amended): for a service whose letter is one character other than the
LIKE wildcards and a maximum numeric suffix m >= 0 among the tickets starting
with that letter (0 when there is none), generateTicketNumber returns the
letter followed by the three-digit zero-padded decimal of m + 1 when
m + 1 < 1000 and by 001 otherwise; and two stores with the same services and
the same tickets carrying the letter as prefix give the same result. -/
theorem generateTicketNumber_next :
    (∀ (f : Faults) (st : Store) (serviceID : String) (s : Service) (letter : Char) (m : Int),
      f.serviceGet = false → f.maxNumber = false →
      st.services.find? (fun x => x.ServiceID = serviceID) = some s →
      s.Letter = [letter] → likeLiteral [letter] = true →
      IsMaxSuffix st [letter] m → 0 ≤ m →
      generateTicketNumber f st serviceID =
        .ok (letter :: (if m + 1 < 1000 then threeDigits (m + 1).toNat else ['0', '0', '1']))) ∧
    (∀ (f : Faults) (st st' : Store) (serviceID : String) (s : Service),
      serviceRepo.GetByServiceID f st serviceID = .ok s → st'.services = st.services →
      likeLiteral s.Letter = true →
      st'.tickets.filter (fun t => s.Letter.isPrefixOf t.TicketNumber) =
        st.tickets.filter (fun t => s.Letter.isPrefixOf t.TicketNumber) →
      generateTicketNumber f st' serviceID = generateTicketNumber f st serviceID) := by
  refine ⟨?_, ?_⟩
  · intro f st serviceID s letter m hf1 hf2 hs hl hlit hm h0
    have hget : serviceRepo.GetByServiceID f st serviceID = .ok s := by
      unfold serviceRepo.GetByServiceID
      simp [hf1, hs]
    have hmax := GetMaxTicketNumberForPrefix_of_IsMaxSuffix f st letter m hf2 hlit hm
    unfold generateTicketNumber
    simp only [hget, hl, hmax, maxTicketNumber]
    by_cases hlt : m + 1 < 1000
    · have hge : ¬ m + 1 ≥ 1000 := by omega
      simp only [hge, if_false, hlt, if_true]
      rw [← fmt03d_threeDigits _ (by omega)]
      have : ((m + 1).toNat : Int) = m + 1 := by omega
      rw [this]
      rfl
    · have hge : m + 1 ≥ 1000 := by omega
      simp only [hge, if_true, hlt, if_false]
      rfl
  · intro f st st' serviceID s hget hsv hlit hfil
    have hget' : serviceRepo.GetByServiceID f st' serviceID = .ok s := by
      unfold serviceRepo.GetByServiceID at hget ⊢
      rw [hsv]
      exact hget
    have hlike : ticketsLike st' s.Letter = ticketsLike st s.Letter := by
      unfold ticketsLike
      simp only [likeMatch_literal _ _ hlit]
      exact hfil
    unfold generateTicketNumber ticketRepo.GetMaxTicketNumberForPrefix
    simp only [hget, hget', hlike]

theorem generateTicketNumber_next_witness :
    numberingStore.services.find? (fun x => x.ServiceID = "make_appointment") =
      some { ID := 1, ServiceID := "make_appointment", Name := "A", Letter := ['A'] } ∧
    IsMaxSuffix numberingStore ['A'] 5 ∧
    generateTicketNumber Faults.none numberingStore "make_appointment" =
      .ok ['A', '0', '0', '6'] :=
  have hm : IsMaxSuffix numberingStore ['A'] 5 :=
    ⟨by
      intro t ht hh
      simp only [numberingStore, waitingTicket, List.mem_cons, List.mem_singleton,
        List.not_mem_nil, or_false] at ht
      rcases ht with rfl | rfl | rfl
      · exact ⟨1, by decide, by decide⟩
      · exact ⟨5, by decide, by decide⟩
      · exact absurd hh (by decide),
    Or.inl ⟨waitingTicket 2 ['A', '0', '0', '5'] 20, by simp [numberingStore], by decide,
      by decide⟩⟩
  ⟨by decide, hm,
    generateTicketNumber_next.1 Faults.none numberingStore "make_appointment"
      { ID := 1, ServiceID := "make_appointment", Name := "A", Letter := ['A'] } 'A' 5 rfl rfl
      (by decide) rfl (by decide) hm (by decide)⟩

/-- With the wildcard letter `_` the ticket `B007` of another prefix counts:
the specification's maximum is 0 and yet the number is `_008`, and without
that ticket it is `_001`; with a two-character letter the suffix of `AB001` is
1 for the specification and the query fails on the cast of `B001`. -/
theorem generateTicketNumber_other_letters :
    IsMaxSuffix underscoreStore ['_'] 0 ∧
    generateTicketNumber Faults.none underscoreStore "other" = .ok ['_', '0', '0', '8'] ∧
    generateTicketNumber Faults.none { underscoreStore with tickets := [] } "other" =
      .ok ['_', '0', '0', '1'] ∧
    IsMaxSuffix twoLetterStore ['A', 'B'] 1 ∧
    generateTicketNumber Faults.none twoLetterStore "other" = .error .invalidInteger := by
  refine ⟨⟨?_, Or.inr ⟨rfl, ?_⟩⟩, by decide, by decide, ⟨?_, Or.inl ?_⟩, by decide⟩
  · intro t ht hh
    simp only [underscoreStore, waitingTicket, List.mem_singleton] at ht
    subst ht
    exact absurd hh (by decide)
  · intro t ht
    simp only [underscoreStore, waitingTicket, List.mem_singleton] at ht
    subst ht
    decide
  · intro t ht _
    simp only [twoLetterStore, waitingTicket, List.mem_singleton] at ht
    subst ht
    exact ⟨1, by decide, by decide⟩
  · exact ⟨waitingTicket 1 ['A', 'B', '0', '0', '1'] 10, by simp [twoLetterStore], by decide,
      by decide⟩

end ElectronicQueue
namespace ElectronicQueue

theorem castInteger_range (s : Str) (v : Int) (h : castInteger s = some v) :
    -2147483648 ≤ v ∧ v ≤ 2147483647 := by
  unfold castInteger at h
  simp only at h
  split_ifs at h <;> simp only [Option.some.injEq] at h <;> (rw [← h]; assumption)

/-- What the query returns bounds the suffix of every selected ticket and fits
32 bits. -/
theorem GetMaxTicketNumberForPrefix_bound (f : Faults) (st : Store) (pfx : Str) (m : Int)
    (h : ticketRepo.GetMaxTicketNumberForPrefix f st pfx = .ok m) :
    (∀ t ∈ ticketsLike st pfx,
      ∃ v, castInteger (t.TicketNumber.drop 1) = some v ∧ v ≤ m) ∧
    -2147483648 ≤ m ∧ m ≤ 2147483647 := by
  unfold ticketRepo.GetMaxTicketNumberForPrefix at h
  split_ifs at h
  split at h
  · simp at h
  · rename_i vals hvals
    simp only [Except.ok.injEq] at h
    rw [castAll_eq_some] at hvals
    have hmemv : ∀ t ∈ ticketsLike st pfx,
        ∃ v ∈ vals, castInteger (t.TicketNumber.drop 1) = some v := by
      intro t ht
      have h1 : castInteger (t.TicketNumber.drop 1) ∈
          ((ticketsLike st pfx).map (fun t => t.TicketNumber.drop 1)).map castInteger := by
        simp only [List.map_map, List.mem_map, Function.comp_apply]
        exact ⟨t, ht, rfl⟩
      rw [hvals] at h1
      simp only [List.mem_map] at h1
      obtain ⟨v, hv, hv2⟩ := h1
      exact ⟨v, hv, hv2.symm⟩
    have hrange : ∀ v ∈ vals, -2147483648 ≤ v ∧ v ≤ 2147483647 := by
      intro v hv
      have h1 : some v ∈ vals.map some := List.mem_map.mpr ⟨v, hv, rfl⟩
      rw [← hvals] at h1
      simp only [List.map_map, List.mem_map, Function.comp_apply] at h1
      obtain ⟨t, _, ht⟩ := h1
      exact castInteger_range _ _ ht
    cases hmax : sqlMax vals with
    | none =>
      rw [sqlMax_eq_none] at hmax
      rw [hmax] at hmemv
      rw [hmax] at h
      simp only [sqlMax, Option.getD_none] at h
      refine ⟨?_, by omega, by omega⟩
      intro t ht
      obtain ⟨v, hv, _⟩ := hmemv t ht
      simp at hv
    | some m' =>
      rw [hmax] at h
      simp only [Option.getD_some] at h
      subst h
      obtain ⟨h1, h2⟩ := sqlMax_spec _ _ hmax
      refine ⟨?_, hrange _ h1⟩
      intro t ht
      obtain ⟨v, hv, hc⟩ := hmemv t ht
      exact ⟨v, hc, h2 v hv⟩

/-- Below the ceiling the generated number is carried by no stored ticket. -/
theorem generateTicketNumber_fresh (f : Faults) (st : Store) (serviceID : String) (s : Service)
    (letter : Char) (m : Int) (n : Str)
    (hs : serviceRepo.GetByServiceID f st serviceID = .ok s) (hl : s.Letter = [letter])
    (hlit : likeLiteral [letter] = true)
    (hm : ticketRepo.GetMaxTicketNumberForPrefix f st [letter] = .ok m) (hlt : m + 1 < 1000)
    (hn : generateTicketNumber f st serviceID = .ok n) :
    ∀ t ∈ st.tickets, t.TicketNumber ≠ n := by
  obtain ⟨hb, hlo, hhi⟩ := GetMaxTicketNumberForPrefix_bound f st [letter] m hm
  unfold generateTicketNumber at hn
  simp only [hs, hl, hm, maxTicketNumber] at hn
  have hge : ¬ m + 1 ≥ 1000 := by omega
  simp only [hge, if_false, Except.ok.injEq] at hn
  intro t ht heq
  have hlike : t ∈ ticketsLike st [letter] := by
    rw [ticketsLike_letter st letter hlit]
    simp only [List.mem_filter, decide_eq_true_eq]
    refine ⟨ht, ?_⟩
    rw [heq, ← hn]
    rfl
  obtain ⟨v, hv, hvm⟩ := hb t hlike
  have hdrop : t.TicketNumber.drop 1 = fmt03d (m + 1) := by
    rw [heq, ← hn]
    rfl
  rw [hdrop, castInteger_fmt03d (m + 1) (by omega) (by omega)] at hv
  simp only [Option.some.injEq] at hv
  omega

/-- A successful `CreateTicket` appends one ticket whose number no stored
ticket carries; a failed one leaves the store as it was. -/
theorem CreateTicket_store (f : Faults) (st st1 : Store) (now : Int) (serviceID : String) :
    (∀ t, CreateTicket f st now serviceID = (.ok t, st1) →
      st1 = { st with tickets := st.tickets ++ [t] } ∧ t.TicketNumber ∉ ticketNumbers st ∧
        generateTicketNumber f st serviceID = .ok t.TicketNumber ∧
        t.Status = StatusWaiting ∧ t.CompletedAt = none) ∧
    (∀ e, CreateTicket f st now serviceID = (.error e, st1) → st1 = st) := by
  unfold CreateTicket
  split_ifs with h0
  · refine ⟨fun t h => ?_, fun e h => ?_⟩
    · simp at h
    · simp only [Prod.mk.injEq] at h
      exact h.2.symm
  · split
    · refine ⟨fun t h => ?_, fun e h => ?_⟩
      · simp at h
      · simp only [Prod.mk.injEq] at h
        exact h.2.symm
    · rename_i n hn
      unfold ticketRepo.Create insertTicket
      by_cases hf : f.ticketCreate = true
      · refine ⟨fun t h => ?_, fun e h => ?_⟩
        · simp [hf] at h
        · simp only [hf, if_true, Prod.mk.injEq] at h
          exact h.2.symm
      · by_cases hany : (st.tickets.any fun x => decide (x.TicketNumber = n)) = true
        · refine ⟨fun t h => ?_, fun e h => ?_⟩
          · simp [hf, hany] at h
          · simp only [hf, hany, if_true, Bool.false_eq_true, if_false, Prod.mk.injEq] at h
            exact h.2.symm
        · refine ⟨fun t h => ?_, fun e h => ?_⟩
          · simp only [hf, hany, Bool.false_eq_true, if_false, ne_eq, not_true_eq_false,
              false_and, if_true, Prod.mk.injEq, Except.ok.injEq] at h
            obtain ⟨ht, hst⟩ := h
            subst ht
            refine ⟨hst.symm, ?_, hn, rfl, rfl⟩
            simp only [List.any_eq_true, decide_eq_true_eq, not_exists, not_and] at hany
            simp only [ticketNumbers, List.mem_map, not_exists, not_and]
            exact hany
          · simp [hf, hany] at h

end ElectronicQueue
namespace ElectronicQueue

theorem CreateTicket_nodup (f : Faults) (st : Store) (now : Int) (serviceID : String)
    (h : (ticketNumbers st).Nodup) :
    (ticketNumbers (CreateTicket f st now serviceID).2).Nodup := by
  rcases hres : CreateTicket f st now serviceID with ⟨res, st1⟩
  cases res with
  | error e =>
    rw [(CreateTicket_store f st st1 now serviceID).2 e hres]
    exact h
  | ok t =>
    obtain ⟨hst, hnew, _⟩ := (CreateTicket_store f st st1 now serviceID).1 t hres
    simp only [hst, ticketNumbers, List.map_append, List.map_cons, List.map_nil]
    rw [List.nodup_append]
    refine ⟨h, by simp, ?_⟩
    intro a ha hb
    simp only [List.mem_singleton] at hb
    exact hnew (hb ▸ ha)

/-- C3: the number `CreateTicket` assigns to the new ticket is carried by no
stored ticket, also when the suffix wraps; a successful call appends that one
ticket and a failed one changes nothing, so pairwise distinct ticket numbers
are an invariant of every sequence of `CreateTicket` calls. The number
`generateTicketNumber` produces is itself new while the suffix stays below the
ceiling (for a letter of one literal character). -/
theorem createTicket_numbers_distinct :
    (∀ (f : Faults) (st : Store) (serviceID : String) (s : Service) (letter : Char) (m : Int)
        (n : Str),
      serviceRepo.GetByServiceID f st serviceID = .ok s → s.Letter = [letter] →
      likeLiteral [letter] = true → ticketRepo.GetMaxTicketNumberForPrefix f st [letter] = .ok m →
      m + 1 < 1000 → generateTicketNumber f st serviceID = .ok n → n ∉ ticketNumbers st) ∧
    (∀ (f : Faults) (st st1 : Store) (now : Int) (serviceID : String) (t : Ticket),
      (ticketNumbers st).Nodup → CreateTicket f st now serviceID = (.ok t, st1) →
      t.TicketNumber ∉ ticketNumbers st ∧ st1 = { st with tickets := st.tickets ++ [t] } ∧
        (ticketNumbers st1).Nodup) ∧
    (∀ (f : Faults) (st st1 : Store) (now : Int) (serviceID : String) (e : Error),
      CreateTicket f st now serviceID = (.error e, st1) → st1 = st) ∧
    (∀ (st : Store) (calls : List (Faults × Int × String)),
      (ticketNumbers st).Nodup → (ticketNumbers (createTickets st calls)).Nodup) := by
  refine ⟨?_, ?_, ?_, ?_⟩
  · intro f st serviceID s letter m n hs hl hlit hm hlt hn hmem
    simp only [ticketNumbers, List.mem_map] at hmem
    obtain ⟨t, ht, hnum⟩ := hmem
    exact generateTicketNumber_fresh f st serviceID s letter m n hs hl hlit hm hlt hn t ht hnum
  · intro f st st1 now serviceID t hnd h
    obtain ⟨hst, hnew, _⟩ := (CreateTicket_store f st st1 now serviceID).1 t h
    refine ⟨hnew, hst, ?_⟩
    have := CreateTicket_nodup f st now serviceID hnd
    rwa [h] at this
  · intro f st st1 now serviceID e h
    exact (CreateTicket_store f st st1 now serviceID).2 e h
  · intro st calls
    induction calls generalizing st with
    | nil => exact fun h => h
    | cons call rest ih =>
      obtain ⟨f, now, serviceID⟩ := call
      intro h
      exact ih _ (CreateTicket_nodup f st now serviceID h)

theorem createTicket_numbers_distinct_witness :
    (ticketNumbers numberingStore).Nodup ∧
    CreateTicket Faults.none numberingStore 40 "make_appointment" =
      (.ok { waitingTicket 4 ['A', '0', '0', '6'] 40 with
              ServiceType := some "make_appointment" },
        (CreateTicket Faults.none numberingStore 40 "make_appointment").2) ∧
    ['A', '0', '0', '6'] ∉ ticketNumbers numberingStore ∧
    (ticketNumbers (CreateTicket Faults.none numberingStore 40 "make_appointment").2).Nodup :=
  have h := createTicket_numbers_distinct.2.1 Faults.none numberingStore
    (CreateTicket Faults.none numberingStore 40 "make_appointment").2 40 "make_appointment"
    { waitingTicket 4 ['A', '0', '0', '6'] 40 with ServiceType := some "make_appointment" }
    (by decide) (by decide)
  ⟨by decide, by decide, h.1, h.2.2⟩

/-- At the ceiling the generated number is `A001` although a stored ticket
carries it; the insert is rejected and the store stays as it was. -/
theorem createTicket_wrap_collides :
    (ticketNumbers wrapStore).Nodup ∧
    generateTicketNumber Faults.none wrapStore "make_appointment" = .ok ['A', '0', '0', '1'] ∧
    ['A', '0', '0', '1'] ∈ ticketNumbers wrapStore ∧
    CreateTicket Faults.none wrapStore 40 "make_appointment" =
      (.error .uniqueViolation, wrapStore) := by
  decide

end ElectronicQueue
namespace ElectronicQueue

/-! ## Lemmas on stored tickets -/

theorem find?_ticket_mem {l : List Ticket} {id : Nat} {t : Ticket}
    (h : l.find? (fun y => decide (y.ID = id)) = some t) : t ∈ l ∧ t.ID = id := by
  refine ⟨List.mem_of_find?_eq_some h, ?_⟩
  simpa using List.find?_some h

/-- After the rows with primary key `id` are overwritten by `t1`, the row
found under `id` is `t1`. -/
theorem find?_map_replace (l : List Ticket) (id : Nat) (t t1 : Ticket) (h1 : t1.ID = id)
    (h : l.find? (fun y => decide (y.ID = id)) = some t) :
    (l.map (fun y => if y.ID = id then t1 else y)).find? (fun y => decide (y.ID = id)) =
      some t1 := by
  induction l with
  | nil => simp at h
  | cons x xs ih =>
    simp only [List.map_cons, List.find?_cons]
    by_cases hx : x.ID = id
    · simp [hx, h1]
    · simp only [List.find?_cons, hx, decide_False] at h
      simp only [hx, if_false, decide_False]
      exact ih h

/-- Rows with another primary key are not touched by the overwrite. -/
theorem find?_map_replace_other (l : List Ticket) (id id2 : Nat) (t1 : Ticket) (h1 : t1.ID = id)
    (hne : id2 ≠ id) :
    (l.map (fun y => if y.ID = id then t1 else y)).find? (fun y => decide (y.ID = id2)) =
      l.find? (fun y => decide (y.ID = id2)) := by
  induction l with
  | nil => rfl
  | cons x xs ih =>
    simp only [List.map_cons, List.find?_cons]
    by_cases hx : x.ID = id
    · have h2 : ¬ t1.ID = id2 := by rw [h1]; exact fun h => hne h.symm
      have h3 : ¬ x.ID = id2 := by rw [hx]; exact fun h => hne h.symm
      rw [if_pos hx]
      simp only [h2, h3, decide_False]
      exact ih
    · simp only [hx, if_false]
      by_cases hx2 : x.ID = id2
      · simp [hx2]
      · simp only [hx2, decide_False]
        exact ih

theorem ticketRepoGetByID_found {f : Faults} {st : Store} {id : Nat} {t : Ticket}
    (hf : f.ticketGet = false) (h : st.tickets.find? (fun y => decide (y.ID = id)) = some t) :
    ticketRepo.GetByID f st id = .ok t := by
  unfold ticketRepo.GetByID
  simp [hf, h]

theorem ticketRepoGetByID_ok {f : Faults} {st : Store} {id : Nat} {t : Ticket}
    (h : ticketRepo.GetByID f st id = .ok t) :
    f.ticketGet = false ∧ st.tickets.find? (fun y => decide (y.ID = id)) = some t := by
  unfold ticketRepo.GetByID at h
  split_ifs at h with hf
  split at h
  · rename_i t' ht
    simp only [Except.ok.injEq] at h
    exact ⟨by simpa using hf, by rw [ht, h]⟩
  · simp at h

end ElectronicQueue
namespace ElectronicQueue

/-- A successful save of a rewritten stored ticket overwrites it. -/
theorem ticketRepoUpdate_found {f : Faults} {st : Store} {id : Nat} {t : Ticket}
    {r : Ticket × Store} (t1 : Ticket) (ht : storedTicket st id = some t) (hid : t1.ID = t.ID)
    (hnum : t1.TicketNumber = t.TicketNumber) (h : ticketRepo.Update f st t1 = .ok r) :
    r = (t1, replaceTicket st t1) ∧ storedTicket (replaceTicket st t1) id = some t1 := by
  obtain ⟨hmem, hidt⟩ := find?_ticket_mem ht
  obtain ⟨r1, r2⟩ := r
  obtain ⟨_, _, h3, h4⟩ := ticketRepoUpdate_stored hmem hid hnum h
  refine ⟨by rw [h3, h4]; rfl, ?_⟩
  unfold storedTicket replaceTicket
  simp only
  rw [hid, hidt]
  exact find?_map_replace st.tickets id t t1 (by rw [hid, hidt]) ht

/-- C4: for a stored ticket, StartAppointment fails and changes nothing unless
the status is registered, CompleteAppointment unless it is in-progress,
CallSpecificTicket (reception log included) unless it is waiting; with the
required status, a successful read and a successful store write each
operation succeeds and the stored ticket becomes in-progress, completed and
invited respectively. -/
theorem status_legality (f : Faults) (st : Store) (now w : Int) (id : Nat) (t : Ticket)
    (ht : storedTicket st id = some t) :
    (t.Status ≠ StatusRegistered →
      ∃ e, StartAppointment f st now id = (.error e, st) ∧
        (f.ticketGet = false → e = .mustBeRegistered)) ∧
    (t.Status ≠ StatusInProgress →
      ∃ e, CompleteAppointment f st now id = (.error e, st) ∧
        (f.ticketGet = false → e = .mustBeInProgress)) ∧
    (t.Status ≠ StatusWaiting →
      ∃ e, CallSpecificTicket f st now id w = (.error e, st) ∧
        (f.ticketGet = false → e = .wrongStatusForCall t.TicketNumber t.Status)) ∧
    (t.Status = StatusRegistered → f.ticketGet = false →
      ∀ r, ticketRepo.Update f st (startTicket t now) = .ok r →
        StartAppointment f st now id =
          (.ok (startTicket t now), replaceTicket st (startTicket t now)) ∧
        storedTicket (replaceTicket st (startTicket t now)) id = some (startTicket t now) ∧
        (startTicket t now).Status = StatusInProgress) ∧
    (t.Status = StatusInProgress → f.ticketGet = false →
      ∀ r, ticketRepo.Update f st (completeTicket t now) = .ok r →
        CompleteAppointment f st now id =
          (.ok (completeTicket t now), replaceTicket st (completeTicket t now)) ∧
        storedTicket (replaceTicket st (completeTicket t now)) id =
          some (completeTicket t now) ∧
        (completeTicket t now).Status = StatusCompleted) ∧
    (t.Status = StatusWaiting → f.ticketGet = false →
      ∀ r, ticketRepo.Update f st (invite t w now) = .ok r →
        ∃ st2, CallSpecificTicket f st now id w = (.ok (invite t w now), st2) ∧
          st2.tickets = (replaceTicket st (invite t w now)).tickets ∧
          storedTicket st2 id = some (invite t w now) ∧
          (invite t w now).Status = StatusInvited) := by
  have hread : f.ticketGet = false → ticketRepo.GetByID f st id = .ok t :=
    fun hf => ticketRepoGetByID_found hf ht
  have hfault : f.ticketGet = true → ticketRepo.GetByID f st id = .error .storeFailure := by
    intro hf
    unfold ticketRepo.GetByID
    simp [hf]
  refine ⟨?_, ?_, ?_, ?_, ?_, ?_⟩
  · intro hs
    unfold StartAppointment
    by_cases hf : f.ticketGet = true
    · rw [hfault hf]
      exact ⟨_, rfl, fun h => by simp [hf] at h⟩
    · rw [hread (by simpa using hf)]
      simp only [ne_eq, hs, not_false_eq_true, if_true]
      exact ⟨_, rfl, fun _ => rfl⟩
  · intro hs
    unfold CompleteAppointment
    by_cases hf : f.ticketGet = true
    · rw [hfault hf]
      exact ⟨_, rfl, fun h => by simp [hf] at h⟩
    · rw [hread (by simpa using hf)]
      simp only [ne_eq, hs, not_false_eq_true, if_true]
      exact ⟨_, rfl, fun _ => rfl⟩
  · intro hs
    unfold CallSpecificTicket
    by_cases hf : f.ticketGet = true
    · rw [hfault hf]
      exact ⟨_, rfl, fun h => by simp [hf] at h⟩
    · rw [hread (by simpa using hf)]
      simp only [ne_eq, hs, not_false_eq_true, if_true]
      exact ⟨_, rfl, fun _ => rfl⟩
  · intro hs hf r hr
    obtain ⟨h1, h2⟩ := ticketRepoUpdate_found (startTicket t now) ht rfl rfl hr
    refine ⟨?_, h2, rfl⟩
    unfold StartAppointment
    rw [hread hf]
    simp only [ne_eq, hs, not_true_eq_false, if_false]
    unfold startTicket at hr h1
    rw [hr, h1]
    rfl
  · intro hs hf r hr
    obtain ⟨h1, h2⟩ := ticketRepoUpdate_found (completeTicket t now) ht rfl rfl hr
    refine ⟨?_, h2, rfl⟩
    unfold CompleteAppointment
    rw [hread hf]
    simp only [ne_eq, hs, not_true_eq_false, if_false]
    unfold completeTicket at hr h1
    rw [hr, h1]
    rfl
  · intro hs hf r hr
    obtain ⟨h1, h2⟩ := ticketRepoUpdate_found (invite t w now) ht rfl rfl hr
    unfold CallSpecificTicket
    rw [hread hf]
    simp only [ne_eq, hs, not_true_eq_false, if_false]
    unfold invite at hr h1
    rw [hr, h1]
    simp only
    rw [receptionLogRepoCreate_new _ _ _ rfl]
    by_cases hl : f.logCreate = true
    · simp only [hl, if_true]
      exact ⟨_, rfl, rfl, h2, rfl⟩
    · simp only [hl, if_false]
      exact ⟨_, rfl, rfl, h2, rfl⟩

end ElectronicQueue

namespace ElectronicQueue

theorem status_legality_witness :
    storedTicket numberingStore 1 = some (waitingTicket 1 ['A', '0', '0', '1'] 10) ∧
    (∃ e, StartAppointment Faults.none numberingStore 50 1 = (.error e, numberingStore) ∧
      (Faults.none.ticketGet = false → e = .mustBeRegistered)) ∧
    (∃ st2, CallSpecificTicket Faults.none numberingStore 50 1 3 =
        (.ok (invite (waitingTicket 1 ['A', '0', '0', '1'] 10) 3 50), st2) ∧
      st2.tickets =
        (replaceTicket numberingStore (invite (waitingTicket 1 ['A', '0', '0', '1'] 10) 3 50)).tickets ∧
      storedTicket st2 1 = some (invite (waitingTicket 1 ['A', '0', '0', '1'] 10) 3 50) ∧
      (invite (waitingTicket 1 ['A', '0', '0', '1'] 10) 3 50).Status = StatusInvited) :=
  have h := status_legality Faults.none numberingStore 50 3 1
    (waitingTicket 1 ['A', '0', '0', '1'] 10) (by decide)
  ⟨by decide, h.1 (by decide),
    h.2.2.2.2.2 (by decide) (by decide)
      (invite (waitingTicket 1 ['A', '0', '0', '1'] 10) 3 50,
        replaceTicket numberingStore (invite (waitingTicket 1 ['A', '0', '0', '1'] 10) 3 50))
      (by decide)⟩

end ElectronicQueue
namespace ElectronicQueue

/-- C5: when the stored ticket is registered and the read of it succeeds,
UpdateTicket with target status completed returns no error and leaves the
whole store (the ticket, its completed_at, the reception log) as it was. -/
theorem updateTicket_stale_completion (f : Faults) (st : Store) (now : Int)
    (ticket cur : Ticket) (hf : f.ticketGet = false)
    (hcur : storedTicket st ticket.ID = some cur) (hreg : cur.Status = StatusRegistered)
    (htarget : ticket.Status = StatusCompleted) :
    UpdateTicket f st now ticket = (none, st) ∧
      storedTicket (UpdateTicket f st now ticket).2 ticket.ID = some cur ∧
      (UpdateTicket f st now ticket).2.receptionLogs = st.receptionLogs := by
  have h : UpdateTicket f st now ticket = (none, st) := by
    unfold UpdateTicket finalizeReceptionAndUpdateTicket
    simp only [htarget, true_or, if_true]
    rw [ticketRepoGetByID_found hf hcur]
    simp [hreg]
  rw [h]
  exact ⟨rfl, hcur, rfl⟩

theorem updateTicket_stale_completion_witness :
    storedTicket deskStore 2 =
      some { waitingTicket 2 ['A', '0', '0', '2'] 20 with
        Status := StatusRegistered, WindowNumber := some 1, CalledAt := some 90 } ∧
    UpdateTicket Faults.none deskStore 300
        { waitingTicket 2 ['A', '0', '0', '2'] 20 with
          Status := StatusCompleted, WindowNumber := some 1, CalledAt := some 90 } =
      (none, deskStore) :=
  ⟨by decide,
    (updateTicket_stale_completion Faults.none deskStore 300
      { waitingTicket 2 ['A', '0', '0', '2'] 20 with
        Status := StatusCompleted, WindowNumber := some 1, CalledAt := some 90 }
      { waitingTicket 2 ['A', '0', '0', '2'] 20 with
        Status := StatusRegistered, WindowNumber := some 1, CalledAt := some 90 }
      rfl (by decide) rfl rfl).1⟩

end ElectronicQueue
namespace ElectronicQueue

theorem joinSchedules_nonempty (st : Store) (d : Nat) (t : Ticket) :
    ∃ r, r ∈ joinSchedules st d t := by
  unfold joinSchedules
  split
  · exact ⟨_, List.mem_singleton.mpr rfl⟩
  · rename_i a as _
    simp only [List.flatMap_cons, List.mem_append]
    split
    · exact ⟨_, Or.inl (List.mem_singleton.mpr rfl)⟩
    · exact ⟨_, Or.inl (by simp only [List.map_cons]; exact List.mem_cons_self _ _)⟩

/-- The tickets of the rows of the query are the eligible stored tickets. -/
theorem waitingRows_tickets (st : Store) (c : DBClock) (prefixes : List Str) (t : Ticket) :
    (∃ r ∈ waitingRows st c prefixes, r.ticket = t) ↔ t ∈ st.tickets ∧ eligible prefixes t := by
  have hcond : ∀ x : Ticket,
      (x.Status = "ожидает" ∧ (prefixes.length > 0 → x.TicketNumber.take 1 ∈ prefixes)) ↔
        eligible prefixes x := by
    intro x
    unfold eligible
    have hw : StatusWaiting = "ожидает" := rfl
    rw [hw]
    cases prefixes <;> simp
  constructor
  · rintro ⟨r, hr, rfl⟩
    refine ⟨waitingRows_ticket_mem st c prefixes r hr, ?_⟩
    unfold waitingRows at hr
    simp only [List.mem_filter, decide_eq_true_eq] at hr
    exact (hcond r.ticket).mp hr.2
  · rintro ⟨ht, he⟩
    obtain ⟨r, hr⟩ := joinSchedules_nonempty st c.date t
    have hrt := joinSchedules_ticket st c.date t r hr
    refine ⟨r, ?_, hrt⟩
    unfold waitingRows
    simp only [List.mem_filter, List.mem_flatMap, decide_eq_true_eq]
    refine ⟨⟨t, ht, hr⟩, ?_⟩
    rw [hrt]
    exact (hcond t).mpr he

theorem waitingRows_eq_nil (st : Store) (c : DBClock) (prefixes : List Str) :
    waitingRows st c prefixes = [] ↔ ∀ t ∈ st.tickets, ¬ eligible prefixes t := by
  constructor
  · intro h t ht he
    obtain ⟨r, hr, _⟩ := (waitingRows_tickets st c prefixes t).mpr ⟨ht, he⟩
    rw [h] at hr
    simp at hr
  · intro h
    rw [List.eq_nil_iff_forall_not_mem]
    intro r hr
    obtain ⟨ht, he⟩ := (waitingRows_tickets st c prefixes r.ticket).mp ⟨r, hr, rfl⟩
    exact h _ ht he

/-- C6 (amended): a successful CallNextTicket returns the ticket it stored: a
waiting ticket of the store with status invited, the window number and the
call time set and every other field unchanged; when the reception-log insert
succeeds exactly one entry (ticket id, window, the same call time, registrar
id, no completion time) is appended, and when it fails the call succeeds all
the same and the log is unchanged. -/
theorem callNextTicket_effect (f : Faults) (st st1 : Store) (c : DBClock) (now w : Int)
    (cat : Str) (reg : Nat) (t : Ticket)
    (h : CallNextTicket f st c now w cat reg = (.ok t, st1)) :
    ∃ x ∈ st.tickets, x.Status = StatusWaiting ∧ t = invite x w now ∧
      storedTicket st1 t.ID = some t ∧
      t.Status = StatusInvited ∧ t.WindowNumber = some w ∧ t.CalledAt = some now ∧
      t.ID = x.ID ∧ t.TicketNumber = x.TicketNumber ∧ t.ServiceType = x.ServiceType ∧
      t.QRCode = x.QRCode ∧ t.CreatedAt = x.CreatedAt ∧ t.StartedAt = x.StartedAt ∧
      t.CompletedAt = x.CompletedAt ∧
      (f.logCreate = false → ∃ logID, st1.receptionLogs = st.receptionLogs ++
        [{ LogID := logID, TicketID := t.ID, RegistrarID := some reg, WindowNumber := w,
           CalledAt := now, CompletedAt := none, Duration := none }]) ∧
      (f.logCreate = true → st1.receptionLogs = st.receptionLogs) := by
  obtain ⟨prefixes, r, _, _, hr, _, _, ht, hst⟩ := CallNextTicket_ok h
  obtain ⟨hr1, _⟩ := firstRow_spec c _ r hr
  obtain ⟨hmem, helig⟩ := (waitingRows_tickets st c prefixes r.ticket).mp ⟨r, hr1, rfl⟩
  refine ⟨r.ticket, hmem, helig.1, ht, ?_, ?_⟩
  · obtain ⟨x0, hx0⟩ : ∃ x0, st.tickets.find? (fun y => decide (y.ID = r.ticket.ID)) = some x0 := by
      rw [← Option.isSome_iff_exists, List.find?_isSome]
      exact ⟨r.ticket, hmem, by simp⟩
    have hid : t.ID = r.ticket.ID := by rw [ht]; rfl
    rw [hst, hid]
    exact find?_map_replace st.tickets r.ticket.ID x0 t hid hx0
  · subst ht
    refine ⟨rfl, rfl, rfl, rfl, rfl, rfl, rfl, rfl, rfl, rfl, ?_, ?_⟩
    · intro hl
      rw [hst]
      simp only [hl, Bool.false_eq_true, if_false]
      exact ⟨_, rfl⟩
    · intro hl
      rw [hst]
      simp [hl]

theorem callNextTicket_effect_witness :
    CallNextTicket Faults.none deskStore noonClock 300 5 [] 7 =
      (.ok (invite (waitingTicket 1 ['A', '0', '0', '1'] 10) 5 300),
        (CallNextTicket Faults.none deskStore noonClock 300 5 [] 7).2) ∧
    (∃ logID, (CallNextTicket Faults.none deskStore noonClock 300 5 [] 7).2.receptionLogs =
      deskStore.receptionLogs ++
        [{ LogID := logID, TicketID := 1, RegistrarID := some 7, WindowNumber := 5,
           CalledAt := 300, CompletedAt := none, Duration := none }]) :=
  ⟨by decide,
    (callNextTicket_effect Faults.none deskStore
      (CallNextTicket Faults.none deskStore noonClock 300 5 [] 7).2 noonClock 300 5 [] 7
      (invite (waitingTicket 1 ['A', '0', '0', '1'] 10) 5 300) (by decide)).elim
      fun _ hx => hx.2.2.2.2.2.2.2.2.2.2.2.2.2.2.1 rfl⟩

/-- When the reception-log insert fails CallNextTicket still succeeds and no
entry is appended. -/
theorem callNextTicket_log_not_appended :
    ∃ t st1, CallNextTicket logCreateFails deskStore noonClock 300 5 [] 7 = (.ok t, st1) ∧
      st1.receptionLogs = deskStore.receptionLogs :=
  ⟨_, _, rfl, by decide⟩

end ElectronicQueue

namespace ElectronicQueue

theorem registrarPrefixes_error {f : Faults} {st : Store} {cat : Str} {reg : Nat} {e : Error}
    (h : registrarPrefixes f st cat reg = .error e) : e = .storeFailure := by
  unfold registrarPrefixes registrarPriorityRepo.GetPriorities at h
  split_ifs at h
  simp only [Except.error.injEq] at h
  exact h.symm

theorem ticketRepoUpdate_error {f : Faults} {st : Store} {t : Ticket} {e : Error}
    (h : ticketRepo.Update f st t = .error e) : e = .storeFailure ∨ e = .uniqueViolation := by
  unfold ticketRepo.Update insertTicket at h
  split_ifs at h <;> simp at h
  all_goals simp [← h]

/-- An empty-queue answer of `CallNextTicket` means that the query found no
row: the store is unchanged and no stored ticket is eligible. -/
theorem CallNextTicket_queueEmpty_inv (f : Faults) (st st1 : Store) (c : DBClock) (now w : Int)
    (cat : Str) (reg : Nat)
    (h : CallNextTicket f st c now w cat reg = (.error .queueEmpty, st1)) :
    st1 = st ∧ ∃ prefixes, registrarPrefixes f st cat reg = .ok prefixes ∧
      ∀ t ∈ st.tickets, ¬ eligible prefixes t := by
  unfold CallNextTicket at h
  split at h
  · rename_i e he
    simp only [Prod.mk.injEq, Except.error.injEq] at h
    have := registrarPrefixes_error he
    rw [h.1] at this
    exact absurd this (by decide)
  · rename_i prefixes hp
    split at h
    · rename_i e he
      unfold ticketRepo.GetNextWaitingTicket at he
      split_ifs at he with hf
      · simp only [Except.error.injEq] at he
        subst he
        simp at h
      · split at he
        · rename_i hnone
          simp only [Except.error.injEq] at he
          subst he
          simp only [if_true, Prod.mk.injEq, true_and] at h
          rw [firstRow_eq_none, waitingRows_eq_nil] at hnone
          exact ⟨h.symm, prefixes, hp, hnone⟩
        · simp at he
    · dsimp only at h
      split at h
      · rename_i e he
        simp only [Prod.mk.injEq, Except.error.injEq] at h
        rcases ticketRepoUpdate_error he with h1 | h1 <;> rw [h.1] at h1 <;>
          exact absurd h1 (by decide)
      · split at h <;> simp at h

/-- C7: CallNextTicket returns the empty-queue error only when no stored
ticket is eligible for the prefix list, and then the store (tickets and
reception log) is unchanged; conversely, when the prefix list is read, the
query runs and no stored ticket is eligible, it returns the empty-queue error. -/
theorem callNextTicket_queue_empty (f : Faults) (st : Store) (c : DBClock) (now w : Int)
    (cat : Str) (reg : Nat) :
    (∀ st1, CallNextTicket f st c now w cat reg = (.error .queueEmpty, st1) →
      st1 = st ∧ ∃ prefixes, registrarPrefixes f st cat reg = .ok prefixes ∧
        ∀ t ∈ st.tickets, ¬ eligible prefixes t) ∧
    (∀ prefixes, registrarPrefixes f st cat reg = .ok prefixes → f.nextWaiting = false →
      (∀ t ∈ st.tickets, ¬ eligible prefixes t) →
      CallNextTicket f st c now w cat reg = (.error .queueEmpty, st)) := by
  refine ⟨?_, ?_⟩
  · intro st1 h
    exact CallNextTicket_queueEmpty_inv f st st1 c now w cat reg h
  · intro prefixes hp hq hnone
    have hrows : waitingRows st c prefixes = [] := (waitingRows_eq_nil st c prefixes).mpr hnone
    have hfirst : firstRow c (waitingRows st c prefixes) = none := by
      rw [hrows]
      rfl
    unfold CallNextTicket
    rw [hp]
    dsimp only
    unfold ticketRepo.GetNextWaitingTicket
    rw [hfirst]
    simp [hq]

theorem callNextTicket_queue_empty_witness :
    registrarPrefixes Faults.none deskStore ['B'] 7 = .ok [['B']] ∧
    (∀ t ∈ deskStore.tickets, ¬ eligible [['B']] t) ∧
    CallNextTicket Faults.none deskStore noonClock 300 5 ['B'] 7 =
      (.error .queueEmpty, deskStore) :=
  ⟨by decide, by decide,
    (callNextTicket_queue_empty Faults.none deskStore noonClock 300 5 ['B'] 7).2 [['B']]
      (by decide) rfl (by decide)⟩

end ElectronicQueue
namespace ElectronicQueue

theorem GetPriorities_mem {f : Faults} {st : Store} {reg : Nat} {ss : List Service}
    (h : registrarPriorityRepo.GetPriorities f st reg = .ok ss) (s : Service) :
    s ∈ ss ↔ s ∈ st.services ∧ ∃ p ∈ st.priorities, p.RegistrarID = reg ∧ p.ServiceID = s.ID := by
  unfold registrarPriorityRepo.GetPriorities at h
  split_ifs at h
  simp only [Except.ok.injEq] at h
  rw [← h, List.mem_insertionSort]
  simp only [List.mem_flatMap, List.mem_map, List.mem_filter, decide_eq_true_eq]
  constructor
  · rintro ⟨x, hx, p, ⟨hp, h1, h2⟩, rfl⟩
    exact ⟨hx, p, hp, h2, h1.symm⟩
  · rintro ⟨hs, p, hp, h1, h2⟩
    exact ⟨s, hs, p, ⟨hp, h2.symm, h1⟩, rfl⟩

/-- The prefix list of the code holds the letters of the filter set of the
specification. -/
theorem registrarPrefixes_mem {f : Faults} {st : Store} {cat : Str} {reg : Nat}
    {prefixes : List Str} (h : registrarPrefixes f st cat reg = .ok prefixes) (l : Str) :
    l ∈ prefixes ↔ l ∈ specFilterSet st cat reg := by
  unfold registrarPrefixes at h
  unfold specFilterSet
  split_ifs at h ⊢ with hc
  · simp only [Except.ok.injEq] at h
    rw [← h]
  · split at h
    · simp at h
    · rename_i ss hss
      simp only [Except.ok.injEq] at h
      rw [← h]
      simp only [List.mem_map, List.mem_filter, List.any_eq_true, decide_eq_true_eq]
      constructor
      · rintro ⟨s, hs, rfl⟩
        exact ⟨s, (GetPriorities_mem hss s).mp hs, rfl⟩
      · rintro ⟨s, hs, rfl⟩
        exact ⟨s, (GetPriorities_mem hss s).mpr hs, rfl⟩

theorem eligible_congr {p1 p2 : List Str} (h : ∀ l, l ∈ p1 ↔ l ∈ p2) (t : Ticket) :
    eligible p1 t ↔ eligible p2 t := by
  have hnil : p1 = [] ↔ p2 = [] := by
    rw [List.eq_nil_iff_forall_not_mem, List.eq_nil_iff_forall_not_mem]
    exact forall_congr' fun l => not_congr (h l)
  unfold eligible
  rw [hnil, h]

end ElectronicQueue
namespace ElectronicQueue

theorem ticketRepoUpdate_withPriorities (f f' : Faults) (st : Store) (t : Ticket)
    (services : List Service) (priorities : List RegistrarCategoryPriority)
    (hf : f'.ticketUpdate = f.ticketUpdate) :
    ticketRepo.Update f' (withPriorities st services priorities) t =
      match ticketRepo.Update f st t with
      | .error e => .error e
      | .ok (t1, st1) => .ok (t1, withPriorities st1 services priorities) := by
  unfold ticketRepo.Update insertTicket withPriorities nextTicketID
  simp only [hf]
  split_ifs <;> rfl

theorem receptionLogRepoCreate_withPriorities (f f' : Faults) (st : Store) (l : ReceptionLog)
    (services : List Service) (priorities : List RegistrarCategoryPriority)
    (hf : f'.logCreate = f.logCreate) :
    receptionLogRepo.Create f' (withPriorities st services priorities) l =
      match receptionLogRepo.Create f st l with
      | .error e => .error e
      | .ok st1 => .ok (withPriorities st1 services priorities) := by
  unfold receptionLogRepo.Create insertLog withPriorities nextLogID
  simp only [hf]
  split_ifs <;> rfl

/-- With a category prefix given, neither the priority tables nor a failure
of their query changes what `CallNextTicket` returns and does to the store. -/
theorem CallNextTicket_prefix_only (f f' : Faults) (st : Store) (c : DBClock) (now w : Int)
    (cat : Str) (reg : Nat) (hcat : cat ≠ []) (services : List Service)
    (priorities : List RegistrarCategoryPriority)
    (h1 : f'.nextWaiting = f.nextWaiting) (h2 : f'.ticketUpdate = f.ticketUpdate)
    (h3 : f'.logCreate = f.logCreate) :
    CallNextTicket f' (withPriorities st services priorities) c now w cat reg =
      ((CallNextTicket f st c now w cat reg).1,
        withPriorities (CallNextTicket f st c now w cat reg).2 services priorities) := by
  have hp : ∀ f st, registrarPrefixes f st cat reg = .ok [cat] := by
    intro f st
    unfold registrarPrefixes
    simp [hcat]
  have hrows : waitingRows (withPriorities st services priorities) c [cat] =
      waitingRows st c [cat] := rfl
  unfold CallNextTicket
  simp only [hp]
  unfold ticketRepo.GetNextWaitingTicket
  simp only [hrows, h1]
  by_cases hq : f.nextWaiting = true
  · simp [hq]
  · simp only [hq, Bool.false_eq_true, if_false]
    cases firstRow c (waitingRows st c [cat]) with
    | none => simp
    | some r =>
      simp only
      rw [ticketRepoUpdate_withPriorities f f' _ _ _ _ h2]
      cases ticketRepo.Update f st
        { r.ticket with
          Status := StatusInvited, WindowNumber := some w, CalledAt := some now } with
      | error e => rfl
      | ok res =>
        obtain ⟨t1, st1⟩ := res
        simp only
        rw [receptionLogRepoCreate_withPriorities f f' _ _ _ _ h3]
        cases receptionLogRepo.Create f st1
          { LogID := 0, TicketID := t1.ID, RegistrarID := some reg, WindowNumber := w,
            CalledAt := now, CompletedAt := none, Duration := none } with
        | error e => rfl
        | ok st2 => rfl

end ElectronicQueue
namespace ElectronicQueue

/-- C8: the prefix list CallNextTicket selects with holds exactly the letters
of the filter set (the category prefix alone when it is not empty, otherwise
the letters of the registrar's priority services); the invited ticket is a
waiting ticket whose first letter is in that set, or any waiting ticket when
the set is empty; with a category prefix the priority tables and their query
are not consulted; and while an eligible ticket is stored and the reads
succeed the call does not answer that the queue is empty. -/
theorem callNextTicket_filter_set (f : Faults) (st : Store) (c : DBClock) (now w : Int)
    (cat : Str) (reg : Nat) :
    (∀ prefixes, registrarPrefixes f st cat reg = .ok prefixes →
      ∀ l, l ∈ prefixes ↔ l ∈ specFilterSet st cat reg) ∧
    (∀ t st1, CallNextTicket f st c now w cat reg = (.ok t, st1) →
      ∃ x ∈ st.tickets, t = invite x w now ∧ eligible (specFilterSet st cat reg) x) ∧
    (cat ≠ [] → specFilterSet st cat reg = [cat] ∧
      ∀ (f' : Faults) (services : List Service) (priorities : List RegistrarCategoryPriority),
        f'.nextWaiting = f.nextWaiting → f'.ticketUpdate = f.ticketUpdate →
        f'.logCreate = f.logCreate →
        CallNextTicket f' (withPriorities st services priorities) c now w cat reg =
          ((CallNextTicket f st c now w cat reg).1,
            withPriorities (CallNextTicket f st c now w cat reg).2 services priorities)) ∧
    (f.getPriorities = false → f.nextWaiting = false →
      ∀ x ∈ st.tickets, eligible (specFilterSet st cat reg) x →
        (CallNextTicket f st c now w cat reg).1 ≠ .error .queueEmpty) ∧
    (specFilterSet st cat reg = [] →
      ∀ x, eligible (specFilterSet st cat reg) x ↔ x.Status = StatusWaiting) := by
  refine ⟨?_, ?_, ?_, ?_, ?_⟩
  · intro prefixes hp l
    exact registrarPrefixes_mem hp l
  · intro t st1 h
    obtain ⟨prefixes, r, hp, _, hr, _, _, ht, _⟩ := CallNextTicket_ok h
    obtain ⟨hr1, _⟩ := firstRow_spec c _ r hr
    obtain ⟨hmem, helig⟩ := (waitingRows_tickets st c prefixes r.ticket).mp ⟨r, hr1, rfl⟩
    exact ⟨r.ticket, hmem, ht,
      (eligible_congr (fun l => registrarPrefixes_mem hp l) r.ticket).mp helig⟩
  · intro hcat
    refine ⟨by unfold specFilterSet; simp [hcat], ?_⟩
    intro f' services priorities h1 h2 h3
    exact CallNextTicket_prefix_only f f' st c now w cat reg hcat services priorities h1 h2 h3
  · intro hf hq x hx helig hres
    obtain ⟨prefixes, hp⟩ : ∃ prefixes, registrarPrefixes f st cat reg = .ok prefixes := by
      unfold registrarPrefixes registrarPriorityRepo.GetPriorities
      split_ifs
      · exact ⟨_, rfl⟩
      · exact absurd hf (by simp_all)
      · exact ⟨_, rfl⟩
    have hres2 : CallNextTicket f st c now w cat reg =
        (.error .queueEmpty, (CallNextTicket f st c now w cat reg).2) := by
      rw [← hres]
    obtain ⟨_, prefixes2, hp2, hnone⟩ := CallNextTicket_queueEmpty_inv f st _ c now w cat reg hres2
    exact hnone x hx ((eligible_congr (fun l => registrarPrefixes_mem hp2 l) x).mpr helig)
  · intro hnil x
    unfold eligible
    simp [hnil]

theorem callNextTicket_filter_set_witness :
    CallNextTicket Faults.none deskStore noonClock 300 5 ['A'] 7 =
      (.ok (invite (waitingTicket 1 ['A', '0', '0', '1'] 10) 5 300),
        (CallNextTicket Faults.none deskStore noonClock 300 5 ['A'] 7).2) ∧
    ∃ x ∈ deskStore.tickets, invite (waitingTicket 1 ['A', '0', '0', '1'] 10) 5 300 =
      invite x 5 300 ∧ eligible (specFilterSet deskStore ['A'] 7) x :=
  ⟨by decide,
    (callNextTicket_filter_set Faults.none deskStore noonClock 300 5 ['A'] 7).2.1
      (invite (waitingTicket 1 ['A', '0', '0', '1'] 10) 5 300)
      (CallNextTicket Faults.none deskStore noonClock 300 5 ['A'] 7).2 (by decide)⟩

end ElectronicQueue
namespace ElectronicQueue

/-- What a successful `CompleteAppointment` did. -/
theorem CompleteAppointment_ok {f : Faults} {st st1 : Store} {now : Int} {id : Nat} {t : Ticket}
    (h : CompleteAppointment f st now id = (.ok t, st1)) :
    ∃ x, storedTicket st id = some x ∧ x.Status = StatusInProgress ∧
      t = completeTicket x now ∧ st1 = replaceTicket st (completeTicket x now) ∧
      storedTicket st1 id = some t := by
  unfold CompleteAppointment at h
  split at h
  · simp at h
  · rename_i x hx
    obtain ⟨_, hfind⟩ := ticketRepoGetByID_ok hx
    split_ifs at h with hs
    · simp at h
    · dsimp only at h
      split at h
      · simp at h
      · rename_i t1 st2 hu
        simp only [Prod.mk.injEq, Except.ok.injEq] at h
        obtain ⟨h1, h2⟩ := ticketRepoUpdate_found (completeTicket x now) hfind rfl rfl hu
        simp only [Prod.mk.injEq] at h1
        refine ⟨x, hfind, by simpa using hs, ?_, ?_, ?_⟩
        · rw [← h.1, h1.1]
        · rw [← h.2, h1.2]
        · rw [← h.2, h1.2, ← h.1, h1.1]
          exact h2

/-- C9 (amended): a successful CompleteAppointment found the ticket
in-progress and stores it completed with completed_at set to the completion
time, every other field unchanged; the reception log is left as it was (no
entry is closed and no duration is stored). -/
theorem completeAppointment_effect (f : Faults) (st st1 : Store) (now : Int) (id : Nat)
    (t : Ticket) (h : CompleteAppointment f st now id = (.ok t, st1)) :
    ∃ x, storedTicket st id = some x ∧ x.Status = StatusInProgress ∧
      t = completeTicket x now ∧ storedTicket st1 id = some t ∧
      t.Status = StatusCompleted ∧ t.CompletedAt = some now ∧
      st1.receptionLogs = st.receptionLogs := by
  obtain ⟨x, h1, h2, h3, h4, h5⟩ := CompleteAppointment_ok h
  refine ⟨x, h1, h2, h3, h5, ?_, ?_, ?_⟩
  · rw [h3]; rfl
  · rw [h3]; rfl
  · rw [h4]; rfl

theorem completeAppointment_effect_witness :
    CompleteAppointment Faults.none deskStore 500 3 =
      (.ok (completeTicket
          { waitingTicket 3 ['A', '0', '0', '3'] 30 with
            Status := StatusInProgress, WindowNumber := some 1, CalledAt := some 100,
            StartedAt := some 150 } 500),
        (CompleteAppointment Faults.none deskStore 500 3).2) ∧
    (CompleteAppointment Faults.none deskStore 500 3).2.receptionLogs =
      deskStore.receptionLogs :=
  ⟨by decide,
    (completeAppointment_effect Faults.none deskStore
      (CompleteAppointment Faults.none deskStore 500 3).2 500 3
      (completeTicket
        { waitingTicket 3 ['A', '0', '0', '3'] 30 with
          Status := StatusInProgress, WindowNumber := some 1, CalledAt := some 100,
          StartedAt := some 150 } 500) (by decide)).elim
      fun _ hx => hx.2.2.2.2.2.2⟩

/-- After a successful CompleteAppointment the reception-log entry of the
ticket is still open and carries no duration. -/
theorem completeAppointment_leaves_log_open :
    ∃ t st1, CompleteAppointment Faults.none deskStore 500 3 = (.ok t, st1) ∧
      t.Status = StatusCompleted ∧
      receptionLogRepo.FindActiveLogByTicketID Faults.none st1 3 =
        .ok { LogID := 2, TicketID := 3, RegistrarID := some 7, WindowNumber := 1,
              CalledAt := 100, CompletedAt := none, Duration := none } :=
  ⟨_, _, rfl, by decide, by decide⟩

end ElectronicQueue
namespace ElectronicQueue

/-! ## Lemmas on the reception log -/

theorem firstLog_mem (ls : List ReceptionLog) (l : ReceptionLog) (h : firstLog ls = some l) :
    l ∈ ls := by
  cases ls with
  | nil => simp [firstLog] at h
  | cons l0 ls =>
    simp only [firstLog, Option.some.injEq] at h
    have key : ∀ (xs : List ReceptionLog) (b : ReceptionLog),
        xs.foldl (fun best x => if x.LogID < best.LogID then x else best) b = b ∨
          xs.foldl (fun best x => if x.LogID < best.LogID then x else best) b ∈ xs := by
      intro xs
      induction xs with
      | nil => intro b; exact Or.inl rfl
      | cons x xs ih =>
        intro b
        simp only [List.foldl_cons, List.mem_cons]
        rcases ih (if x.LogID < b.LogID then x else b) with h1 | h1
        · rw [h1]
          split_ifs
          · exact Or.inr (Or.inl rfl)
          · exact Or.inl rfl
        · exact Or.inr (Or.inr h1)
    rcases key ls l0 with h1 | h1
    · rw [h] at h1
      simp [h1]
    · rw [h] at h1
      exact List.mem_cons_of_mem _ h1

theorem firstLog_eq_none (ls : List ReceptionLog) : firstLog ls = none ↔ ls = [] := by
  cases ls <;> simp [firstLog]

/-- The row `FindActiveLogByTicketID` returns is an open row of the ticket. -/
theorem FindActiveLogByTicketID_ok {f : Faults} {st : Store} {id : Nat} {l : ReceptionLog}
    (h : receptionLogRepo.FindActiveLogByTicketID f st id = .ok l) :
    l ∈ st.receptionLogs ∧ l.TicketID = id ∧ l.CompletedAt = none := by
  unfold receptionLogRepo.FindActiveLogByTicketID at h
  split_ifs at h
  split at h
  · simp at h
  · rename_i l' hl
    simp only [Except.ok.injEq] at h
    subst h
    have := firstLog_mem _ _ hl
    simpa using this

/-- Without an open row of the ticket the lookup reports record-not-found. -/
theorem FindActiveLogByTicketID_none {f : Faults} {st : Store} {id : Nat}
    (hf : f.logFind = false)
    (h : ∀ l ∈ st.receptionLogs, ¬ (l.TicketID = id ∧ l.CompletedAt = none)) :
    receptionLogRepo.FindActiveLogByTicketID f st id = .error .recordNotFound := by
  have hnil : st.receptionLogs.filter
      (fun l => decide (l.TicketID = id ∧ l.CompletedAt = none)) = [] := by
    rw [List.filter_eq_nil_iff]
    intro l hl
    simpa using h l hl
  unfold receptionLogRepo.FindActiveLogByTicketID
  rw [hnil]
  simp [hf, firstLog]

/-- Saving a stored log row under its non-zero primary key overwrites it. -/
theorem receptionLogRepoUpdate_stored {f : Faults} {st : Store} {l l1 : ReceptionLog}
    (hl : l ∈ st.receptionLogs) (hid : l1.LogID = l.LogID) (h0 : l.LogID ≠ 0)
    (hf : f.logUpdate = false) :
    receptionLogRepo.Update f st l1 = .ok (replaceLog st l1) := by
  have hany : st.receptionLogs.any (fun x => decide (x.LogID = l1.LogID)) = true := by
    simp only [List.any_eq_true, decide_eq_true_eq]
    exact ⟨l, hl, hid.symm⟩
  have h1 : l1.LogID ≠ 0 := by rw [hid]; exact h0
  unfold receptionLogRepo.Update replaceLog
  simp [hf, h1, hany]

/-- Saving a ticket under the non-zero primary key of a stored ticket, when it
succeeds, overwrites that ticket. -/
theorem ticketRepoUpdate_existing {f : Faults} {st : Store} {t cur : Ticket}
    {r : Ticket × Store} (hcur : storedTicket st t.ID = some cur) (h0 : t.ID ≠ 0)
    (h : ticketRepo.Update f st t = .ok r) :
    r = (t, replaceTicket st t) ∧ storedTicket (replaceTicket st t) t.ID = some t := by
  obtain ⟨hmem, hid⟩ := find?_ticket_mem hcur
  have hany : st.tickets.any (fun y => decide (y.ID = t.ID)) = true := by
    simp only [List.any_eq_true, decide_eq_true_eq]
    exact ⟨cur, hmem, hid⟩
  unfold ticketRepo.Update at h
  simp only [h0, if_false, hany, if_true] at h
  split_ifs at h
  simp only [Except.ok.injEq] at h
  refine ⟨by rw [← h]; rfl, ?_⟩
  unfold storedTicket replaceTicket
  exact find?_map_replace st.tickets t.ID cur t rfl hcur

end ElectronicQueue
namespace ElectronicQueue

theorem stampCompleted_ID (ticket : Ticket) (now : Int) :
    (stampCompleted ticket now).ID = ticket.ID := by
  unfold stampCompleted
  split_ifs <;> rfl

theorem stampCompleted_Status (ticket : Ticket) (now : Int) :
    (stampCompleted ticket now).Status = ticket.Status := by
  unfold stampCompleted
  split_ifs <;> rfl

theorem ticketRepoUpdate_logs {f : Faults} {st st1 : Store} {t t1 : Ticket}
    (h : ticketRepo.Update f st t = .ok (t1, st1)) : st1.receptionLogs = st.receptionLogs := by
  unfold ticketRepo.Update insertTicket at h
  split_ifs at h <;> simp only [Except.ok.injEq, Prod.mk.injEq, reduceCtorEq] at h <;>
    (rw [← h.2])

theorem receptionLogRepoUpdate_tickets {f : Faults} {st st1 : Store} {l : ReceptionLog}
    (h : receptionLogRepo.Update f st l = .ok st1) : st1.tickets = st.tickets := by
  unfold receptionLogRepo.Update insertLog at h
  split_ifs at h <;> simp only [Except.ok.injEq, reduceCtorEq] at h <;> (rw [← h])

/-- The run of `UpdateTicket` on a final status outside the guarded case, once
the read and the save of the ticket have succeeded. -/
theorem UpdateTicket_final_run {f : Faults} {st : Store} {now : Int} {ticket cur : Ticket}
    {r : Ticket × Store}
    (hfinal : ticket.Status = StatusCompleted ∨ ticket.Status = StatusRegistered)
    (hf : f.ticketGet = false) (hcur : storedTicket st ticket.ID = some cur)
    (h0 : ticket.ID ≠ 0)
    (hguard : ¬ (cur.Status = StatusRegistered ∧ ticket.Status = StatusCompleted))
    (hr : ticketRepo.Update f st (stampCompleted ticket now) = .ok r) :
    storedTicket (replaceTicket st (stampCompleted ticket now)) ticket.ID =
      some (stampCompleted ticket now) ∧
    UpdateTicket f st now ticket =
      match receptionLogRepo.FindActiveLogByTicketID f st ticket.ID with
      | .error _ => (none, replaceTicket st (stampCompleted ticket now))
      | .ok e =>
        match receptionLogRepo.Update f (replaceTicket st (stampCompleted ticket now))
            (closeLog e now) with
        | .error _ => (none, replaceTicket st (stampCompleted ticket now))
        | .ok st2 => (none, st2) := by
  have hid := stampCompleted_ID ticket now
  obtain ⟨h1, h2⟩ := ticketRepoUpdate_existing (t := stampCompleted ticket now)
    (by rw [hid]; exact hcur) (by rw [hid]; exact h0) hr
  rw [hid] at h2
  refine ⟨h2, ?_⟩
  have hfind : ∀ id, receptionLogRepo.FindActiveLogByTicketID f (replaceTicket st (stampCompleted ticket now)) id =
      receptionLogRepo.FindActiveLogByTicketID f st id := fun _ => rfl
  unfold UpdateTicket
  simp only [hfinal, if_true]
  unfold finalizeReceptionAndUpdateTicket
  rw [ticketRepoGetByID_found hf hcur]
  simp only [hguard, if_false]
  unfold stampCompleted at hr h1 hfind hid ⊢
  rw [hr, h1]
  simp only [hfind, hid]
  rfl

end ElectronicQueue
namespace ElectronicQueue

/-- C10: with target status completed or registered, outside the guarded case
and once the read and the save of the ticket succeed, UpdateTicket returns no
error and the stored ticket carries the target status, with completed_at set
to the current instant exactly when the target is completed; the open
reception-log entry of the ticket, when found and saved, gets that instant as
completed_at and the instant minus its called_at as duration (within the range
of a Duration); without an open entry, or when the log save fails, the log is
unchanged and no error is returned.  For every other target status UpdateTicket
is the save of the ticket alone and the reception log is unchanged. -/
theorem updateTicket_finalizes :
    (∀ (f : Faults) (st : Store) (now : Int) (ticket cur : Ticket) (r : Ticket × Store),
      (ticket.Status = StatusCompleted ∨ ticket.Status = StatusRegistered) →
      f.ticketGet = false → storedTicket st ticket.ID = some cur → ticket.ID ≠ 0 →
      ¬ (cur.Status = StatusRegistered ∧ ticket.Status = StatusCompleted) →
      ticketRepo.Update f st (stampCompleted ticket now) = .ok r →
      (UpdateTicket f st now ticket).1 = none ∧
      storedTicket (UpdateTicket f st now ticket).2 ticket.ID =
        some (stampCompleted ticket now) ∧
      (stampCompleted ticket now).Status = ticket.Status ∧
      (ticket.Status = StatusCompleted →
        (stampCompleted ticket now).CompletedAt = some now) ∧
      (ticket.Status ≠ StatusCompleted →
        (stampCompleted ticket now).CompletedAt = ticket.CompletedAt) ∧
      (∀ e, receptionLogRepo.FindActiveLogByTicketID f st ticket.ID = .ok e → e.LogID ≠ 0 →
        f.logUpdate = false →
        (UpdateTicket f st now ticket).2.receptionLogs =
          st.receptionLogs.map (fun x => if x.LogID = e.LogID then closeLog e now else x) ∧
        e.TicketID = ticket.ID ∧ e.CompletedAt = none ∧
        (closeLog e now).CompletedAt = some now ∧
        (minDuration ≤ now - e.CalledAt → now - e.CalledAt ≤ maxDuration →
          (closeLog e now).Duration = some (now - e.CalledAt))) ∧
      ((∀ l ∈ st.receptionLogs, ¬ (l.TicketID = ticket.ID ∧ l.CompletedAt = none)) →
        (UpdateTicket f st now ticket).2.receptionLogs = st.receptionLogs) ∧
      (f.logUpdate = true →
        (UpdateTicket f st now ticket).2.receptionLogs = st.receptionLogs)) ∧
    (∀ (f : Faults) (st : Store) (now : Int) (ticket : Ticket),
      ticket.Status ≠ StatusCompleted → ticket.Status ≠ StatusRegistered →
      UpdateTicket f st now ticket =
        (match ticketRepo.Update f st ticket with
          | .error e => (some e, st)
          | .ok (_, st1) => (none, st1)) ∧
      (UpdateTicket f st now ticket).2.receptionLogs = st.receptionLogs) := by
  refine ⟨?_, ?_⟩
  · intro f st now ticket cur r hfinal hf hcur h0 hguard hr
    obtain ⟨hstored, hrun⟩ := UpdateTicket_final_run hfinal hf hcur h0 hguard hr
    have hkeep : ∀ st2 l, receptionLogRepo.Update f
        (replaceTicket st (stampCompleted ticket now)) l = .ok st2 →
        storedTicket st2 ticket.ID = some (stampCompleted ticket now) := by
      intro st2 l h
      unfold storedTicket
      rw [receptionLogRepoUpdate_tickets h]
      exact hstored
    refine ⟨?_, ?_, stampCompleted_Status ticket now, ?_, ?_, ?_, ?_, ?_⟩
    · rw [hrun]
      split
      · rfl
      · split <;> rfl
    · rw [hrun]
      split
      · exact hstored
      · split
        · exact hstored
        · rename_i st2 h
          exact hkeep st2 _ h
    · intro hc
      unfold stampCompleted
      simp [hc]
    · intro hc
      unfold stampCompleted
      simp [hc]
    · intro e he hid hlu
      obtain ⟨hmem, hticket, hopen⟩ := FindActiveLogByTicketID_ok he
      have hsave : receptionLogRepo.Update f (replaceTicket st (stampCompleted ticket now))
          (closeLog e now) =
          .ok (replaceLog (replaceTicket st (stampCompleted ticket now)) (closeLog e now)) :=
        receptionLogRepoUpdate_stored (l := e) hmem rfl hid hlu
      refine ⟨?_, hticket, hopen, rfl, ?_⟩
      · rw [hrun, he]
        simp only [hsave]
        rfl
      · intro hlo hhi
        unfold closeLog timeSub
        have h1 : ¬ now - e.CalledAt < minDuration := by omega
        have h2 : ¬ maxDuration < now - e.CalledAt := by omega
        simp [h1, h2]
    · intro hnone
      rw [hrun]
      split
      · rfl
      · rename_i e he
        obtain ⟨hmem, hticket, hopen⟩ := FindActiveLogByTicketID_ok he
        exact absurd ⟨hticket, hopen⟩ (hnone e hmem)
    · intro hlu
      rw [hrun]
      split
      · rfl
      · have : ∀ l, receptionLogRepo.Update f (replaceTicket st (stampCompleted ticket now)) l =
            .error .storeFailure := by
          intro l
          unfold receptionLogRepo.Update
          simp [hlu]
        simp only [this]
        rfl
  · intro f st now ticket h1 h2
    have hrun : UpdateTicket f st now ticket =
        (match ticketRepo.Update f st ticket with
          | .error e => (some e, st)
          | .ok (_, st1) => (none, st1)) := by
      unfold UpdateTicket
      simp only [h1, h2, or_self, if_false]
    refine ⟨hrun, ?_⟩
    rw [hrun]
    split
    · rfl
    · rename_i t1 st1 h
      exact ticketRepoUpdate_logs h

end ElectronicQueue

namespace ElectronicQueue

theorem updateTicket_finalizes_witness :
    storedTicket deskStore 4 =
      some { waitingTicket 4 ['A', '0', '0', '4'] 40 with
        Status := StatusInvited, WindowNumber := some 2, CalledAt := some 200 } ∧
    (UpdateTicket Faults.none deskStore 500
      { waitingTicket 4 ['A', '0', '0', '4'] 40 with
        Status := StatusCompleted, WindowNumber := some 2, CalledAt := some 200 }).1 = none ∧
    storedTicket (UpdateTicket Faults.none deskStore 500
      { waitingTicket 4 ['A', '0', '0', '4'] 40 with
        Status := StatusCompleted, WindowNumber := some 2, CalledAt := some 200 }).2 4 =
      some { waitingTicket 4 ['A', '0', '0', '4'] 40 with
        Status := StatusCompleted, WindowNumber := some 2, CalledAt := some 200,
        CompletedAt := some 500 } ∧
    (UpdateTicket Faults.none deskStore 500
      { waitingTicket 4 ['A', '0', '0', '4'] 40 with
        Status := StatusCompleted, WindowNumber := some 2, CalledAt := some 200 }).2.receptionLogs =
      [{ LogID := 1, TicketID := 2, RegistrarID := some 7, WindowNumber := 1, CalledAt := 90,
         CompletedAt := some 95, Duration := some 5 },
       { LogID := 2, TicketID := 3, RegistrarID := some 7, WindowNumber := 1, CalledAt := 100,
         CompletedAt := none, Duration := none },
       { LogID := 3, TicketID := 4, RegistrarID := some 8, WindowNumber := 2, CalledAt := 200,
         CompletedAt := some 500, Duration := some 300 }] :=
  have h := updateTicket_finalizes.1 Faults.none deskStore 500
    { waitingTicket 4 ['A', '0', '0', '4'] 40 with
      Status := StatusCompleted, WindowNumber := some 2, CalledAt := some 200 }
    { waitingTicket 4 ['A', '0', '0', '4'] 40 with
      Status := StatusInvited, WindowNumber := some 2, CalledAt := some 200 }
    ({ waitingTicket 4 ['A', '0', '0', '4'] 40 with
        Status := StatusCompleted, WindowNumber := some 2, CalledAt := some 200,
        CompletedAt := some 500 },
      replaceTicket deskStore
        { waitingTicket 4 ['A', '0', '0', '4'] 40 with
          Status := StatusCompleted, WindowNumber := some 2, CalledAt := some 200,
          CompletedAt := some 500 })
    (Or.inl rfl) rfl (by decide) (by decide) (by decide) (by decide)
  ⟨by decide, h.1, h.2.1,
    (h.2.2.2.2.2.1
      { LogID := 3, TicketID := 4, RegistrarID := some 8, WindowNumber := 2, CalledAt := 200,
        CompletedAt := none, Duration := none } (by decide) (by decide) rfl).1⟩

end ElectronicQueue

namespace ElectronicQueue

/-! ## Phone normalisation keeps exactly the digits -/

theorem isDigitChar_iff (c : Char) : isDigitChar c = true ↔ c ∈ "0123456789".toList := by
  constructor
  · intro h
    simp only [isDigitChar, Bool.and_eq_true, decide_eq_true_eq] at h
    obtain ⟨h1, h2⟩ := h
    have hc : c = Char.ofNat c.toNat := (Char.ofNat_toNat c).symm
    rw [hc]
    generalize c.toNat = n at h1 h2
    interval_cases n <;> decide
  · intro h
    simp only [String.toList, List.mem_cons, List.mem_singleton] at h
    simp at h
    rcases h with h | h | h | h | h | h | h | h | h | h <;> subst h <;> decide

theorem replaceNonDigitRuns_nil (inRun : Bool) (s : Str) :
    replaceNonDigitRuns [] inRun s = s.filter isDigitChar := by
  induction s generalizing inRun with
  | nil => rfl
  | cons c cs ih =>
    by_cases hc : isDigitChar c = true
    · simp [replaceNonDigitRuns, hc, ih]
    · cases inRun <;> simp [replaceNonDigitRuns, hc, ih]

/-- C20: `sanitizePhone` returns the characters `0`..`9` of its input, in their
order and with their multiplicity, and nothing else; it is idempotent; and two
inputs with the same digits, which differ only in other characters, are
normalised to the same string. -/
theorem sanitizePhone_digits (phone : Str) :
    sanitizePhone phone = phone.filter (fun c => decide (c ∈ "0123456789".toList)) ∧
    (sanitizePhone phone).Sublist phone ∧
    sanitizePhone (sanitizePhone phone) = sanitizePhone phone ∧
    (∀ a b : Str, ∀ c : Char, c ∉ "0123456789".toList →
      sanitizePhone (a ++ c :: b) = sanitizePhone (a ++ b)) ∧
    (∀ other : Str,
      other.filter (fun c => decide (c ∈ "0123456789".toList)) =
        phone.filter (fun c => decide (c ∈ "0123456789".toList)) →
      sanitizePhone other = sanitizePhone phone) := by
  have hf : (fun c => decide (c ∈ "0123456789".toList)) = isDigitChar := by
    funext c
    by_cases h : isDigitChar c = true
    · simp only [h, decide_eq_true_eq]; exact (isDigitChar_iff c).1 h
    · have h2 : c ∉ "0123456789".toList := fun hm => h ((isDigitChar_iff c).2 hm)
      simp only [Bool.not_eq_true] at h
      simp only [h, decide_eq_false_iff_not]; exact h2
  rw [hf]
  unfold sanitizePhone
  refine ⟨?_, ?_, ?_, ?_, ?_⟩
  · exact replaceNonDigitRuns_nil _ _
  · rw [replaceNonDigitRuns_nil]; exact List.filter_sublist _
  · simp only [replaceNonDigitRuns_nil, List.filter_filter, Bool.and_self]
  · intro a b c hc
    have h : isDigitChar c = false := by
      rcases hd : isDigitChar c with _ | _
      · rfl
      · exact absurd ((isDigitChar_iff c).1 hd) hc
    simp [replaceNonDigitRuns_nil, List.filter_append, List.filter_cons, h]
  · intro other h
    simp only [replaceNonDigitRuns_nil]; exact h

theorem sanitizePhone_digits_witness :
    sanitizePhone "+7 (913) 000-11-22".toList = "79130001122".toList ∧
    sanitizePhone "7-913-0001122 доб.".toList = sanitizePhone "+7 (913) 000-11-22".toList :=
  ⟨((sanitizePhone_digits "+7 (913) 000-11-22".toList).1).trans (by decide),
   (sanitizePhone_digits "+7 (913) 000-11-22".toList).2.2.2.2 "7-913-0001122 доб.".toList
     (by decide)⟩

end ElectronicQueue

namespace ElectronicQueue

/-! ## The cache of business process states -/

theorem businessProcessRepoFindByName_name {f : Faults} {s : ProcessState} {name : String}
    {p : BusinessProcess} (h : businessProcessRepo.FindByName f s name = .ok p) :
    p.ProcessName = name ∧ p ∈ s.processes := by
  unfold businessProcessRepo.FindByName at h
  split_ifs at h
  split at h
  · rename_i q hq
    cases h
    have := List.find?_some hq
    exact ⟨by simpa using this, List.mem_of_find?_eq_some hq⟩
  · cases h

theorem find?_process_replace (l : List BusinessProcess) (p : BusinessProcess)
    (h : ∃ x ∈ l, x.ProcessName = p.ProcessName) :
    (l.map (fun x => if x.ProcessName = p.ProcessName then p else x)).find?
      (fun x => x.ProcessName = p.ProcessName) = some p := by
  induction l with
  | nil => obtain ⟨x, hx, _⟩ := h; cases hx
  | cons a l ih =>
    by_cases ha : a.ProcessName = p.ProcessName
    · simp [ha]
    · have hl : ∃ x ∈ l, x.ProcessName = p.ProcessName := by
        obtain ⟨x, hx, hxp⟩ := h
        rcases List.mem_cons.1 hx with rfl | hx
        · exact absurd hxp ha
        · exact ⟨x, hx, hxp⟩
      rw [List.map_cons, if_neg ha, List.find?_cons_of_neg _ (by simpa using ha)]
      exact ih hl

/-- C15: `IsEnabled` answers true exactly for the names the map holds with the
value true; a name the map does not hold is answered with false. -/
theorem isEnabled_iff (s : ProcessState) (name : String) :
    (IsEnabled s name = true ↔ s.states name = some true) ∧
    (s.states name = none → IsEnabled s name = false) := by
  unfold IsEnabled
  rcases h : s.states name with _ | b
  · simp
  · cases b <;> simp

/-- A cache holding one enabled and one disabled process. -/
theorem isEnabled_iff_witness :
    IsEnabled processCache "appointment" = true ∧ IsEnabled processCache "doctor" = false :=
  ⟨(isEnabled_iff processCache "appointment").1.2 (by decide),
   (isEnabled_iff processCache "doctor").2 (by decide)⟩

/-- C16: when `UpdateStatus` succeeds, the stored process of this name has the
new value and `IsEnabled` answers it; when it fails, neither the map nor the
table is changed; in both cases the map entry of every other name is kept. -/
theorem updateStatus_write_through (f : Faults) (s : ProcessState) (name : String) (v : Bool) :
    (∀ p, (UpdateStatus f s name v).1 = .ok p →
      p = { ProcessName := name, IsEnabled := v } ∧
      businessProcessRepo.FindByName Faults.none (UpdateStatus f s name v).2 name = .ok p ∧
      IsEnabled (UpdateStatus f s name v).2 name = v) ∧
    (∀ e, (UpdateStatus f s name v).1 = .error e →
      (UpdateStatus f s name v).2.states = s.states ∧
      (UpdateStatus f s name v).2.processes = s.processes ∧
      (e = .processNotFound name ∨ ∃ cause, e = .processUpdateFailed name cause)) ∧
    (∀ other, other ≠ name →
      (UpdateStatus f s name v).2.states other = s.states other) := by
  rcases hfind : businessProcessRepo.FindByName f s name with e | found
  · have hU : UpdateStatus f s name v = (.error (.processNotFound name), s) := by
      simp only [UpdateStatus, hfind]
    rw [hU]
    refine ⟨fun p hp => (by cases hp), fun e he => ?_, fun _ _ => rfl⟩
    simp only [Except.error.injEq] at he
    exact ⟨rfl, rfl, Or.inl he.symm⟩
  · obtain ⟨hname, hmem⟩ := businessProcessRepoFindByName_name hfind
    rcases hupd : businessProcessRepo.Update f s { found with IsEnabled := v } with e | s1
    · have hU : UpdateStatus f s name v = (.error (.processUpdateFailed name e), s) := by
        simp only [UpdateStatus, hfind, hupd]
      rw [hU]
      refine ⟨fun p hp => (by cases hp), fun e he => ?_, fun _ _ => rfl⟩
      simp only [Except.error.injEq] at he
      exact ⟨rfl, rfl, Or.inr ⟨_, he.symm⟩⟩
    · have hU : UpdateStatus f s name v = (.ok { found with IsEnabled := v },
          { s1 with states := Function.update s1.states name (some v) }) := by
        simp only [UpdateStatus, hfind, hupd]
      rw [hU]
      refine ⟨fun p hp => ?_, fun e he => (by cases he), fun other ho => ?_⟩
      · simp only [Except.ok.injEq] at hp
        subst hp
        have hany : s.processes.any (fun x => x.ProcessName = found.ProcessName) = true := by
          simp only [List.any_eq_true, decide_eq_true_eq]; exact ⟨found, hmem, rfl⟩
        unfold businessProcessRepo.Update at hupd
        simp only [hany, if_true] at hupd
        split_ifs at hupd with h1 h2
        simp only [Except.ok.injEq] at hupd
        subst hupd
        refine ⟨?_, ?_, ?_⟩
        · cases found; simp only at hname; subst hname; rfl
        · simp only [businessProcessRepo.FindByName, Faults.none, Bool.false_eq_true, if_false]
          rw [← hname]
          have := find?_process_replace s.processes { found with IsEnabled := v }
            ⟨found, hmem, rfl⟩
          simp only at this
          rw [this]
        · simp [IsEnabled, Function.update]
      · have hs : s1.states = s.states := by
          unfold businessProcessRepo.Update at hupd
          split_ifs at hupd <;> simp only [Except.ok.injEq] at hupd <;> subst hupd <;> rfl
        simp [Function.update, ho, hs]

/-- A stored process is switched off; the name `unknown` is not stored. -/
theorem updateStatus_write_through_witness :
    IsEnabled (UpdateStatus Faults.none processCache "appointment" false).2 "appointment" = false ∧
    (UpdateStatus Faults.none processCache "unknown" false).2.states = processCache.states :=
  ⟨((updateStatus_write_through Faults.none processCache "appointment" false).1
      { ProcessName := "appointment", IsEnabled := false } (by decide)).2.2,
   ((updateStatus_write_through Faults.none processCache "unknown" false).2.1
      (.processNotFound "unknown") (by decide)).1⟩

end ElectronicQueue

namespace ElectronicQueue

/-! ## One publication -/

theorem sendOrDrop_spec (chans : List Chan) (ch : Nat) (msg : String) (c : Chan)
    (hc : chans[ch]? = some c) (ho : c.closed = false) :
    ∃ chans1, sendOrDrop chans ch msg = some chans1 ∧
      ∀ i, chans1[i]? = if i = ch then some (deliver c msg) else chans[i]? := by
  have hlt : ch < chans.length := (List.getElem?_eq_some_iff.1 hc).1
  unfold sendOrDrop
  rw [hc]
  simp only [ho, Bool.false_eq_true, if_false]
  by_cases hroom : c.buf.length < subscriberBuffer
  · refine ⟨_, if_pos hroom, fun i => ?_⟩
    by_cases hi : i = ch
    · subst hi
      simp [deliver, hroom, List.getElem?_set_self, hlt, ho]
    · rw [if_neg hi, List.getElem?_set_ne (Ne.symm hi)]
  · refine ⟨_, if_neg hroom, fun i => ?_⟩
    by_cases hi : i = ch
    · subst hi
      simp [deliver, hroom, hc]
    · rw [if_neg hi]

theorem publishLoop_spec (msg : String) (subs : List Nat) :
    ∀ chans : List Chan, subs.Nodup →
      (∀ ch ∈ subs, ∃ c, chans[ch]? = some c ∧ c.closed = false) →
      ∃ chans1, publishLoop msg subs chans = some chans1 ∧
        ∀ i, chans1[i]? = (chans[i]?).map (fun c => if i ∈ subs then deliver c msg else c) := by
  induction subs with
  | nil =>
    intro chans _ _
    exact ⟨chans, rfl, fun i => by simp⟩
  | cons ch rest ih =>
    intro chans hnd hopen
    obtain ⟨c, hc, ho⟩ := hopen ch (List.mem_cons_self _ _)
    obtain ⟨chans1, h1, hget1⟩ := sendOrDrop_spec chans ch msg c hc ho
    have hch : ch ∉ rest := (List.nodup_cons.1 hnd).1
    have hopen1 : ∀ x ∈ rest, ∃ c, chans1[x]? = some c ∧ c.closed = false := by
      intro x hx
      have hne : x ≠ ch := fun h => hch (h ▸ hx)
      rw [hget1, if_neg hne]
      exact hopen x (List.mem_cons_of_mem _ hx)
    obtain ⟨chans2, h2, hget2⟩ := ih chans1 (List.nodup_cons.1 hnd).2 hopen1
    refine ⟨chans2, ?_, fun i => ?_⟩
    · simp only [publishLoop, h1, h2]
    · rw [hget2, hget1]
      by_cases hi : i = ch
      · subst hi
        simp [hch, hc]
      · simp [hi]

theorem deliver_closed (c : Chan) (msg : String) : (deliver c msg).closed = c.closed := by
  unfold deliver; split <;> rfl

theorem getElem?_length_eq {α β : Type} (f : Nat → α → β) (l1 : List β) (l2 : List α)
    (h : ∀ i : Nat, l1[i]? = (l2[i]?).map (f i)) : l1.length = l2.length := by
  apply Nat.le_antisymm
  · have h1 := h l2.length
    rw [List.getElem?_eq_none (Nat.le_refl _), Option.map_none'] at h1
    exact List.getElem?_eq_none_iff.1 h1
  · have h1 := h l1.length
    rw [List.getElem?_eq_none (Nat.le_refl _)] at h1
    have h2 : l2[l1.length]? = none := by
      rcases hx : l2[l1.length]? with _ | x
      · rfl
      · rw [hx] at h1; cases h1
    exact List.getElem?_eq_none_iff.1 h2

theorem Publish_spec (b : Broker) (msg : String) (hwf : b.WellFormed) :
    ∃ b1, b.Publish msg = some b1 ∧ b1.subscribers = b.subscribers ∧
      ∀ i, b1.chans[i]? =
        (b.chans[i]?).map (fun c => if i ∈ b.subscribers then deliver c msg else c) := by
  obtain ⟨chans1, h1, hget⟩ := publishLoop_spec msg b.subscribers b.chans hwf.1 hwf.2
  exact ⟨{ b with chans := chans1 }, by simp only [Broker.Publish, h1], rfl, hget⟩

/-- C12: from a broker whose subscribed channels are open, `Publish` returns;
the subscriber set is kept; a subscribed channel holding fewer than 10 messages
gets the message as its last element, whatever the state of the other
channels; a subscribed channel holding 10 messages, and every channel that is
not subscribed, is unchanged. -/
theorem publish_fan_out (b : Broker) (msg : String) (hwf : b.WellFormed) :
    ∃ b1, b.Publish msg = some b1 ∧ b1.subscribers = b.subscribers ∧
      b1.chans.length = b.chans.length ∧
      ∀ ch c, b.chans[ch]? = some c →
        (ch ∈ b.subscribers → c.buf.length < 10 →
          b1.chans[ch]? = some { c with buf := c.buf ++ [msg] }) ∧
        (ch ∈ b.subscribers → c.buf.length = 10 → b1.chans[ch]? = some c) ∧
        (ch ∉ b.subscribers → b1.chans[ch]? = some c) := by
  obtain ⟨b1, h1, hs, hget⟩ := Publish_spec b msg hwf
  refine ⟨b1, h1, hs, getElem?_length_eq _ _ _ hget, fun ch c hc => ?_⟩
  rw [hget, hc]
  refine ⟨fun hm hlt => ?_, fun hm hfull => ?_, fun hm => ?_⟩
  · simp [hm, deliver, subscriberBuffer, hlt]
  · simp [hm, deliver, subscriberBuffer, hfull]
  · simp [hm]

/-- The full channel 0 does not keep the message from channel 1. -/
theorem publish_fan_out_witness :
    busyBroker.WellFormed ∧
    ∃ b1, busyBroker.Publish "11" = some b1 ∧ b1.subscribers = busyBroker.subscribers ∧
      b1.chans.length = busyBroker.chans.length ∧
      ∀ ch c, busyBroker.chans[ch]? = some c →
        (ch ∈ busyBroker.subscribers → c.buf.length < 10 →
          b1.chans[ch]? = some { c with buf := c.buf ++ ["11"] }) ∧
        (ch ∈ busyBroker.subscribers → c.buf.length = 10 → b1.chans[ch]? = some c) ∧
        (ch ∉ busyBroker.subscribers → b1.chans[ch]? = some c) :=
  have hwf : busyBroker.WellFormed :=
    ⟨by decide, by
      intro ch hch
      simp only [busyBroker, List.mem_cons, List.mem_singleton, List.not_mem_nil, or_false] at hch
      rcases hch with rfl | rfl
      · exact ⟨_, rfl, rfl⟩
      · exact ⟨_, rfl, rfl⟩⟩
  ⟨hwf, publish_fan_out busyBroker "11" hwf⟩

end ElectronicQueue

namespace ElectronicQueue

/-! ## Steps of the broker -/

theorem Subscribe_wf (b : Broker) (hwf : b.WellFormed) : b.Subscribe.2.WellFormed := by
  refine ⟨List.Nodup.insert hwf.1, fun ch hch => ?_⟩
  simp only [Broker.Subscribe] at hch ⊢
  rcases List.mem_insert_iff.1 hch with rfl | hm
  · exact ⟨_, List.getElem?_concat_length _ _, rfl⟩
  · obtain ⟨c, hc, ho⟩ := hwf.2 ch hm
    have hlt : ch < b.chans.length := (List.getElem?_eq_some_iff.1 hc).1
    exact ⟨c, by rw [List.getElem?_append_left hlt]; exact hc, ho⟩

theorem Subscribe_buffer (b : Broker) (h : Nat) : b.Subscribe.2.buffer h = b.buffer h := by
  simp only [Broker.Subscribe, Broker.buffer]
  rcases Nat.lt_trichotomy h b.chans.length with hlt | heq | hgt
  · rw [List.getElem?_append_left hlt]
  · subst heq
    rw [List.getElem?_concat_length, List.getElem?_eq_none (Nat.le_refl _)]
  · rw [List.getElem?_eq_none (by simp; omega), List.getElem?_eq_none (by omega)]

theorem Unsubscribe_spec (b : Broker) (ch : Nat) (hwf : b.WellFormed) :
    ∃ b1, b.Unsubscribe ch = some b1 ∧ b1.WellFormed ∧
      b1.subscribers = b.subscribers.filter (fun x => x ≠ ch) ∧
      b1.chans.length = b.chans.length ∧
      ∀ i, b1.chans[i]? = (b.chans[i]?).map
        (fun c => if i = ch ∧ ch ∈ b.subscribers then { c with closed := true } else c) := by
  by_cases hm : ch ∈ b.subscribers
  · obtain ⟨c, hc, ho⟩ := hwf.2 ch hm
    have hlt : ch < b.chans.length := (List.getElem?_eq_some_iff.1 hc).1
    have hget : ∀ i, (b.chans.set ch { c with closed := true })[i]? = (b.chans[i]?).map
        (fun c => if i = ch ∧ ch ∈ b.subscribers then { c with closed := true } else c) := by
      intro i
      by_cases hi : i = ch
      · subst hi; simp [List.getElem?_set_self, hlt, hc, hm]
      · rw [List.getElem?_set_ne (Ne.symm hi)]; simp [hi]
    refine ⟨{ chans := b.chans.set ch { c with closed := true }
              subscribers := b.subscribers.filter (fun x => x ≠ ch) }, ?_, ?_, rfl, ?_, hget⟩
    · simp only [Broker.Unsubscribe, hm, if_true, hc, ho, Bool.false_eq_true, if_false]
    · refine ⟨List.Nodup.filter _ hwf.1, fun x hx => ?_⟩
      obtain ⟨hx1, hx2⟩ := List.mem_filter.1 hx
      have hne : x ≠ ch := by simpa using hx2
      obtain ⟨cx, hcx, hox⟩ := hwf.2 x hx1
      exact ⟨cx, by simp only; rw [List.getElem?_set_ne (Ne.symm hne)]; exact hcx, hox⟩
    · simp
  · refine ⟨b, by simp only [Broker.Unsubscribe, hm, if_false], hwf, ?_, rfl, fun i => ?_⟩
    · symm; apply List.filter_eq_self.2
      intro x hx
      have : x ≠ ch := fun h => hm (h ▸ hx)
      simpa using this
    · simp [hm]

theorem Receive_spec (b : Broker) (ch : Nat) (hwf : b.WellFormed) :
    (b.Receive ch).2.WellFormed ∧ (b.Receive ch).2.subscribers = b.subscribers ∧
    (b.Receive ch).2.chans.length = b.chans.length ∧
    (b.Receive ch).1.toList ++ (b.Receive ch).2.buffer ch = b.buffer ch ∧
    ∀ h, h ≠ ch → (b.Receive ch).2.buffer h = b.buffer h := by
  rcases hc : b.chans[ch]? with _ | c
  · have hR : b.Receive ch = (none, b) := by simp only [Broker.Receive, hc]
    rw [hR]
    exact ⟨hwf, rfl, rfl, by simp, fun _ _ => rfl⟩
  · rcases hbuf : c.buf with _ | ⟨m, rest⟩
    · have hR : b.Receive ch = (none, b) := by simp only [Broker.Receive, hc, hbuf]
      rw [hR]
      exact ⟨hwf, rfl, rfl, by simp, fun _ _ => rfl⟩
    · have hlt : ch < b.chans.length := (List.getElem?_eq_some_iff.1 hc).1
      have hR : b.Receive ch =
          (some m, { b with chans := b.chans.set ch { c with buf := rest } }) := by
        simp only [Broker.Receive, hc, hbuf]
      rw [hR]
      refine ⟨⟨hwf.1, fun x hx => ?_⟩, rfl, by simp, ?_, fun h hne => ?_⟩
      · obtain ⟨cx, hcx, hox⟩ := hwf.2 x hx
        by_cases hxc : x = ch
        · subst hxc
          rw [hc] at hcx; cases hcx
          exact ⟨{ c with buf := rest }, by simp only; rw [List.getElem?_set_self hlt], hox⟩
        · exact ⟨cx, by simp only; rw [List.getElem?_set_ne (Ne.symm hxc)]; exact hcx, hox⟩
      · simp [Broker.buffer, List.getElem?_set_self, hlt, hc, hbuf]
      · simp only [Broker.buffer]; rw [List.getElem?_set_ne (Ne.symm hne)]

theorem step_spec (b : Broker) (e : BrokerEvent) (hwf : b.WellFormed) :
    ∃ b1, b.step e = some b1 ∧ b1.WellFormed ∧ b.chans.length ≤ b1.chans.length ∧
      (∀ h, h ∈ b1.subscribers → h ∈ b.subscribers ∨ b.chans.length ≤ h) ∧
      ∀ h, ((if e = .receive h then (b.Receive h).1.toList else []) ++ b1.buffer h = b.buffer h) ∨
        ∃ m, e = .publish m ∧ h ∈ b.subscribers ∧
          (if e = .receive h then (b.Receive h).1.toList else []) ++ b1.buffer h =
            b.buffer h ++ [m] := by
  cases e with
  | subscribe =>
    refine ⟨b.Subscribe.2, rfl, Subscribe_wf b hwf, by simp [Broker.Subscribe], ?_, fun h => ?_⟩
    · intro h hh
      simp only [Broker.Subscribe] at hh
      rcases List.mem_insert_iff.1 hh with rfl | hm
      · exact Or.inr (Nat.le_refl _)
      · exact Or.inl hm
    · left; simp [Subscribe_buffer]
  | unsubscribe ch =>
    obtain ⟨b1, h1, hwf1, hs, hl, hget⟩ := Unsubscribe_spec b ch hwf
    refine ⟨b1, h1, hwf1, by omega, ?_, fun h => ?_⟩
    · intro h hh
      rw [hs] at hh
      exact Or.inl (List.mem_filter.1 hh).1
    · left
      simp only [reduceCtorEq, if_false, List.nil_append, Broker.buffer, hget]
      rcases b.chans[h]? with _ | c
      · rfl
      · simp only [Option.map_some']; split <;> rfl
  | publish m =>
    obtain ⟨b1, h1, hs, hget⟩ := Publish_spec b m hwf
    have hwf1 : b1.WellFormed := by
      refine ⟨hs ▸ hwf.1, fun x hx => ?_⟩
      rw [hs] at hx
      obtain ⟨cx, hcx, hox⟩ := hwf.2 x hx
      exact ⟨deliver cx m, by rw [hget, hcx]; simp [hx], by rw [deliver_closed]; exact hox⟩
    refine ⟨b1, h1, hwf1, Nat.le_of_eq (getElem?_length_eq _ _ _ hget).symm, ?_, fun h => ?_⟩
    · intro h hh; rw [hs] at hh; exact Or.inl hh
    · simp only [reduceCtorEq, if_false, List.nil_append, Broker.buffer, hget]
      rcases b.chans[h]? with _ | c
      · left; rfl
      · by_cases hm : h ∈ b.subscribers
        · by_cases hroom : c.buf.length < subscriberBuffer
          · right; exact ⟨m, rfl, hm, by simp [hm, deliver, hroom]⟩
          · left; simp [hm, deliver, hroom]
        · left; simp [hm]
  | receive ch =>
    obtain ⟨hwf1, hs, hl, hbuf, hother⟩ := Receive_spec b ch hwf
    refine ⟨(b.Receive ch).2, rfl, hwf1, by omega, ?_, fun h => ?_⟩
    · intro h hh; rw [hs] at hh; exact Or.inl hh
    · left
      by_cases hh : h = ch
      · subst hh; simp only [if_true]; exact hbuf
      · have hne : ¬ (BrokerEvent.receive ch = BrokerEvent.receive h) := by
          intro heq; cases heq; exact hh rfl
        simp only [if_neg hne, List.nil_append]
        exact hother h hh

end ElectronicQueue

namespace ElectronicQueue

/-! ## Sequences of broker events -/

theorem published_sublist_cons (e : BrokerEvent) (es : List BrokerEvent) :
    (published es).Sublist (published (e :: es)) := by
  cases e with
  | publish m => exact List.sublist_cons_self _ _
  | subscribe => exact List.Sublist.refl _
  | unsubscribe ch => exact List.Sublist.refl _
  | receive ch => exact List.Sublist.refl _

theorem run_spec (es : List BrokerEvent) :
    ∀ b : Broker, b.WellFormed →
      ∃ b2, b.run es = some b2 ∧ b2.WellFormed ∧ b.chans.length ≤ b2.chans.length ∧
        (∀ h, h ∈ b2.subscribers → h ∈ b.subscribers ∨ b.chans.length ≤ h) ∧
        ∀ h, (Broker.reads h b es ++ b2.buffer h).Sublist (b.buffer h ++ published es) ∧
          (h ∉ b.subscribers → h < b.chans.length →
            Broker.reads h b es ++ b2.buffer h = b.buffer h) := by
  induction es with
  | nil =>
    intro b hwf
    exact ⟨b, rfl, hwf, Nat.le_refl _, fun h hh => Or.inl hh, fun h =>
      ⟨by simp [Broker.reads, published], fun _ _ => by simp [Broker.reads]⟩⟩
  | cons e es ih =>
    intro b hwf
    obtain ⟨b1, h1, hwf1, hl1, hs1, hbuf1⟩ := step_spec b e hwf
    obtain ⟨b2, h2, hwf2, hl2, hs2, hbuf2⟩ := ih b1 hwf1
    refine ⟨b2, by simp only [Broker.run, h1, h2], hwf2, Nat.le_trans hl1 hl2, ?_, fun h => ?_⟩
    · intro h hh
      rcases hs2 h hh with h' | h'
      · exact hs1 h h'
      · exact Or.inr (Nat.le_trans hl1 h')
    · have hreads : Broker.reads h b (e :: es) =
          (if e = .receive h then (b.Receive h).1.toList else []) ++ Broker.reads h b1 es := by
        simp only [Broker.reads, h1]
      rw [hreads, List.append_assoc]
      obtain ⟨hsub, heq⟩ := hbuf2 h
      refine ⟨?_, fun hns hlt => ?_⟩
      · have hstep : ((if e = .receive h then (b.Receive h).1.toList else []) ++
            (Broker.reads h b1 es ++ b2.buffer h)).Sublist
            (((if e = .receive h then (b.Receive h).1.toList else []) ++ b1.buffer h) ++
              published es) := by
          rw [List.append_assoc]
          exact List.Sublist.append_left hsub _
        rcases hbuf1 h with hA | ⟨m, hm, _, hB⟩
        · rw [hA] at hstep
          exact hstep.trans (List.Sublist.append_left (published_sublist_cons e es) _)
        · rw [hB] at hstep
          subst hm
          simpa [published] using hstep
      · have hns1 : h ∉ b1.subscribers := by
          intro hh
          rcases hs1 h hh with h' | h'
          · exact hns h'
          · omega
        rw [heq hns1 (by omega)]
        rcases hbuf1 h with hA | ⟨m, _, hmem, _⟩
        · exact hA
        · exact absurd hmem hns

theorem NewBroker_wf : NewBroker.WellFormed :=
  ⟨List.nodup_nil, fun ch hch => by cases hch⟩

theorem reachable_wf {es : List BrokerEvent} {b : Broker} (h : NewBroker.run es = some b) :
    b.WellFormed := by
  obtain ⟨b2, h2, hwf, _⟩ := run_spec es NewBroker NewBroker_wf
  rw [h] at h2; cases h2; exact hwf

/-- C13: in a broker reached from `NewBroker` by any sequence of events, every
subscribed channel is open. `Unsubscribe` of a subscribed handle removes it
from the subscriber set and closes its channel, leaving the other channels as
they were, and a second `Unsubscribe` of it changes nothing; `Unsubscribe` of a
handle that is not subscribed changes nothing. No later sequence of events
panics, and a channel that is not subscribed gets no further message: what its
reader takes and what stays buffered is what was buffered before. -/
theorem unsubscribe_closes_once (es0 : List BrokerEvent) (b : Broker) (ch : Nat)
    (hreach : NewBroker.run es0 = some b) :
    (∀ x ∈ b.subscribers, ∃ c, b.chans[x]? = some c ∧ c.closed = false) ∧
    (ch ∈ b.subscribers → ∃ b1 c, b.Unsubscribe ch = some b1 ∧
      b1.subscribers = b.subscribers.filter (fun x => x ≠ ch) ∧ ch ∉ b1.subscribers ∧
      b.chans[ch]? = some c ∧ b1.chans[ch]? = some { c with closed := true } ∧
      (∀ i, i ≠ ch → b1.chans[i]? = b.chans[i]?) ∧ b1.Unsubscribe ch = some b1) ∧
    (ch ∉ b.subscribers → b.Unsubscribe ch = some b) ∧
    (∀ es, ∃ b2, b.run es = some b2) ∧
    (ch ∉ b.subscribers → ch < b.chans.length → ∀ es b2, b.run es = some b2 →
      Broker.reads ch b es ++ b2.buffer ch = b.buffer ch) := by
  have hwf := reachable_wf hreach
  refine ⟨hwf.2, fun hm => ?_, fun hm => ?_, fun es => ?_, fun hm hlt es b2 hrun => ?_⟩
  · obtain ⟨b1, h1, _, hs, _, hget⟩ := Unsubscribe_spec b ch hwf
    obtain ⟨c, hc, _⟩ := hwf.2 ch hm
    have hnot : ch ∉ b1.subscribers := by
      rw [hs]; intro hh
      have := (List.mem_filter.1 hh).2
      simp at this
    refine ⟨b1, c, h1, hs, hnot, hc, ?_, fun i hi => ?_, ?_⟩
    · rw [hget, hc]; simp [hm]
    · rw [hget]
      rcases b.chans[i]? with _ | x
      · rfl
      · simp [hi]
    · simp only [Broker.Unsubscribe, hnot, if_false]
  · simp only [Broker.Unsubscribe, hm, if_false]
  · obtain ⟨b2, h2, _⟩ := run_spec es b hwf
    exact ⟨b2, h2⟩
  · obtain ⟨b3, h3, _, _, _, hbuf⟩ := run_spec es b hwf
    rw [hrun] at h3; cases h3
    exact (hbuf ch).2 hm hlt

/-- After `sessionEvents` the handle 0 is unsubscribed and closed; the later
publications reach only the handle 1. -/
theorem unsubscribe_closes_once_witness :
    NewBroker.run sessionEvents = some sessionBroker ∧
    sessionBroker.Unsubscribe 0 = some sessionBroker ∧
    Broker.reads 0 sessionBroker [.publish "c", .receive 0, .receive 0] ++
      [] = sessionBroker.buffer 0 :=
  ⟨by decide,
   (unsubscribe_closes_once sessionEvents sessionBroker 0 (by decide)).2.2.1 (by decide),
   (unsubscribe_closes_once sessionEvents sessionBroker 0 (by decide)).2.2.2.2
     (by decide) (by decide) [.publish "c", .receive 0, .receive 0]
     { chans := [{ buf := [], closed := true }, { buf := ["a", "b", "c"], closed := false }]
       subscribers := [1] } (by decide)⟩

/-- C14: along every sequence of events from `NewBroker`, the messages the
reader of a channel has taken, followed by those still in its buffer, are a
sublist of the published messages in the order of publication. -/
theorem reads_sublist_published (es : List BrokerEvent) (ch : Nat) :
    ∃ b, NewBroker.run es = some b ∧
      (Broker.reads ch NewBroker es ++ b.buffer ch).Sublist (published es) ∧
      (Broker.reads ch NewBroker es).Sublist (published es) := by
  obtain ⟨b, hb, _, _, _, hbuf⟩ := run_spec es NewBroker NewBroker_wf
  have h := (hbuf ch).1
  have h0 : NewBroker.buffer ch = [] := by simp [Broker.buffer, NewBroker]
  rw [h0, List.nil_append] at h
  exact ⟨b, hb, h, (List.sublist_append_left _ _).trans h⟩

end ElectronicQueue

namespace ElectronicQueue

/-! ## Booking a slot -/

theorem foldl_max_nat_le (vs : List Nat) (v0 : Nat) :
    v0 ≤ vs.foldl max v0 ∧ ∀ v ∈ vs, v ≤ vs.foldl max v0 := by
  induction vs generalizing v0 with
  | nil => simp
  | cons x xs ih =>
    simp only [List.foldl_cons, List.mem_cons, forall_eq_or_imp]
    obtain ⟨h2, h3⟩ := ih (max v0 x)
    exact ⟨by omega, by omega, h3⟩

theorem nextAppointmentID_fresh (st : Store) (a : Appointment) (h : a ∈ st.appointments) :
    a.ID < nextAppointmentID st := by
  have := (foldl_max_nat_le (st.appointments.map (fun a => a.ID)) 0).2 a.ID
    (List.mem_map.2 ⟨a, h, rfl⟩)
  unfold nextAppointmentID; omega

/-- After the rows with key `id` are overwritten by `new`, the row found under
`id` is `new`. -/
theorem find?_map_key {α : Type} (key : α → Nat) (l : List α) (id : Nat) (new : α)
    (hnew : key new = id) (hex : ∃ x ∈ l, key x = id) :
    (l.map (fun y => if key y = id then new else y)).find? (fun y => decide (key y = id)) =
      some new := by
  induction l with
  | nil => obtain ⟨x, hx, _⟩ := hex; cases hx
  | cons a l ih =>
    by_cases ha : key a = id
    · simp [ha, hnew]
    · have hl : ∃ x ∈ l, key x = id := by
        obtain ⟨x, hx, hxp⟩ := hex
        rcases List.mem_cons.1 hx with rfl | hx
        · exact absurd hxp ha
        · exact ⟨x, hx, hxp⟩
      rw [List.map_cons, if_neg ha, List.find?_cons_of_neg _ (by simpa using ha)]
      exact ih hl

/-- Rows with another key are found as before the overwrite. -/
theorem find?_map_key_other {α : Type} (key : α → Nat) (l : List α) (id id2 : Nat) (new : α)
    (hnew : key new = id) (hne : id2 ≠ id) :
    (l.map (fun y => if key y = id then new else y)).find? (fun y => decide (key y = id2)) =
      l.find? (fun y => decide (key y = id2)) := by
  induction l with
  | nil => rfl
  | cons a l ih =>
    by_cases ha : key a = id
    · have h2 : ¬ key new = id2 := by rw [hnew]; exact fun h => hne h.symm
      have h3 : ¬ key a = id2 := by rw [ha]; exact fun h => hne h.symm
      rw [List.map_cons, if_pos ha, List.find?_cons_of_neg _ (by simpa using h2),
        List.find?_cons_of_neg _ (by simpa using h3)]
      exact ih
    · rw [List.map_cons, if_neg ha]
      by_cases h3 : key a = id2
      · rw [List.find?_cons_of_pos _ (by simpa using h3),
          List.find?_cons_of_pos _ (by simpa using h3)]
      · rw [List.find?_cons_of_neg _ (by simpa using h3),
          List.find?_cons_of_neg _ (by simpa using h3)]
        exact ih

theorem find?_append_fresh (st : Store) (a : Appointment) (ha : a.ID = nextAppointmentID st) :
    (st.appointments ++ [a]).find? (fun x => decide (x.ID = a.ID)) = some a := by
  rw [List.find?_append]
  have : st.appointments.find? (fun x => decide (x.ID = a.ID)) = none := by
    rw [List.find?_eq_none]
    intro x hx
    have := nextAppointmentID_fresh st x hx
    simp only [decide_eq_true_eq]; omega
  rw [this]
  simp

theorem find?_schedule_mem {st : Store} {id : Nat} {s : Schedule}
    (h : st.schedules.find? (fun s => decide (s.ID = id)) = some s) :
    s ∈ st.schedules ∧ s.ID = id :=
  ⟨List.mem_of_find?_eq_some h, by simpa using List.find?_some h⟩

theorem CreateAppointment_zero (f : Faults) (st : Store) (now : Int)
    (req : CreateAppointmentRequest) (h0 : req.ScheduleID = 0) :
    CreateAppointment f st now req = (.error .scheduleIDRequired, st) := by
  simp only [CreateAppointment, h0, if_true]

theorem CreateAppointment_missing (st : Store) (now : Int) (req : CreateAppointmentRequest)
    (h0 : req.ScheduleID ≠ 0)
    (hs : st.schedules.find? (fun s => decide (s.ID = req.ScheduleID)) = none) :
    CreateAppointment Faults.none st now req =
      (.error (.createAppointmentFailed .slotNotFound), st) := by
  simp [CreateAppointment, h0, appointmentRepo.CreateAppointmentInTransaction, firstSchedule,
    Faults.none, hs]

theorem CreateAppointment_taken (st : Store) (now : Int) (req : CreateAppointmentRequest)
    (s : Schedule) (h0 : req.ScheduleID ≠ 0)
    (hs : st.schedules.find? (fun s => decide (s.ID = req.ScheduleID)) = some s)
    (ha : s.IsAvailable = false) :
    CreateAppointment Faults.none st now req =
      (.error (.createAppointmentFailed .slotTaken), st) := by
  simp [CreateAppointment, h0, appointmentRepo.CreateAppointmentInTransaction, firstSchedule,
    Faults.none, hs, ha]

theorem CreateAppointment_available (st : Store) (now : Int) (req : CreateAppointmentRequest)
    (s : Schedule) (h0 : req.ScheduleID ≠ 0)
    (hs : st.schedules.find? (fun s => decide (s.ID = req.ScheduleID)) = some s)
    (ha : s.IsAvailable = true) :
    CreateAppointment Faults.none st now req =
      (.ok (bookedAppointment st now req), bookSlot st (bookedAppointment st now req) s) := by
  obtain ⟨hmem, hid⟩ := find?_schedule_mem hs
  have hsid : s.ID ≠ 0 := by rw [hid]; exact h0
  have hany : st.schedules.any (fun x => decide (x.ID = s.ID)) = true := by
    simp only [List.any_eq_true, decide_eq_true_eq]; exact ⟨s, hmem, rfl⟩
  have hfind := find?_append_fresh st (bookedAppointment st now req) rfl
  simp only [bookedAppointment] at hfind
  simp only [CreateAppointment, h0, if_false, appointmentRepo.CreateAppointmentInTransaction,
    firstSchedule, Faults.none, Bool.false_eq_true, hs, ha, not_true_eq_false, insertAppointment,
    ne_eq, not_true_eq_false, false_and, if_true, saveSchedule, hsid, hany,
    appointmentRepo.FindByID, hfind, bookedAppointment, bookSlot]

end ElectronicQueue

namespace ElectronicQueue

theorem createAppointments_taken (st : Store) (now : Int) (id : Nat) (s : Schedule)
    (h0 : id ≠ 0) (hs : st.schedules.find? (fun s => decide (s.ID = id)) = some s)
    (ha : s.IsAvailable = false) (reqs : List CreateAppointmentRequest)
    (hall : ∀ r ∈ reqs, r.ScheduleID = id) :
    createAppointments Faults.none now st reqs =
      (reqs.map (fun _ => .error (.createAppointmentFailed .slotTaken)), st) := by
  induction reqs with
  | nil => rfl
  | cons r rs ih =>
    have hr : r.ScheduleID = id := hall r (List.mem_cons_self _ _)
    have h1 := CreateAppointment_taken st now r s (hr ▸ h0) (hr ▸ hs) ha
    simp only [createAppointments, h1, ih (fun x hx => hall x (List.mem_cons_of_mem _ hx)),
      List.map_cons]

theorem bookSlot_find (st : Store) (a : Appointment) (s : Schedule) (hmem : s ∈ st.schedules) :
    (bookSlot st a s).schedules.find? (fun x => decide (x.ID = s.ID)) =
      some { s with IsAvailable := false } :=
  find?_map_key (fun x : Schedule => x.ID) st.schedules s.ID { s with IsAvailable := false } rfl
    ⟨s, hmem, rfl⟩

/-- When only the reload after the commit fails, the call reports an error
although the appointment is stored and the slot taken. -/
theorem CreateAppointment_reload_failure (st : Store) (now : Int)
    (req : CreateAppointmentRequest) (s : Schedule) (h0 : req.ScheduleID ≠ 0)
    (hs : st.schedules.find? (fun s => decide (s.ID = req.ScheduleID)) = some s)
    (ha : s.IsAvailable = true) :
    CreateAppointment { Faults.none with appointmentReload := true } st now req =
      (.error (.createAppointmentFailed .storeFailure),
        bookSlot st (bookedAppointment st now req) s) := by
  obtain ⟨hmem, hid⟩ := find?_schedule_mem hs
  have hsid : s.ID ≠ 0 := by rw [hid]; exact h0
  have hany : st.schedules.any (fun x => decide (x.ID = s.ID)) = true := by
    simp only [List.any_eq_true, decide_eq_true_eq]; exact ⟨s, hmem, rfl⟩
  simp only [CreateAppointment, h0, if_false, appointmentRepo.CreateAppointmentInTransaction,
    firstSchedule, Faults.none, Bool.false_eq_true, hs, ha, not_true_eq_false, insertAppointment,
    ne_eq, not_true_eq_false, false_and, if_true, saveSchedule, hsid, hany,
    appointmentRepo.FindByID, bookedAppointment, bookSlot]

/-- C11: with repository calls that do not fail, `CreateAppointment` succeeds
exactly when the request names a non-zero slot id, the slot is stored and it
is available. On success the returned appointment is stored, refers to the
slot, and every stored slot of this id is unavailable. On failure the store is
unchanged, and the error is the one for a missing id, for an unknown slot or,
when the slot is taken, the conflict error. Of several calls for the same
available slot, one after the other, the first succeeds and every later one
fails with the conflict error. -/
theorem createAppointment_books_slot (st : Store) (now : Int) (req : CreateAppointmentRequest) :
    ((∃ a, (CreateAppointment Faults.none st now req).1 = .ok a) ↔
      (req.ScheduleID ≠ 0 ∧ ∃ s, st.schedules.find? (fun s => decide (s.ID = req.ScheduleID)) =
        some s ∧ s.IsAvailable = true)) ∧
    (∀ a, (CreateAppointment Faults.none st now req).1 = .ok a →
      (CreateAppointment Faults.none st now req).2.appointments = st.appointments ++ [a] ∧
      a.ScheduleID = req.ScheduleID ∧
      (∃ s, (CreateAppointment Faults.none st now req).2.schedules.find?
        (fun s => decide (s.ID = req.ScheduleID)) = some s) ∧
      ∀ s ∈ (CreateAppointment Faults.none st now req).2.schedules,
        s.ID = req.ScheduleID → s.IsAvailable = false) ∧
    (∀ e, (CreateAppointment Faults.none st now req).1 = .error e →
      (CreateAppointment Faults.none st now req).2 = st ∧
      ((req.ScheduleID = 0 ∧ e = .scheduleIDRequired) ∨
       (st.schedules.find? (fun s => decide (s.ID = req.ScheduleID)) = none ∧
         e = .createAppointmentFailed .slotNotFound) ∨
       ((∃ s, st.schedules.find? (fun s => decide (s.ID = req.ScheduleID)) = some s ∧
           s.IsAvailable = false) ∧
         e = .createAppointmentFailed .slotTaken))) ∧
    (∀ reqs : List CreateAppointmentRequest, (∀ r ∈ reqs, r.ScheduleID = req.ScheduleID) →
      (∃ a, (CreateAppointment Faults.none st now req).1 = .ok a) →
      (createAppointments Faults.none now st (req :: reqs)).1 =
        (CreateAppointment Faults.none st now req).1 ::
          reqs.map (fun _ => .error (.createAppointmentFailed .slotTaken))) := by
  by_cases h0 : req.ScheduleID = 0
  · rw [CreateAppointment_zero Faults.none st now req h0]
    refine ⟨⟨fun ⟨a, ha⟩ => (by cases ha), fun h => absurd h0 h.1⟩, fun a ha => (by cases ha),
      fun e he => ?_, fun reqs _ ⟨a, ha⟩ => (by cases ha)⟩
    simp only [Except.error.injEq] at he
    exact ⟨rfl, Or.inl ⟨h0, he.symm⟩⟩
  · rcases hs : st.schedules.find? (fun s => decide (s.ID = req.ScheduleID)) with _ | s
    · rw [CreateAppointment_missing st now req h0 hs]
      refine ⟨⟨fun ⟨a, ha⟩ => (by cases ha), fun ⟨_, s, h, _⟩ => (by rw [hs] at h; cases h)⟩,
        fun a ha => (by cases ha), fun e he => ?_, fun reqs _ ⟨a, ha⟩ => (by cases ha)⟩
      simp only [Except.error.injEq] at he
      exact ⟨rfl, Or.inr (Or.inl ⟨hs, he.symm⟩)⟩
    · obtain ⟨hmem, hid⟩ := find?_schedule_mem hs
      rcases ha : s.IsAvailable with _ | _
      · rw [CreateAppointment_taken st now req s h0 hs ha]
        refine ⟨⟨fun ⟨a, h⟩ => (by cases h), fun ⟨_, s2, h, h2⟩ => ?_⟩,
          fun a h => (by cases h), fun e he => ?_, fun reqs _ ⟨a, h⟩ => (by cases h)⟩
        · rw [hs] at h
          simp only [Option.some.injEq] at h
          subst h
          rw [ha] at h2; cases h2
        · simp only [Except.error.injEq] at he
          exact ⟨rfl, Or.inr (Or.inr ⟨⟨s, hs, ha⟩, he.symm⟩)⟩
      · have hrun := CreateAppointment_available st now req s h0 hs ha
        have hfind : (bookSlot st (bookedAppointment st now req) s).schedules.find?
            (fun x => decide (x.ID = req.ScheduleID)) = some { s with IsAvailable := false } := by
          rw [← hid]; exact bookSlot_find st (bookedAppointment st now req) s hmem
        refine ⟨⟨fun _ => ⟨h0, s, hs, ha⟩, fun _ => ⟨_, by rw [hrun]⟩⟩, fun a h => ?_,
          fun e he => ?_, fun reqs hall _ => ?_⟩
        · rw [hrun] at h ⊢
          simp only [Except.ok.injEq] at h
          subst h
          refine ⟨rfl, rfl, ⟨_, hfind⟩, fun x hx hxid => ?_⟩
          simp only [bookSlot, List.mem_map] at hx
          obtain ⟨y, _, hy⟩ := hx
          by_cases hys : y.ID = s.ID
          · rw [if_pos hys] at hy; subst hy; rfl
          · rw [if_neg hys] at hy; subst hy
            exact absurd (hxid.trans hid.symm) hys
        · rw [hrun] at he; cases he
        · simp only [createAppointments]
          rw [hrun]
          rw [createAppointments_taken (bookSlot st (bookedAppointment st now req) s) now
            req.ScheduleID { s with IsAvailable := false } h0 hfind rfl reqs hall]

/-- The free slot 10 of `clinicStore` is booked once; the repeated requests get
the conflict error. -/
theorem createAppointment_books_slot_witness :
    (createAppointments Faults.none 7 clinicStore
      ({ ScheduleID := 10, PatientID := some 1, TicketID := none } :: repeatedRequests)).1 =
      (CreateAppointment Faults.none clinicStore 7
          { ScheduleID := 10, PatientID := some 1, TicketID := none }).1 ::
        repeatedRequests.map (fun _ => .error (.createAppointmentFailed .slotTaken)) :=
  (createAppointment_books_slot clinicStore 7
    { ScheduleID := 10, PatientID := some 1, TicketID := none }).2.2.2 repeatedRequests
    (by decide)
    ⟨{ ID := 3, ScheduleID := 10, PatientID := some 1, TicketID := none, CreatedAt := 7 },
      by decide⟩

end ElectronicQueue

namespace ElectronicQueue

/-! ## Confirming an appointment -/

theorem find?_appointment_mem {st : Store} {id : Nat} {a : Appointment}
    (h : storedAppointment st id = some a) : a ∈ st.appointments ∧ a.ID = id :=
  ⟨List.mem_of_find?_eq_some h, by simpa using List.find?_some h⟩

theorem appointmentRepoUpdate_found (st : Store) (a cur : Appointment)
    (hcur : storedAppointment st a.ID = some cur) (h0 : a.ID ≠ 0) :
    appointmentRepo.Update false st a = .ok (replaceAppointment st a) ∧
      storedAppointment (replaceAppointment st a) a.ID = some a := by
  obtain ⟨hmem, hid⟩ := find?_appointment_mem hcur
  have hany : st.appointments.any (fun x => decide (x.ID = a.ID)) = true := by
    simp only [List.any_eq_true, decide_eq_true_eq]; exact ⟨cur, hmem, hid⟩
  refine ⟨?_, ?_⟩
  · simp only [appointmentRepo.Update, Bool.false_eq_true, if_false, h0, hany, if_true,
      replaceAppointment]
  · exact find?_map_key (fun x : Appointment => x.ID) st.appointments a.ID a rfl ⟨cur, hmem, hid⟩

theorem ticketRepoUpdate_withAppointments (f : Faults) (st : Store) (t : Ticket)
    (appointments : List Appointment) :
    ticketRepo.Update f (withAppointments st appointments) t =
      match ticketRepo.Update f st t with
      | .error e => .error e
      | .ok (t1, st1) => .ok (t1, withAppointments st1 appointments) := by
  unfold ticketRepo.Update insertTicket withAppointments nextTicketID
  split_ifs <;> rfl

theorem ConfirmAppointment_missing (f : Faults) (st : Store) (aid tid : Nat)
    (hf : f.appointmentFind = false) (ha : storedAppointment st aid = none) :
    ConfirmAppointment f st aid tid = (.error (.appointmentNotFound .recordNotFound), st) := by
  unfold storedAppointment at ha
  simp only [ConfirmAppointment, appointmentRepo.FindByID, hf, Bool.false_eq_true, if_false, ha]

theorem ConfirmAppointment_confirmed (f : Faults) (st : Store) (aid tid : Nat) (a : Appointment)
    (hf : f.appointmentFind = false) (ha : storedAppointment st aid = some a)
    (hn : a.TicketID ≠ none) :
    ConfirmAppointment f st aid tid = (.error .appointmentAlreadyConfirmed, st) := by
  unfold storedAppointment at ha
  simp only [ConfirmAppointment, appointmentRepo.FindByID, hf, Bool.false_eq_true, if_false, ha,
    ne_eq, hn, not_false_eq_true, if_true]

theorem ConfirmAppointment_noTicket (f : Faults) (st : Store) (aid tid : Nat) (a : Appointment)
    (hf : f.appointmentFind = false) (hg : f.ticketGet = false)
    (ha : storedAppointment st aid = some a) (hn : a.TicketID = none)
    (ht : storedTicket st tid = none) :
    ConfirmAppointment f st aid tid = (.error (.doctorTicketNotFound .recordNotFound), st) := by
  unfold storedAppointment at ha
  unfold storedTicket at ht
  simp only [ConfirmAppointment, appointmentRepo.FindByID, hf, Bool.false_eq_true, if_false, ha,
    ne_eq, hn, not_true_eq_false, ticketRepo.GetByID, hg, ht]

theorem ConfirmAppointment_inUse (f : Faults) (st : Store) (aid tid : Nat) (a : Appointment)
    (t : Ticket) (hf : f.appointmentFind = false) (hg : f.ticketGet = false)
    (ha : storedAppointment st aid = some a) (hn : a.TicketID = none)
    (ht : storedTicket st tid = some t)
    (hs : t.Status = StatusRegistered ∨ t.Status = StatusInProgress) :
    ConfirmAppointment f st aid tid = (.error .ticketInUse, st) := by
  unfold storedAppointment at ha
  unfold storedTicket at ht
  simp only [ConfirmAppointment, appointmentRepo.FindByID, hf, Bool.false_eq_true, if_false, ha,
    ne_eq, hn, not_true_eq_false, ticketRepo.GetByID, hg, ht, hs, if_true]

/-- The run of `ConfirmAppointment` up to the ticket write. -/
theorem ConfirmAppointment_linked (f : Faults) (st : Store) (aid tid : Nat) (a : Appointment)
    (t : Ticket) (hf : f.appointmentFind = false) (hg : f.ticketGet = false)
    (hu : f.appointmentUpdate = false) (h0 : aid ≠ 0)
    (ha : storedAppointment st aid = some a) (hn : a.TicketID = none)
    (ht : storedTicket st tid = some t)
    (hs : ¬ (t.Status = StatusRegistered ∨ t.Status = StatusInProgress)) :
    ConfirmAppointment f st aid tid =
      match ticketRepo.Update f (replaceAppointment st { a with TicketID := some tid })
          { t with Status := StatusRegistered } with
      | .error e =>
        match appointmentRepo.Update f.appointmentRevert
            (replaceAppointment st { a with TicketID := some tid }) a with
        | .error _ => (.error (.ticketStatusUpdateFailed e),
            replaceAppointment st { a with TicketID := some tid })
        | .ok st2 => (.error (.ticketStatusUpdateFailed e), st2)
      | .ok (_, st2) => (.ok { a with TicketID := some tid }, st2) := by
  obtain ⟨_, hid⟩ := find?_appointment_mem ha
  have hcur : storedAppointment st ({ a with TicketID := some tid } : Appointment).ID = some a := by
    simp only [hid]; exact ha
  have hupd := (appointmentRepoUpdate_found st { a with TicketID := some tid } a hcur
    (by simp only [hid]; exact h0)).1
  have hback : ({ ({ a with TicketID := some tid } : Appointment) with TicketID := none } :
      Appointment) = a := by
    cases a; simp only at hn; subst hn; rfl
  unfold storedAppointment at ha
  unfold storedTicket at ht
  simp only [ConfirmAppointment, appointmentRepo.FindByID, hf, Bool.false_eq_true, if_false, ha,
    ne_eq, hn, not_true_eq_false, ticketRepo.GetByID, hg, ht, hs, hu, hupd, hback]

end ElectronicQueue

namespace ElectronicQueue

theorem replaceAppointment_twice (st : Store) (a b : Appointment) (h : a.ID = b.ID) :
    replaceAppointment (replaceAppointment st a) b = replaceAppointment st b := by
  unfold replaceAppointment
  simp only [List.map_map]
  congr 1
  apply List.map_congr_left
  intro x _
  simp only [Function.comp]
  by_cases hx : x.ID = a.ID
  · simp [hx, h]
  · have hx2 : ¬ x.ID = b.ID := by rw [← h]; exact hx
    simp [hx, hx2]

/-- C17: with reads that do not fail, `ConfirmAppointment` returns an error and
leaves the store as it is when no appointment has the id, when the stored
appointment already refers to a ticket, when no ticket has the ticket id, or
when the stored ticket is registered or in progress. Otherwise, when the
appointment write and the ticket write succeed, it succeeds, the stored
appointment refers to the ticket and the stored ticket is registered. -/
theorem confirmAppointment_guards (f : Faults) (st : Store) (aid tid : Nat)
    (hf : f.appointmentFind = false) (hg : f.ticketGet = false) :
    ((storedAppointment st aid = none ∨
      (∃ a, storedAppointment st aid = some a ∧ a.TicketID ≠ none) ∨
      storedTicket st tid = none ∨
      (∃ t, storedTicket st tid = some t ∧
        (t.Status = StatusRegistered ∨ t.Status = StatusInProgress))) →
      (ConfirmAppointment f st aid tid).2 = st ∧
      ((ConfirmAppointment f st aid tid).1 = .error (.appointmentNotFound .recordNotFound) ∨
       (ConfirmAppointment f st aid tid).1 = .error .appointmentAlreadyConfirmed ∨
       (ConfirmAppointment f st aid tid).1 = .error (.doctorTicketNotFound .recordNotFound) ∨
       (ConfirmAppointment f st aid tid).1 = .error .ticketInUse)) ∧
    (∀ a t r, storedAppointment st aid = some a → a.TicketID = none →
      storedTicket st tid = some t →
      ¬ (t.Status = StatusRegistered ∨ t.Status = StatusInProgress) →
      aid ≠ 0 → f.appointmentUpdate = false →
      ticketRepo.Update f st { t with Status := StatusRegistered } = .ok r →
      (ConfirmAppointment f st aid tid).1 = .ok { a with TicketID := some tid } ∧
      storedAppointment (ConfirmAppointment f st aid tid).2 aid =
        some { a with TicketID := some tid } ∧
      storedTicket (ConfirmAppointment f st aid tid).2 tid =
        some { t with Status := StatusRegistered }) := by
  refine ⟨fun hcase => ?_, fun a t r ha hn ht hs h0 hu hw => ?_⟩
  · rcases ha : storedAppointment st aid with _ | a
    · rw [ConfirmAppointment_missing f st aid tid hf ha]
      exact ⟨rfl, Or.inl rfl⟩
    · by_cases hn : a.TicketID = none
      · rcases ht : storedTicket st tid with _ | t
        · rw [ConfirmAppointment_noTicket f st aid tid a hf hg ha hn ht]
          exact ⟨rfl, Or.inr (Or.inr (Or.inl rfl))⟩
        · by_cases hs : t.Status = StatusRegistered ∨ t.Status = StatusInProgress
          · rw [ConfirmAppointment_inUse f st aid tid a t hf hg ha hn ht hs]
            exact ⟨rfl, Or.inr (Or.inr (Or.inr rfl))⟩
          · exfalso
            rcases hcase with h | ⟨a2, h, h2⟩ | h | ⟨t2, h, h2⟩
            · rw [ha] at h; cases h
            · rw [ha] at h; simp only [Option.some.injEq] at h; subst h; exact h2 hn
            · rw [ht] at h; cases h
            · rw [ht] at h; simp only [Option.some.injEq] at h; subst h; exact hs h2
      · rw [ConfirmAppointment_confirmed f st aid tid a hf ha hn]
        exact ⟨rfl, Or.inr (Or.inl rfl)⟩
  · obtain ⟨hmem, hid⟩ := find?_appointment_mem ha
    obtain ⟨hr, hstored⟩ := ticketRepoUpdate_found { t with Status := StatusRegistered } ht rfl rfl hw
    have hrun := ConfirmAppointment_linked f st aid tid a t hf hg hu h0 ha hn ht hs
    have hframe := ticketRepoUpdate_withAppointments f st { t with Status := StatusRegistered }
      (st.appointments.map (fun x =>
        if x.ID = ({ a with TicketID := some tid } : Appointment).ID then
          { a with TicketID := some tid } else x))
    rw [hw, hr] at hframe
    have hsame : replaceAppointment st { a with TicketID := some tid } =
        withAppointments st (st.appointments.map (fun x =>
          if x.ID = ({ a with TicketID := some tid } : Appointment).ID then
            { a with TicketID := some tid } else x)) := rfl
    rw [hsame, hframe] at hrun
    rw [hrun]
    refine ⟨rfl, ?_, hstored⟩
    simp only [storedAppointment, withAppointments]
    rw [← hid]
    exact find?_map_key (fun x : Appointment => x.ID) st.appointments a.ID
      { a with TicketID := some tid } rfl ⟨a, hmem, rfl⟩

/-- The appointment 1 of `clinicStore` is confirmed with the waiting ticket 1,
and refused with the ticket 2, which is in progress. -/
theorem confirmAppointment_guards_witness :
    (ConfirmAppointment Faults.none clinicStore 1 2).2 = clinicStore ∧
    (ConfirmAppointment Faults.none clinicStore 1 1).1 =
      .ok { ID := 1, ScheduleID := 11, PatientID := some 2, TicketID := some 1, CreatedAt := 0 } :=
  ⟨((confirmAppointment_guards Faults.none clinicStore 1 2 rfl rfl).1
      (Or.inr (Or.inr (Or.inr
        ⟨{ waitingTicket 2 ['A', '0', '0', '2'] 6 with Status := StatusInProgress },
          by decide, Or.inr rfl⟩)))).1,
   ((confirmAppointment_guards Faults.none clinicStore 1 1 rfl rfl).2
      { ID := 1, ScheduleID := 11, PatientID := some 2, TicketID := none, CreatedAt := 0 }
      (waitingTicket 1 ['A', '0', '0', '1'] 5)
      ({ waitingTicket 1 ['A', '0', '0', '1'] 5 with Status := StatusRegistered },
        replaceTicket clinicStore
          { waitingTicket 1 ['A', '0', '0', '1'] 5 with Status := StatusRegistered })
      (by decide) rfl (by decide) (by decide) (by decide) rfl (by decide)).1⟩

/-- C18: when the appointment was linked and the ticket write then fails,
`ConfirmAppointment` returns the ticket-status error and writes the appointment
back with an empty ticket reference. When that write succeeds, the stored
appointment and the stored ticket are what they were before the call; when it
fails, the stored appointment keeps the reference. -/
theorem confirmAppointment_compensates (f : Faults) (st : Store) (aid tid : Nat)
    (a : Appointment) (t : Ticket) (e : Error)
    (hf : f.appointmentFind = false) (hg : f.ticketGet = false)
    (hu : f.appointmentUpdate = false) (h0 : aid ≠ 0)
    (ha : storedAppointment st aid = some a) (hn : a.TicketID = none)
    (ht : storedTicket st tid = some t)
    (hs : ¬ (t.Status = StatusRegistered ∨ t.Status = StatusInProgress))
    (hw : ticketRepo.Update f st { t with Status := StatusRegistered } = .error e) :
    (ConfirmAppointment f st aid tid).1 = .error (.ticketStatusUpdateFailed e) ∧
    (f.appointmentRevert = false →
      (ConfirmAppointment f st aid tid).2 = replaceAppointment st a ∧
      storedAppointment (ConfirmAppointment f st aid tid).2 aid = storedAppointment st aid ∧
      storedTicket (ConfirmAppointment f st aid tid).2 tid = storedTicket st tid) ∧
    (f.appointmentRevert = true →
      storedAppointment (ConfirmAppointment f st aid tid).2 aid =
        some { a with TicketID := some tid }) := by
  obtain ⟨hmem, hid⟩ := find?_appointment_mem ha
  subst hid
  have hrun := ConfirmAppointment_linked f st a.ID tid a t hf hg hu h0 ha hn ht hs
  have hframe := ticketRepoUpdate_withAppointments f st { t with Status := StatusRegistered }
    (st.appointments.map (fun x =>
      if x.ID = ({ a with TicketID := some tid } : Appointment).ID then
        { a with TicketID := some tid } else x))
  rw [hw] at hframe
  have hsame : replaceAppointment st { a with TicketID := some tid } =
      withAppointments st (st.appointments.map (fun x =>
        if x.ID = ({ a with TicketID := some tid } : Appointment).ID then
          { a with TicketID := some tid } else x)) := rfl
  have hlinked : storedAppointment (replaceAppointment st { a with TicketID := some tid }) a.ID =
      some { a with TicketID := some tid } :=
    find?_map_key (fun x : Appointment => x.ID) st.appointments a.ID
      { a with TicketID := some tid } rfl ⟨a, hmem, rfl⟩
  rw [← hsame] at hframe
  rw [hframe] at hrun
  rcases hrev : f.appointmentRevert with _ | _
  · have hback := appointmentRepoUpdate_found
      (replaceAppointment st { a with TicketID := some tid }) a { a with TicketID := some tid }
      hlinked h0
    rw [replaceAppointment_twice st { a with TicketID := some tid } a rfl] at hback
    rw [hrev, hback.1] at hrun
    rw [hrun]
    refine ⟨rfl, fun _ => ⟨rfl, ?_, rfl⟩, fun h => (by cases h)⟩
    rw [hback.2, ha]
  · have hfail : appointmentRepo.Update true
        (replaceAppointment st { a with TicketID := some tid }) a = .error .storeFailure := by
      simp only [appointmentRepo.Update, if_true]
    rw [hrev, hfail] at hrun
    rw [hrun]
    exact ⟨rfl, fun h => (by cases h), fun _ => hlinked⟩

/-- The ticket write of `clinicStore` fails; the appointment 1 is written back
without ticket reference. -/
theorem confirmAppointment_compensates_witness :
    (ConfirmAppointment { Faults.none with ticketUpdate := true } clinicStore 1 1).1 =
      .error (.ticketStatusUpdateFailed .storeFailure) ∧
    storedAppointment
      (ConfirmAppointment { Faults.none with ticketUpdate := true } clinicStore 1 1).2 1 =
      storedAppointment clinicStore 1 :=
  ⟨(confirmAppointment_compensates { Faults.none with ticketUpdate := true } clinicStore 1 1
      { ID := 1, ScheduleID := 11, PatientID := some 2, TicketID := none, CreatedAt := 0 }
      (waitingTicket 1 ['A', '0', '0', '1'] 5) .storeFailure rfl rfl rfl (by decide) (by decide)
      rfl (by decide) (by decide) (by decide)).1,
   ((confirmAppointment_compensates { Faults.none with ticketUpdate := true } clinicStore 1 1
      { ID := 1, ScheduleID := 11, PatientID := some 2, TicketID := none, CreatedAt := 0 }
      (waitingTicket 1 ['A', '0', '0', '1'] 5) .storeFailure rfl rfl rfl (by decide) (by decide)
      rfl (by decide) (by decide) (by decide)).2.1 rfl).2.1⟩

end ElectronicQueue

namespace ElectronicQueue

/-! ## Check-in by phone -/

theorem firstUpcoming_spec (rows : List UpcomingRow) :
    ∀ r, firstUpcoming rows = some r → r ∈ rows ∧ ∀ y ∈ rows, r.startTime ≤ y.startTime := by
  induction rows with
  | nil => intro r h; cases h
  | cons x xs ih =>
    intro r h
    simp only [firstUpcoming] at h
    rcases hb : firstUpcoming xs with _ | best
    · rw [hb] at h
      simp only [Option.some.injEq] at h
      subst h
      have hnil : xs = [] := by
        cases xs with
        | nil => rfl
        | cons y ys =>
          simp only [firstUpcoming] at hb
          split at hb
          · split_ifs at hb
          · cases hb
      subst hnil
      exact ⟨List.mem_cons_self _ _, fun y hy => by
        rcases List.mem_cons.1 hy with rfl | hy
        · exact Nat.le_refl _
        · cases hy⟩
    · rw [hb] at h
      obtain ⟨hmem, hmin⟩ := ih best hb
      by_cases hlt : upcomingBefore best x
      · simp only [hlt, if_true, Option.some.injEq] at h
        subst h
        refine ⟨List.mem_cons_of_mem _ hmem, fun y hy => ?_⟩
        rcases List.mem_cons.1 hy with rfl | hy
        · unfold upcomingBefore at hlt; omega
        · exact hmin y hy
      · simp only [hlt, if_false, Option.some.injEq] at h
        subst h
        refine ⟨List.mem_cons_self _ _, fun y hy => ?_⟩
        rcases List.mem_cons.1 hy with rfl | hy
        · exact Nat.le_refl _
        · have h1 := hmin y hy
          have h2 : x.startTime ≤ best.startTime := by
            unfold upcomingBefore at hlt
            omega
          omega

theorem firstUpcoming_eq_none (rows : List UpcomingRow) :
    firstUpcoming rows = none ↔ rows = [] := by
  constructor
  · intro h
    cases rows with
    | nil => rfl
    | cons y ys =>
      simp only [firstUpcoming] at h
      split at h
      · split_ifs at h
      · cases h
  · intro h; subst h; rfl

theorem upcomingRows_mem (st : Store) (pid today : Nat) (r : UpcomingRow)
    (h : r ∈ upcomingRows st pid today) :
    r.appointment ∈ st.appointments ∧ r.appointment.PatientID = some pid ∧
      r.appointment.TicketID = none ∧
      ∃ s ∈ st.schedules, s.ID = r.appointment.ScheduleID ∧ s.Date = today ∧
        s.StartTime = r.startTime := by
  simp only [upcomingRows, List.mem_flatMap, List.mem_filter, List.mem_map,
    decide_eq_true_eq] at h
  obtain ⟨a, ⟨ha, hp, ht⟩, s, ⟨hs, hid, hd⟩, hr⟩ := h
  subst hr
  exact ⟨ha, hp, ht, s, hs, hid, hd, rfl⟩

end ElectronicQueue

namespace ElectronicQueue

theorem CheckInByPhone_attach (st : Store) (now : WallClock) (created : Int) (phone : Str)
    (p : Patient) (r : UpcomingRow) (num : Str)
    (hfind : firstPatient (st.patients.filter
      (fun p => decide (sanitizePhone p.Phone = sanitizePhone phone))) = some p)
    (hfirst : firstUpcoming (upcomingRows st p.ID now.date) = some r)
    (hnum : generateTicketNumber Faults.none st "confirm_appointment" = .ok num)
    (hfresh : ∀ t ∈ st.tickets, t.TicketNumber ≠ num) (hid : r.appointment.ID ≠ 0) :
    CheckInByPhone Faults.none st now created phone =
      (.ok (checkInTicket st num created),
        attachTicket st r.appointment (checkInTicket st num created)) := by
  have hany : st.tickets.any (fun x => decide (x.TicketNumber = num)) = false := by
    rw [List.any_eq_false]
    intro t ht
    simpa using hfresh t ht
  have hf : Faults.none.patientFind = false ∧ Faults.none.upcomingFind = false ∧
      Faults.none.ticketCreate = false ∧ Faults.none.appointmentLink = false :=
    ⟨rfl, rfl, rfl, rfl⟩
  simp only [CheckInByPhone, patientRepo.FindByPhone, hf.1, Bool.false_eq_true, if_false, hfind,
    appointmentRepo.FindUpcomingByPatientID, hf.2.1, hfirst, hnum,
    appointmentRepo.AssignTicketToAppointment, ticketRepo.Create, hf.2.2.1, insertTicket, hany,
    ne_eq, not_true_eq_false, false_and, if_true, hf.2.2.2, hid, checkInTicket, attachTicket]

/-- The behaviour of `CheckInByPhone` when no repository call fails: the
patient-not-found error when no stored patient has the normalised phone, and
the other, no-upcoming-appointment error when the patient found has no
appointment without ticket on a slot dated today, the store unchanged in both
cases. Otherwise, when the ticket number is generated and unused, the new
ticket is attached to a ticketless appointment of the patient dated today
whose slot starts no later than that of any other such appointment, whether
or not the start time has passed. -/
theorem checkInByPhone_nearest (st : Store) (now : WallClock) (created : Int) (phone : Str) :
    ((∀ p ∈ st.patients, sanitizePhone p.Phone ≠ sanitizePhone phone) →
      CheckInByPhone Faults.none st now created phone = (.error .patientNotFound, st)) ∧
    (∀ p, firstPatient (st.patients.filter
        (fun p => decide (sanitizePhone p.Phone = sanitizePhone phone))) = some p →
      upcomingRows st p.ID now.date = [] →
      CheckInByPhone Faults.none st now created phone = (.error .noUpcomingAppointment, st)) ∧
    Error.patientNotFound ≠ Error.noUpcomingAppointment ∧
    (∀ p num, firstPatient (st.patients.filter
        (fun p => decide (sanitizePhone p.Phone = sanitizePhone phone))) = some p →
      upcomingRows st p.ID now.date ≠ [] →
      generateTicketNumber Faults.none st "confirm_appointment" = .ok num →
      (∀ t ∈ st.tickets, t.TicketNumber ≠ num) → (∀ a ∈ st.appointments, a.ID ≠ 0) →
      ∃ r, r ∈ upcomingRows st p.ID now.date ∧
        (∀ y ∈ upcomingRows st p.ID now.date, r.startTime ≤ y.startTime) ∧
        CheckInByPhone Faults.none st now created phone =
          (.ok (checkInTicket st num created),
            attachTicket st r.appointment (checkInTicket st num created))) := by
  refine ⟨fun hno => ?_, fun p hfind hrows => ?_, by decide,
    fun p num hfind hrows hnum hfresh hids => ?_⟩
  · have hnil : st.patients.filter
        (fun p => decide (sanitizePhone p.Phone = sanitizePhone phone)) = [] := by
      rw [List.filter_eq_nil_iff]
      intro p hp
      simpa using hno p hp
    have hfind : firstPatient (st.patients.filter
        (fun p => decide (sanitizePhone p.Phone = sanitizePhone phone))) = none := by
      rw [hnil]; rfl
    simp [CheckInByPhone, patientRepo.FindByPhone, Faults.none, hfind]
  · have hfirst : firstUpcoming (upcomingRows st p.ID now.date) = none := by
      rw [hrows]; rfl
    simp [CheckInByPhone, patientRepo.FindByPhone, Faults.none, hfind,
      appointmentRepo.FindUpcomingByPatientID, hfirst]
  · rcases hfirst : firstUpcoming (upcomingRows st p.ID now.date) with _ | r
    · exact absurd ((firstUpcoming_eq_none _).1 hfirst) hrows
    · obtain ⟨hmem, hmin⟩ := firstUpcoming_spec _ r hfirst
      have hid : r.appointment.ID ≠ 0 := hids _ (upcomingRows_mem st p.ID now.date r hmem).1
      exact ⟨r, hmem, hmin,
        CheckInByPhone_attach st now created phone p r num hfind hfirst hnum hfresh hid⟩

/-- The second patient of `clinicStore` checks in at noon. -/
theorem checkInByPhone_nearest_witness :
    ∃ r, r ∈ upcomingRows clinicStore 2 noonWall.date ∧
      (∀ y ∈ upcomingRows clinicStore 2 noonWall.date, r.startTime ≤ y.startTime) ∧
      CheckInByPhone Faults.none clinicStore noonWall 9 "8 913 000 33 44".toList =
        (.ok (checkInTicket clinicStore ['B', '0', '0', '1'] 9),
          attachTicket clinicStore r.appointment
            (checkInTicket clinicStore ['B', '0', '0', '1'] 9)) :=
  (checkInByPhone_nearest clinicStore noonWall 9 "8 913 000 33 44".toList).2.2.2
    { ID := 2, PassportSeries := "1234", PassportNumber := "567891", FullName := "B",
      BirthDate := 0, Phone := "8-913-000-33-44".toList, OmsNumber := "2" }
    ['B', '0', '0', '1'] (by decide) (by decide) (by decide) (by decide) (by decide)

/-- C19, what the code does: at noon the second patient of `clinicStore` has an
appointment without ticket whose slot starts at 15:00, not before now, and one
whose slot started at 08:00. `CheckInByPhone` attaches the new ticket to the
08:00 appointment, which is not upcoming, and leaves the 15:00 appointment,
the nearest upcoming one, without ticket. -/
theorem checkInByPhone_takes_started_slot :
    specUpcoming clinicStore 2 noonWall
      { appointment := { ID := 1, ScheduleID := 11, PatientID := some 2, TicketID := none,
                         CreatedAt := 0 }
        startTime := 54000000000 } ∧
    ¬ specUpcoming clinicStore 2 noonWall
      { appointment := { ID := 2, ScheduleID := 12, PatientID := some 2, TicketID := none,
                         CreatedAt := 0 }
        startTime := 28800000000 } ∧
    (CheckInByPhone Faults.none clinicStore noonWall 9 "8 913 000 33 44".toList).1 =
      .ok (checkInTicket clinicStore ['B', '0', '0', '1'] 9) ∧
    storedAppointment
      (CheckInByPhone Faults.none clinicStore noonWall 9 "8 913 000 33 44".toList).2 2 =
      some { ID := 2, ScheduleID := 12, PatientID := some 2, TicketID := some 3, CreatedAt := 0 } ∧
    storedAppointment
      (CheckInByPhone Faults.none clinicStore noonWall 9 "8 913 000 33 44".toList).2 1 =
      some { ID := 1, ScheduleID := 11, PatientID := some 2, TicketID := none, CreatedAt := 0 } := by
  decide

end ElectronicQueue

namespace ElectronicQueue

/-! ## Numbers in announcements -/

theorem head?_digit_not_sign (ds : Str) (hall : ∀ c ∈ ds, isDigitChar c = true) :
    ¬ (ds.head? = some '-' ∨ ds.head? = some '+') := by
  cases ds with
  | nil => simp
  | cons c cs =>
    have hc := hall c (List.mem_cons_self _ _)
    simp only [List.head?_cons, Option.some.injEq]
    rintro (h | h) <;> subst h <;> revert hc <;> decide

theorem Atoi_digits (ds : Str) (hne : ds ≠ []) (hall : ∀ c ∈ ds, isDigitChar c = true)
    (hr : digitsValue ds ≤ 9223372036854775807) :
    strconv.Atoi ds = some (digitsValue ds : Int) := by
  have hsign := head?_digit_not_sign ds hall
  have hminus : ¬ ds.head? = some '-' := fun h => hsign (Or.inl h)
  have hall2 : ds.all isDigitChar = true := List.all_eq_true.2 hall
  unfold strconv.Atoi
  have hplus : ¬ ds.head? = some '+' := fun h => hsign (Or.inr h)
  simp only [hminus, hplus, or_self, if_false, hne, hall2, Bool.true_eq_false, decide_False,
    Bool.false_eq_true]
  rw [if_pos (by omega)]

theorem Atoi_Itoa (n : Nat) (hr : n ≤ 9223372036854775807) :
    strconv.Atoi (strconv.Itoa (n : Int)) = some (n : Int) := by
  have h : strconv.Itoa (n : Int) = fmtDigits n := by
    unfold strconv.Itoa
    rw [if_neg (by omega)]
    rfl
  rw [h]
  have := Atoi_digits (fmtDigits n) (fmtDigits_ne_nil n) (fmtDigits_all_digits n)
    (by rw [digitsValue_fmtDigits]; exact hr)
  rw [digitsValue_fmtDigits] at this
  exact this

theorem Atoi_range (s : Str) (v : Int) (h : strconv.Atoi s = some v) :
    -9223372036854775808 ≤ v ∧ v ≤ 9223372036854775807 := by
  unfold strconv.Atoi at h
  simp only at h
  split_ifs at h <;> simp only [Option.some.injEq] at h <;> (rw [← h]; assumption)

theorem getNumberFiles_ok (join : Str → Str → Str) (number audioDir : Str) (n : Int)
    (hn : strconv.Atoi number = some n) (h1 : 1 ≤ n) (h99 : n ≤ 99) :
    getNumberFiles join number audioDir =
      if n ≤ 20 then .ok [join audioDir (strconv.Itoa n ++ ".wav".toList)]
      else if n % 10 > 0 then
        .ok [join audioDir (strconv.Itoa (10 * (n / 10)) ++ ".wav".toList),
             join audioDir (strconv.Itoa (n % 10) ++ ".wav".toList)]
      else .ok [join audioDir (strconv.Itoa (10 * (n / 10)) ++ ".wav".toList)] := by
  unfold getNumberFiles
  simp only [hn]
  rw [if_neg (by omega)]
  have hc : n / 10 * 10 = 10 * (n / 10) := by omega
  by_cases h20 : n ≤ 20
  · simp only [h20, if_true]
  · simp only [h20, if_false, hc]
    by_cases h0 : n % 10 > 0
    · simp only [h0, if_true, List.singleton_append]
    · simp only [h0, if_false]

theorem getNumberFiles_outside (join : Str → Str → Str) (number audioDir : Str)
    (h : strconv.Atoi number = none ∨ ∃ n, strconv.Atoi number = some n ∧ (n < 1 ∨ 99 < n)) :
    getNumberFiles join number audioDir = .error .conversion ∨
      getNumberFiles join number audioDir = .error .outOfRange := by
  unfold getNumberFiles
  rcases h with h | ⟨n, h, hn⟩
  · left; simp only [h]
  · right; simp only [h]; rw [if_pos (by omega)]

end ElectronicQueue

namespace ElectronicQueue

/-- C29: `getNumberFiles` succeeds exactly when `Atoi` reads the string as an
integer from 1 to 99; up to 20 the result is the file of the number, above 20
the file of the tens followed, when the ones are not zero, by the file of the
ones. `GenerateAnnouncementWav` therefore returns an error that does not depend
on the steps reading audio files when the digits of the ticket number denote 0
or at least 100, and when the window number is not an integer from 1 to 99. -/
theorem getNumberFiles_range (join : Str → Str → Str) (number audioDir : Str) :
    ((∃ files, getNumberFiles join number audioDir = .ok files) ↔
      ∃ n, strconv.Atoi number = some n ∧ 1 ≤ n ∧ n ≤ 99) ∧
    (∀ n, strconv.Atoi number = some n → 1 ≤ n → n ≤ 99 →
      getNumberFiles join number audioDir =
        if n ≤ 20 then .ok [join audioDir (strconv.Itoa n ++ ".wav".toList)]
        else if n % 10 > 0 then
          .ok [join audioDir (strconv.Itoa (10 * (n / 10)) ++ ".wav".toList),
               join audioDir (strconv.Itoa (n % 10) ++ ".wav".toList)]
        else .ok [join audioDir (strconv.Itoa (10 * (n / 10)) ++ ".wav".toList)]) ∧
    (∀ (upper : Char → Char) (ticket window : Str) (bg : Bool),
      ((∃ c digits, ticket.map upper = c :: digits ∧ isUpperLetter c = true ∧ digits ≠ [] ∧
          (∀ d ∈ digits, isDigitChar d = true) ∧
          (digitsValue digits = 0 ∨ 100 ≤ digitsValue digits)) ∨
        strconv.Atoi window = none ∨
        ∃ w, strconv.Atoi window = some w ∧ (w < 1 ∨ 99 < w)) →
      ∃ e, ∀ render,
        GenerateAnnouncementWav upper join render ticket window audioDir bg = .error e) := by
  refine ⟨⟨?_, ?_⟩, fun n hn h1 h99 => getNumberFiles_ok join number audioDir n hn h1 h99, ?_⟩
  · rintro ⟨files, hfiles⟩
    rcases hat : strconv.Atoi number with _ | n
    · rcases getNumberFiles_outside join number audioDir (Or.inl hat) with h | h <;>
        rw [h] at hfiles <;> cases hfiles
    · by_cases hr : 1 ≤ n ∧ n ≤ 99
      · exact ⟨n, rfl, hr.1, hr.2⟩
      · rcases getNumberFiles_outside join number audioDir
            (Or.inr ⟨n, hat, by omega⟩) with h | h <;>
          rw [h] at hfiles <;> cases hfiles
  · rintro ⟨n, hn, h1, h99⟩
    rw [getNumberFiles_ok join number audioDir n hn h1 h99]
    split_ifs <;> exact ⟨_, rfl⟩
  · intro upper ticket window bg hcase
    rcases hcase with ⟨c, digits, hmap, hc, hne, hall, hval⟩ | hwin
    · have hall2 : digits.all isDigitChar = true := List.all_eq_true.2 hall
      by_cases hbig : digitsValue digits ≤ 9223372036854775807
      · have hat := Atoi_digits digits hne hall hbig
        have hparse : parseTicketNumber upper ticket =
            .ok ([c], strconv.Itoa (digitsValue digits : Int)) := by
          simp [parseTicketNumber, hmap, hc, hne, hall2, hat]
        have hfiles : getNumberFiles join (strconv.Itoa (digitsValue digits : Int)) audioDir =
            .error .outOfRange := by
          unfold getNumberFiles
          simp only [Atoi_Itoa _ hbig]
          rw [if_pos (by omega)]
        exact ⟨.numberFiles .outOfRange, fun render => by
          simp only [GenerateAnnouncementWav, hparse, hfiles]⟩
      · have hat : strconv.Atoi digits = none := by
          have hsign := head?_digit_not_sign digits hall
          have hminus : ¬ digits.head? = some '-' := fun h => hsign (Or.inl h)
          have hplus : ¬ digits.head? = some '+' := fun h => hsign (Or.inr h)
          unfold strconv.Atoi
          simp only [hminus, hplus, or_self, if_false, hne, hall2, Bool.true_eq_false,
            decide_False, Bool.false_eq_true]
          rw [if_neg (by omega)]
        have hparse : parseTicketNumber upper ticket = .error .conversion := by
          simp [parseTicketNumber, hmap, hc, hne, hall2, hat]
        exact ⟨.ticketParse .conversion, fun render => by
          simp only [GenerateAnnouncementWav, hparse]⟩
    · have hw := getNumberFiles_outside join window audioDir hwin
      rcases hparse : parseTicketNumber upper ticket with e | ⟨letter, num⟩
      · exact ⟨.ticketParse e, fun render => by simp only [GenerateAnnouncementWav, hparse]⟩
      · rcases hnum : getNumberFiles join num audioDir with e | files
        · exact ⟨.numberFiles e, fun render => by
            simp only [GenerateAnnouncementWav, hparse, hnum]⟩
        · rcases hw with hw | hw
          · exact ⟨.windowFiles .conversion, fun render => by
              simp only [GenerateAnnouncementWav, hparse, hnum, hw]⟩
          · exact ⟨.windowFiles .outOfRange, fun render => by
              simp only [GenerateAnnouncementWav, hparse, hnum, hw]⟩

/-- The ticket `A100`, which `generateTicketNumber` can issue, is not announced. -/
theorem getNumberFiles_range_witness :
    getNumberFiles slashJoin "42".toList "audio".toList =
      .ok ["audio/40.wav".toList, "audio/2.wav".toList] ∧
    ∃ e, ∀ render, GenerateAnnouncementWav asciiUpper slashJoin render "A100".toList
      "3".toList "audio".toList false = .error e :=
  ⟨((getNumberFiles_range slashJoin "42".toList "audio".toList).2.1 42 (by decide) (by decide)
      (by decide)).trans (by decide),
   (getNumberFiles_range slashJoin "100".toList "audio".toList).2.2 asciiUpper "A100".toList
     "3".toList false
     (Or.inl ⟨'A', "100".toList, by decide, by decide, by decide, by decide, by decide⟩)⟩

end ElectronicQueue

namespace ElectronicQueue

/-! ## Issued ticket numbers are read back by the announcement -/

theorem likeLiteral_upperLetter (c : Char) (h : isUpperLetter c = true) :
    likeLiteral [c] = true := by
  simp only [isUpperLetter, Bool.and_eq_true, decide_eq_true_eq] at h
  have h1 : c ≠ '%' := by rintro rfl; revert h; decide
  have h2 : c ≠ '_' := by rintro rfl; revert h; decide
  have h3 : c ≠ Char.ofNat 92 := by rintro rfl; revert h; decide
  simp [likeLiteral, h1, h2, h3]

theorem threeDigits_digits (n : Nat) (h : n < 1000) :
    threeDigits n ≠ [] ∧ (∀ c ∈ threeDigits n, isDigitChar c = true) ∧
      digitsValue (threeDigits n) = n := by
  rw [← fmt03d_threeDigits n h]
  have hn : ¬ (n : Int) < 0 := by omega
  unfold fmt03d
  simp only [hn, if_false, Int.toNat_ofNat]
  exact ⟨padZeros_ne_nil _ _ (fmtDigits_ne_nil _),
    padZeros_all_digits _ _ (fmtDigits_all_digits _),
    by rw [digitsValue_padZeros, digitsValue_fmtDigits]⟩

theorem parseTicketNumber_issued (upper : Char → Char) (letter : Char) (n : Nat)
    (hL : isUpperLetter letter = true) (hn : n < 1000)
    (hup : ∀ c, isUpperLetter c = true ∨ isDigitChar c = true → upper c = c) :
    parseTicketNumber upper (letter :: threeDigits n) = .ok ([letter], strconv.Itoa (n : Int)) := by
  obtain ⟨hne, hall, hval⟩ := threeDigits_digits n hn
  have hmap : (letter :: threeDigits n).map upper = letter :: threeDigits n := by
    rw [List.map_cons, hup letter (Or.inl hL)]
    congr 1
    conv_rhs => rw [← List.map_id (threeDigits n)]
    apply List.map_congr_left
    intro c hc
    exact hup c (Or.inr (hall c hc))
  have hat := Atoi_digits (threeDigits n) hne hall (by rw [hval]; omega)
  rw [hval] at hat
  have hall2 : (threeDigits n).all isDigitChar = true := List.all_eq_true.2 hall
  simp [parseTicketNumber, hmap, hL, hne, hall2, hat]

theorem GetMaxTicketNumberForPrefix_issued (f : Faults) (st : Store) (letter : Char)
    (hf : f.maxNumber = false) (hL : isUpperLetter letter = true)
    (hfmt : ∀ t ∈ st.tickets, t.TicketNumber.head? = some letter →
      ∃ k, 1 ≤ k ∧ k ≤ 999 ∧ t.TicketNumber = letter :: threeDigits k) :
    ∃ m : Int, ticketRepo.GetMaxTicketNumberForPrefix f st [letter] = .ok m ∧ 0 ≤ m ∧ m ≤ 999 := by
  have hlike := ticketsLike_letter st letter (likeLiteral_upperLetter letter hL)
  have hcast : ∀ t ∈ ticketsLike st [letter],
      ∃ k : Nat, 1 ≤ k ∧ k ≤ 999 ∧ castInteger (t.TicketNumber.drop 1) = some (k : Int) := by
    intro t ht
    rw [hlike] at ht
    obtain ⟨hmem, hhead⟩ := List.mem_filter.1 ht
    obtain ⟨k, h1, h2, hk⟩ := hfmt t hmem (by simpa using hhead)
    refine ⟨k, h1, h2, ?_⟩
    rw [hk, List.drop_one, List.tail_cons, ← fmt03d_threeDigits k (by omega)]
    exact castInteger_fmt03d _ (by omega) (by omega)
  have hall : castAll ((ticketsLike st [letter]).map (fun t => t.TicketNumber.drop 1)) =
      some ((ticketsLike st [letter]).map
        (fun t => (castInteger (t.TicketNumber.drop 1)).getD 0)) := by
    rw [castAll_eq_some, List.map_map, List.map_map]
    apply List.map_congr_left
    intro t ht
    obtain ⟨k, _, _, hk⟩ := hcast t ht
    simp only [Function.comp, hk, Option.getD_some]
  unfold ticketRepo.GetMaxTicketNumberForPrefix
  simp only [hf, Bool.false_eq_true, if_false, hall]
  refine ⟨_, rfl, ?_⟩
  rcases hmax : sqlMax ((ticketsLike st [letter]).map
      (fun t => (castInteger (t.TicketNumber.drop 1)).getD 0)) with _ | m
  · rw [hmax]; simp
  · obtain ⟨hm, _⟩ := sqlMax_spec _ m hmax
    obtain ⟨t, ht, htm⟩ := List.mem_map.1 hm
    obtain ⟨k, h1, h2, hk⟩ := hcast t ht
    rw [hk] at htm
    rw [hmax]
    simp only [Option.getD_some] at htm ⊢
    omega

theorem insertTicket_number {st st1 : Store} {t t1 : Ticket}
    (h : insertTicket st t = .ok (t1, st1)) :
    st1.tickets = st.tickets ++ [t1] ∧ t1.TicketNumber = t.TicketNumber := by
  unfold insertTicket at h
  split_ifs at h <;> simp only [Except.ok.injEq, Prod.mk.injEq, reduceCtorEq] at h <;>
    (obtain ⟨h1, h2⟩ := h; subst h1; subst h2; exact ⟨rfl, rfl⟩)

theorem AssignTicketToAppointment_number {f : Faults} {st st1 : Store} {a : Appointment}
    {t t1 : Ticket} (h : appointmentRepo.AssignTicketToAppointment f st a t = .ok (t1, st1)) :
    st1.tickets = st.tickets ++ [t1] ∧ t1.TicketNumber = t.TicketNumber := by
  unfold appointmentRepo.AssignTicketToAppointment ticketRepo.Create at h
  by_cases hc : f.ticketCreate = true
  · simp only [hc, if_true, reduceCtorEq] at h
  · rw [if_neg hc] at h
    rcases hi : insertTicket st t with e | r
    · rw [hi] at h
      cases h
    · obtain ⟨t2, st2⟩ := r
      obtain ⟨h1, h2⟩ := insertTicket_number hi
      rw [hi] at h
      dsimp only at h
      split_ifs at h
      simp only [Except.ok.injEq, Prod.mk.injEq] at h
      obtain ⟨ht, hst⟩ := h
      subst ht
      subst hst
      exact ⟨h1, h2⟩

/-- A successful `CheckInByPhone` appends one ticket, whose number is the one
`generateTicketNumber` gives for the service `confirm_appointment`. -/
theorem CheckInByPhone_issues {f : Faults} {st st1 : Store} {now : WallClock} {created : Int}
    {phone : Str} {t1 : Ticket}
    (h : CheckInByPhone f st now created phone = (.ok t1, st1)) :
    generateTicketNumber f st "confirm_appointment" = .ok t1.TicketNumber ∧
      st1.tickets = st.tickets ++ [t1] := by
  rcases hp : patientRepo.FindByPhone f st (sanitizePhone phone) with e | patient
  · simp only [CheckInByPhone, hp] at h
    split_ifs at h <;> cases h
  · rcases ha : appointmentRepo.FindUpcomingByPatientID f st patient.ID now with e | appointment
    · simp only [CheckInByPhone, hp, ha] at h
      split_ifs at h <;> cases h
    · rcases hn : generateTicketNumber f st "confirm_appointment" with e | number
      · simp only [CheckInByPhone, hp, ha, hn] at h
        cases h
      · rcases hat : appointmentRepo.AssignTicketToAppointment f st appointment
            { ID := 0, TicketNumber := number, Status := StatusWaiting,
              ServiceType := some "confirm_appointment", WindowNumber := none, QRCode := [],
              CreatedAt := created, CalledAt := none, StartedAt := none,
              CompletedAt := none } with e | r
        · simp only [CheckInByPhone, hp, ha, hn, hat] at h
          cases h
        · obtain ⟨t2, st2⟩ := r
          obtain ⟨h1, h2⟩ := AssignTicketToAppointment_number hat
          simp only [CheckInByPhone, hp, ha, hn, hat, Prod.mk.injEq, Except.ok.injEq] at h
          obtain ⟨ht, hst⟩ := h
          subst ht
          subst hst
          exact ⟨by rw [h2], h1⟩

/-- C30, the claim fails: with the ticket `A-05` stored, `generateTicketNumber`
for the service with the letter `A` gives `A-04`, and `CreateTicket` issues
it: the letter is not followed by three decimal digits, the suffix is not a
number from 1 to 999, and `parseTicketNumber` answers with an error. -/
theorem ticketNumber_outside_format :
    generateTicketNumber Faults.none signedStore "make_appointment" =
      .ok ['A', '-', '0', '4'] ∧
    ((CreateTicket Faults.none signedStore 9 "make_appointment").1.map
      (fun t => t.TicketNumber)) = .ok ['A', '-', '0', '4'] ∧
    (['-', '0', '4'] : Str).all isDigitChar = false ∧
    castInteger ['-', '0', '4'] = some (-4) ∧
    parseTicketNumber asciiUpper ['A', '-', '0', '4'] =
      .error (.badTicketFormat ['A', '-', '0', '4']) := by
  decide

/-- C30 (amended): in a store in which every ticket number that begins with
the letter is that letter followed by the three digits of a number from 1 to
999, `generateTicketNumber` for a service with that letter, one of `A`..`Z`,
returns the letter followed by the three digits of a number `n` from 1 to 999,
and `parseTicketNumber` reads that string as the letter and the decimal digits
of `n` without leading zeros. `CreateTicket` for the service, and
`CheckInByPhone` when the service is `confirm_appointment`, issue that number
and the store they leave is again such a store. -/
theorem ticketNumber_round_trip (f : Faults) (st : Store) (serviceID : String) (s : Service)
    (letter : Char) (upper : Char → Char)
    (hs : serviceRepo.GetByServiceID f st serviceID = .ok s) (hl : s.Letter = [letter])
    (hL : isUpperLetter letter = true) (hf : f.maxNumber = false)
    (hfmt : ∀ t ∈ st.tickets, t.TicketNumber.head? = some letter →
      ∃ k, 1 ≤ k ∧ k ≤ 999 ∧ t.TicketNumber = letter :: threeDigits k)
    (hup : ∀ c, isUpperLetter c = true ∨ isDigitChar c = true → upper c = c) :
    ∃ n : Nat, 1 ≤ n ∧ n ≤ 999 ∧
      generateTicketNumber f st serviceID = .ok (letter :: threeDigits n) ∧
      (threeDigits n).length = 3 ∧ (∀ c ∈ threeDigits n, isDigitChar c = true) ∧
      digitsValue (threeDigits n) = n ∧
      parseTicketNumber upper (letter :: threeDigits n) = .ok ([letter], fmtDigits n) ∧
      digitsValue (fmtDigits n) = n ∧ (fmtDigits n).head? ≠ some '0' ∧
      (∀ now t1 st1, CreateTicket f st now serviceID = (.ok t1, st1) →
        t1.TicketNumber = letter :: threeDigits n ∧
        ∀ t ∈ st1.tickets, t.TicketNumber.head? = some letter →
          ∃ k, 1 ≤ k ∧ k ≤ 999 ∧ t.TicketNumber = letter :: threeDigits k) ∧
      (serviceID = "confirm_appointment" →
        ∀ wall created phone t1 st1,
          CheckInByPhone f st wall created phone = (.ok t1, st1) →
          t1.TicketNumber = letter :: threeDigits n ∧
          ∀ t ∈ st1.tickets, t.TicketNumber.head? = some letter →
            ∃ k, 1 ≤ k ∧ k ≤ 999 ∧ t.TicketNumber = letter :: threeDigits k) := by
  obtain ⟨m, hm, h0, h999⟩ := GetMaxTicketNumberForPrefix_issued f st letter hf hL hfmt
  have hgen : generateTicketNumber f st serviceID =
      .ok ([letter] ++ fmt03d (if m + 1 ≥ maxTicketNumber then 1 else m + 1)) := by
    simp only [generateTicketNumber, hs, hl, hm]
  obtain ⟨n, hn1, hn2, hnum⟩ : ∃ n : Nat, 1 ≤ n ∧ n ≤ 999 ∧
      (if m + 1 ≥ maxTicketNumber then 1 else m + 1) = (n : Int) := by
    by_cases hwrap : m + 1 ≥ maxTicketNumber
    · exact ⟨1, by omega, by omega, by simp only [hwrap, if_true]; rfl⟩
    · refine ⟨(m + 1).toNat, by omega, ?_, ?_⟩
      · simp only [maxTicketNumber] at hwrap; omega
      · simp only [hwrap, if_false]; omega
  obtain ⟨_, hall, hval⟩ := threeDigits_digits n (by omega)
  have hparse := parseTicketNumber_issued upper letter n hL (by omega) hup
  have hitoa : strconv.Itoa (n : Int) = fmtDigits n := by
    unfold strconv.Itoa
    rw [if_neg (by omega)]
    rfl
  rw [hitoa] at hparse
  have hgen2 : generateTicketNumber f st serviceID = .ok (letter :: threeDigits n) := by
    rw [hgen, hnum, fmt03d_threeDigits n (by omega)]
    rfl
  have hkeep : ∀ (t1 : Ticket) (tickets : List Ticket),
      generateTicketNumber f st serviceID = .ok t1.TicketNumber →
      tickets = st.tickets ++ [t1] →
      t1.TicketNumber = letter :: threeDigits n ∧
      ∀ t ∈ tickets, t.TicketNumber.head? = some letter →
        ∃ k, 1 ≤ k ∧ k ≤ 999 ∧ t.TicketNumber = letter :: threeDigits k := by
    intro t1 tickets hg ht
    have hnumber : t1.TicketNumber = letter :: threeDigits n := by
      rw [hgen2] at hg
      exact (Except.ok.inj hg).symm
    refine ⟨hnumber, fun t hmem hh => ?_⟩
    rw [ht] at hmem
    rcases List.mem_append.mp hmem with hmem | hmem
    · exact hfmt t hmem hh
    · rw [List.mem_singleton.mp hmem]
      exact ⟨n, hn1, hn2, hnumber⟩
  refine ⟨n, hn1, hn2, hgen2, rfl, hall, hval, hparse, digitsValue_fmtDigits n, ?_, ?_, ?_⟩
  · intro hzero
    have hv := digitsValue_fmtDigits n
    by_cases hsmall : n < 10
    · rw [fmtDigits_small n hsmall] at hzero
      simp only [List.head?_cons, Option.some.injEq] at hzero
      have := digitChar_toNat n hsmall
      rw [hzero] at this
      have h48 : ('0' : Char).toNat = 48 := rfl
      omega
    · rw [fmtDigits_step n (by omega)] at hzero
      by_cases h2 : n / 10 < 10
      · rw [fmtDigits_small _ h2] at hzero
        simp only [List.singleton_append, List.head?_cons, Option.some.injEq] at hzero
        have := digitChar_toNat (n / 10) h2
        rw [hzero] at this
        have h48 : ('0' : Char).toNat = 48 := rfl
        omega
      · rw [fmtDigits_step (n / 10) (by omega), fmtDigits_small (n / 10 / 10) (by omega)] at hzero
        simp only [List.singleton_append, List.cons_append, List.head?_cons,
          Option.some.injEq] at hzero
        have := digitChar_toNat (n / 10 / 10) (by omega)
        rw [hzero] at this
        have h48 : ('0' : Char).toNat = 48 := rfl
        omega
  · intro now t1 st1 hc
    obtain ⟨hst, _, hg, _, _⟩ := (CreateTicket_store f st st1 now serviceID).1 t1 hc
    exact hkeep t1 st1.tickets hg (by rw [hst])
  · intro hid wall created phone t1 st1 hc
    obtain ⟨hg, hst⟩ := CheckInByPhone_issues hc
    exact hkeep t1 st1.tickets (by rw [hid]; exact hg) hst

/-- After `B007` the service `confirm_appointment` of `numberingStore` issues
`B008`, announced as letter `B` and number `8`. -/
theorem ticketNumber_round_trip_witness :
    ∃ n : Nat, 1 ≤ n ∧ n ≤ 999 ∧
      generateTicketNumber Faults.none numberingStore "confirm_appointment" =
        .ok ('B' :: threeDigits n) ∧
      (threeDigits n).length = 3 ∧ (∀ c ∈ threeDigits n, isDigitChar c = true) ∧
      digitsValue (threeDigits n) = n ∧
      parseTicketNumber asciiUpper ('B' :: threeDigits n) = .ok (['B'], fmtDigits n) ∧
      digitsValue (fmtDigits n) = n ∧ (fmtDigits n).head? ≠ some '0' ∧
      ∀ now t1 st1,
        CreateTicket Faults.none numberingStore now "confirm_appointment" = (.ok t1, st1) →
        t1.TicketNumber = 'B' :: threeDigits n := by
  obtain ⟨n, h1, h2, h3, h4, h5, h6, h7, h8, h9, h10, _⟩ :=
    ticketNumber_round_trip Faults.none numberingStore "confirm_appointment"
      { ID := 2, ServiceID := "confirm_appointment", Name := "B", Letter := ['B'] } 'B'
      asciiUpper
      (by decide) rfl (by decide) rfl
      (by
        intro t ht hh
        simp only [numberingStore, List.mem_cons, List.mem_singleton, List.not_mem_nil,
          or_false] at ht
        rcases ht with rfl | rfl | rfl
        · exact absurd hh (by decide)
        · exact absurd hh (by decide)
        · exact ⟨7, by decide, by decide, by decide⟩)
      (by
        intro c hc
        have hnot : ¬ (97 ≤ c.toNat ∧ c.toNat ≤ 122) := by
          simp only [isUpperLetter, isDigitChar, Bool.and_eq_true, decide_eq_true_eq] at hc
          omega
        have hnot2 : ¬ (c.toNat ≥ 97 ∧ c.toNat ≤ 122) := hnot
        simp only [asciiUpper, Char.toUpper, hnot2, if_false])
  exact ⟨n, h1, h2, h3, h4, h5, h6, h7, h8, h9, fun now t1 st1 hc => (h10 now t1 st1 hc).1⟩

end ElectronicQueue

namespace ElectronicQueue

/-! ## Stream steps ignore what they cannot use -/

/-- C27: for every payload received from an open subscription, both stream
steps keep the stream open. The reception step writes an event exactly when
the payload contains `ticket_number` and is decoded; the schedule step writes
the event `schedule_update` exactly when the payload contains `"operation"`
and is valid JSON; any other payload writes nothing. A step ends the stream
only for the closed subscription and for the done request context. -/
theorem stream_steps_tolerant {δ : Type} (unmarshal : Str → Option (Str × δ))
    (unmarshalRaw : Str → Option Str) (payload : Str) :
    (sseHandler.step unmarshal (.message payload)).1 = true ∧
    (GetTodayScheduleUpdates.step unmarshalRaw (.message payload)).1 = true ∧
    (∀ p, strings.Contains payload "ticket_number".toList = true → unmarshal payload = some p →
      (sseHandler.step unmarshal (.message payload)).2 = [(p.1, p.2)]) ∧
    ((strings.Contains payload "ticket_number".toList = false ∨ unmarshal payload = none) →
      (sseHandler.step unmarshal (.message payload)).2 = []) ∧
    (∀ raw, strings.Contains payload "\"operation\"".toList = true →
      unmarshalRaw payload = some raw →
      (GetTodayScheduleUpdates.step unmarshalRaw (.message payload)).2 =
        [("schedule_update".toList, raw)]) ∧
    ((strings.Contains payload "\"operation\"".toList = false ∨ unmarshalRaw payload = none) →
      (GetTodayScheduleUpdates.step unmarshalRaw (.message payload)).2 = []) ∧
    (∀ input, (sseHandler.step unmarshal input).1 = false ↔
      (input = .closed ∨ input = .cancelled)) ∧
    (∀ input, (GetTodayScheduleUpdates.step unmarshalRaw input).1 = false ↔
      (input = .closed ∨ input = .cancelled)) := by
  refine ⟨?_, ?_, ?_, ?_, ?_, ?_, ?_, ?_⟩
  · simp only [sseHandler.step]
    split_ifs
    · rfl
    · split <;> rfl
  · simp only [GetTodayScheduleUpdates.step]
    split_ifs
    · rfl
    · split <;> rfl
  · intro p hc hu
    simp only [sseHandler.step, hc, Bool.true_eq_false, if_false, hu]
  · rintro (hc | hu)
    · simp only [sseHandler.step, hc, if_true]
    · simp only [sseHandler.step]
      split_ifs
      · rfl
      · simp only [hu]
  · intro raw hc hu
    simp only [GetTodayScheduleUpdates.step, hc, Bool.true_eq_false, if_false, hu]
  · rintro (hc | hu)
    · simp only [GetTodayScheduleUpdates.step, hc, if_true]
    · simp only [GetTodayScheduleUpdates.step]
      split_ifs
      · rfl
      · simp only [hu]
  · intro input
    cases input with
    | message p =>
      simp only [reduceCtorEq, or_self, iff_false, Bool.not_eq_false]
      simp only [sseHandler.step]
      split_ifs
      · rfl
      · split <;> rfl
    | closed => simp [sseHandler.step]
    | cancelled => simp [sseHandler.step]
  · intro input
    cases input with
    | message p =>
      simp only [reduceCtorEq, or_self, iff_false, Bool.not_eq_false]
      simp only [GetTodayScheduleUpdates.step]
      split_ifs
      · rfl
      · split <;> rfl
    | closed => simp [GetTodayScheduleUpdates.step]
    | cancelled => simp [GetTodayScheduleUpdates.step]

/-- A payload with the key `operation` that is not valid JSON is dropped and
the stream goes on. -/
theorem stream_steps_tolerant_witness :
    (GetTodayScheduleUpdates.step bracedOnly (.message "\"operation\": broken".toList)) =
      (true, []) ∧
    (GetTodayScheduleUpdates.step bracedOnly
      (.message insertPayload)).2 =
      [("schedule_update".toList, insertPayload)] :=
  ⟨Prod.ext
      (stream_steps_tolerant (fun _ => (none : Option (Str × Unit))) bracedOnly
        "\"operation\": broken".toList).2.1
      ((stream_steps_tolerant (fun _ => (none : Option (Str × Unit))) bracedOnly
        "\"operation\": broken".toList).2.2.2.2.2.1 (Or.inr (by decide))),
   (stream_steps_tolerant (fun _ => (none : Option (Str × Unit))) bracedOnly
      insertPayload).2.2.2.2.1 _ (by decide) (by decide)⟩

end ElectronicQueue

namespace ElectronicQueue

/-! ## The log insert does not decide the call -/

theorem GetNextWaitingTicket_mem {f : Faults} {st : Store} {c : DBClock} {ps : List Str}
    {t : Ticket} (h : ticketRepo.GetNextWaitingTicket f st c ps = .ok t) : t ∈ st.tickets := by
  unfold ticketRepo.GetNextWaitingTicket at h
  split_ifs at h
  split at h
  · cases h
  · rename_i r hr
    simp only [Except.ok.injEq] at h
    subst h
    exact waitingRows_ticket_mem st c ps r (firstRow_spec c _ r hr).1

theorem CallNextTicket_fst (f : Faults) (st : Store) (c : DBClock) (now w : Int) (cat : Str)
    (reg : Nat) (prefixes : List Str) (t : Ticket) (r : Ticket × Store)
    (hp : registrarPrefixes f st cat reg = .ok prefixes)
    (hn : ticketRepo.GetNextWaitingTicket f st c prefixes = .ok t)
    (hu : ticketRepo.Update f st (invite t w now) = .ok r) :
    (CallNextTicket f st c now w cat reg).1 = .ok (invite t w now) := by
  obtain ⟨r1, r2⟩ := r
  obtain ⟨_, _, h1, _⟩ := ticketRepoUpdate_stored (x := t) (t := invite t w now)
    (GetNextWaitingTicket_mem hn) rfl rfl hu
  subst h1
  unfold invite at hu
  simp only [CallNextTicket, hp, hn, hu]
  split <;> rfl

theorem CallSpecificTicket_fst (f : Faults) (st : Store) (now : Int) (id : Nat) (w : Int)
    (t : Ticket) (r : Ticket × Store)
    (hg : ticketRepo.GetByID f st id = .ok t) (hs : t.Status = StatusWaiting)
    (hu : ticketRepo.Update f st (invite t w now) = .ok r) :
    (CallSpecificTicket f st now id w).1 = .ok (invite t w now) := by
  obtain ⟨r1, r2⟩ := r
  obtain ⟨_, hfind⟩ := ticketRepoGetByID_ok hg
  obtain ⟨_, _, h1, _⟩ := ticketRepoUpdate_stored (x := t) (t := invite t w now)
    (find?_ticket_mem hfind).1 rfl rfl hu
  subst h1
  unfold invite at hu
  simp only [CallSpecificTicket, hg, hs, ne_eq, not_true_eq_false, if_false, hu]
  split <;> rfl

/-- C28: once the registrar's prefixes are read, the next waiting ticket is
found and the ticket write succeeds, `CallNextTicket` returns the invited
ticket without error, whatever the reception-log insert does; the same holds
for `CallSpecificTicket` once the ticket is read with status waiting and the
ticket write succeeds. -/
theorem call_ignores_log_failure (f : Faults) (st : Store) (c : DBClock) (now w : Int)
    (cat : Str) (reg id : Nat) (logFails : Bool) :
    (∀ prefixes t r, registrarPrefixes f st cat reg = .ok prefixes →
      ticketRepo.GetNextWaitingTicket f st c prefixes = .ok t →
      ticketRepo.Update f st (invite t w now) = .ok r →
      (CallNextTicket { f with logCreate := logFails } st c now w cat reg).1 =
        .ok (invite t w now) ∧
      (invite t w now).Status = StatusInvited) ∧
    (∀ t r, ticketRepo.GetByID f st id = .ok t → t.Status = StatusWaiting →
      ticketRepo.Update f st (invite t w now) = .ok r →
      (CallSpecificTicket { f with logCreate := logFails } st now id w).1 =
        .ok (invite t w now) ∧
      (invite t w now).Status = StatusInvited) := by
  refine ⟨fun prefixes t r hp hn hu => ⟨?_, rfl⟩, fun t r hg hs hu => ⟨?_, rfl⟩⟩
  · exact CallNextTicket_fst { f with logCreate := logFails } st c now w cat reg prefixes t r
      hp hn hu
  · exact CallSpecificTicket_fst { f with logCreate := logFails } st now id w t r hg hs hu

/-- The waiting ticket 1 of `deskStore` is called although the log insert
fails. -/
theorem call_ignores_log_failure_witness :
    (CallSpecificTicket { Faults.none with logCreate := true } deskStore 300 1 5).1 =
      .ok (invite (waitingTicket 1 ['A', '0', '0', '1'] 10) 5 300) :=
  ((call_ignores_log_failure Faults.none deskStore noonClock 300 5 [] 7 1 true).2
    (waitingTicket 1 ['A', '0', '0', '1'] 10)
    (invite (waitingTicket 1 ['A', '0', '0', '1'] 10) 5 300,
      replaceTicket deskStore (invite (waitingTicket 1 ['A', '0', '0', '1'] 10) 5 300))
    (by decide) rfl (by decide)).1

end ElectronicQueue

namespace ElectronicQueue

/-! ## The doctor's screen -/

theorem earliestSlot_mem (l : List Schedule) : ∀ s, earliestSlot l = some s → s ∈ l := by
  induction l with
  | nil => intro s h; cases h
  | cons x xs ih =>
    intro s h
    simp only [earliestSlot] at h
    rcases hb : earliestSlot xs with _ | best
    · rw [hb] at h
      simp only [Option.some.injEq] at h
      subst h
      exact List.mem_cons_self _ _
    · rw [hb] at h
      dsimp only at h
      split_ifs at h <;> simp only [Option.some.injEq] at h <;> subst h
      · exact List.mem_cons_of_mem _ (ih _ hb)
      · exact List.mem_cons_self _ _

theorem earliestSlot_eq_none (l : List Schedule) : earliestSlot l = none ↔ l = [] := by
  constructor
  · intro h
    cases l with
    | nil => rfl
    | cons y ys =>
      simp only [earliestSlot] at h
      split at h
      · split_ifs at h
      · cases h
  · intro h; subst h; rfl

theorem FindFirstSchedule_cases (f : Faults) (st : Store) (today : Nat) (cab : Int) :
    (f.scheduleFind = true ∧
      scheduleRepo.FindFirstScheduleForCabinetByDay f st today cab =
        (some LoadedSchedule.zero, some .storeFailure)) ∨
    (f.scheduleFind = false ∧
      st.schedules.filter (fun s => decide (s.Cabinet = some cab ∧ s.Date = today)) = [] ∧
      scheduleRepo.FindFirstScheduleForCabinetByDay f st today cab =
        (some LoadedSchedule.zero, some .recordNotFound)) ∨
    (∃ slot, f.scheduleFind = false ∧ slot ∈ st.schedules ∧ slot.Cabinet = some cab ∧
      slot.Date = today ∧
      scheduleRepo.FindFirstScheduleForCabinetByDay f st today cab =
        (some (loadDoctor st slot), none)) := by
  by_cases hf : f.scheduleFind = true
  · left
    exact ⟨hf, by simp only [scheduleRepo.FindFirstScheduleForCabinetByDay, hf, if_true]⟩
  · have hf2 : f.scheduleFind = false := by simpa using hf
    right
    rcases he : earliestSlot (st.schedules.filter
        (fun s => decide (s.Cabinet = some cab ∧ s.Date = today))) with _ | slot
    · left
      exact ⟨hf2, (earliestSlot_eq_none _).1 he, by
        simp only [scheduleRepo.FindFirstScheduleForCabinetByDay, hf2, Bool.false_eq_true,
          if_false, he]⟩
    · right
      have hm := List.mem_filter.1 (earliestSlot_mem _ slot he)
      have hc : slot.Cabinet = some cab ∧ slot.Date = today := by simpa using hm.2
      exact ⟨slot, hf2, hm.1, hc.1, hc.2, by
        simp only [scheduleRepo.FindFirstScheduleForCabinetByDay, hf2, Bool.false_eq_true,
          if_false, he]⟩

theorem GetDoctorScreenState_error (f : Faults) (st : Store) (today : Nat) (cab : Int) :
    (GetDoctorScreenState f st today cab).2.2 =
      if (scheduleRepo.FindFirstScheduleForCabinetByDay f st today cab).2 ≠ none ∧
          (scheduleRepo.FindFirstScheduleForCabinetByDay f st today cab).2 ≠
            some .recordNotFound then
        (scheduleRepo.FindFirstScheduleForCabinetByDay f st today cab).2
      else none := by
  unfold GetDoctorScreenState
  rcases scheduleRepo.FindFirstScheduleForCabinetByDay f st today cab with ⟨schedule, err⟩
  dsimp only
  split_ifs
  · rfl
  · cases schedule with
    | none => rfl
    | some s => dsimp only; split <;> rfl

theorem cabinetQueueRows_nil (st : Store) (today : Nat) (cab : Int)
    (h : st.schedules.filter (fun s => decide (s.Cabinet = some cab ∧ s.Date = today)) = []) :
    cabinetQueueRows st today cab = [] := by
  have hno : ∀ s ∈ st.schedules, ¬ (s.Cabinet = some cab ∧ s.Date = today) := by
    intro s hs hc
    have : s ∈ st.schedules.filter (fun s => decide (s.Cabinet = some cab ∧ s.Date = today)) :=
      List.mem_filter.2 ⟨hs, by simpa using hc⟩
    rw [h] at this
    cases this
  unfold cabinetQueueRows
  simp only [List.flatMap_eq_nil_iff, List.map_eq_nil_iff, List.filter_eq_nil_iff,
    List.mem_filter, decide_eq_true_eq]
  intro t _ a _ s hs hc
  exact hno s hs ⟨hc.2.1, hc.2.2⟩

/-- C21, what the code does: when the lookup reports record-not-found,
`GetDoctorScreenState` returns no error and an empty queue, but the schedule it
returns is not nil: it is the zero-valued schedule behind the pointer the
repository always returns. -/
theorem getDoctorScreenState_not_found (f : Faults) (st : Store) (today : Nat) (cab : Int)
    (h : (scheduleRepo.FindFirstScheduleForCabinetByDay f st today cab).2 =
      some .recordNotFound) :
    GetDoctorScreenState f st today cab = (some LoadedSchedule.zero, [], none) ∧
      (GetDoctorScreenState f st today cab).1 ≠ none := by
  have hres : GetDoctorScreenState f st today cab = (some LoadedSchedule.zero, [], none) := by
    rcases FindFirstSchedule_cases f st today cab with ⟨_, h1⟩ | ⟨_, hnil, h1⟩ |
        ⟨slot, _, _, _, _, h1⟩
    · rw [h1] at h; cases h
    · have hq := cabinetQueueRows_nil st today cab hnil
      unfold GetDoctorScreenState
      rw [h1]
      simp only [ne_eq, reduceCtorEq, not_false_eq_true, not_true_eq_false, and_false, if_false,
        ticketRepo.FindTicketsForCabinetQueue, hq, List.insertionSort, List.map_nil]
      split_ifs <;> rfl
    · rw [h1] at h; cases h
  rw [hres]
  exact ⟨rfl, by simp⟩

/-- Cabinet 9 of `cabinetStore` has no slot: the schedule returned is the zero
value, not nil. -/
theorem getDoctorScreenState_not_found_witness :
    GetDoctorScreenState Faults.none cabinetStore 20000 9 =
      (some LoadedSchedule.zero, [], none) :=
  (getDoctorScreenState_not_found Faults.none cabinetStore 20000 9 (by decide)).1

theorem loadDoctor_doctor (st : Store) (slot : Schedule) (d : Doctor) (hd : d ∈ st.doctors)
    (hid : d.ID = slot.DoctorID) :
    (loadDoctor st slot).Doctor ∈ st.doctors ∧
      (loadDoctor st slot).Doctor.ID = slot.DoctorID ∧
      ((st.doctors.map (fun x => x.ID)).Nodup → (loadDoctor st slot).Doctor = d) := by
  unfold loadDoctor
  rcases hf : st.doctors.find? (fun x => decide (x.ID = slot.DoctorID)) with _ | d1
  · rw [List.find?_eq_none] at hf
    exact absurd (by simpa using hid) (hf d hd)
  · have hmem := List.mem_of_find?_eq_some hf
    have hid1 : d1.ID = slot.DoctorID := by simpa using List.find?_some hf
    simp only [hf, Option.getD_some]
    exact ⟨hmem, hid1, fun hnd =>
      List.inj_on_of_nodup_map hnd hmem hd (hid1.trans hid.symm)⟩

theorem loadDoctor_missing (st : Store) (slot : Schedule)
    (hno : ∀ d ∈ st.doctors, d.ID ≠ slot.DoctorID) :
    (loadDoctor st slot).Doctor = Doctor.zero := by
  unfold loadDoctor
  have hf : st.doctors.find? (fun x => decide (x.ID = slot.DoctorID)) = none := by
    rw [List.find?_eq_none]
    intro d hd
    simpa using hno d hd
  simp only [hf, Option.getD_none]

/-- C22: when the lookup finds a slot of the cabinet and the queue query fails,
`GetDoctorScreenState` returns the slot, an empty queue and no error. The slot
is a stored slot of the cabinet dated today, and the doctor returned with it
is a stored doctor whose id is the slot's `doctor_id` (the one such doctor
when the ids of the doctors are distinct). It returns an error exactly when
the lookup fails with an error other than record-not-found, and then that
error. -/
theorem getDoctorScreenState_queue_failure (f : Faults) (st : Store) (today : Nat) (cab : Int) :
    (∀ s e, scheduleRepo.FindFirstScheduleForCabinetByDay f st today cab = (some s, none) →
      ticketRepo.FindTicketsForCabinetQueue f st today cab = .error e →
      GetDoctorScreenState f st today cab = (some s, [], none) ∧
      (∃ slot ∈ st.schedules, slot.Cabinet = some cab ∧ slot.Date = today ∧
        s = loadDoctor st slot) ∧
      s.schedule ∈ st.schedules ∧ s.schedule.Cabinet = some cab ∧ s.schedule.Date = today ∧
      (∀ d ∈ st.doctors, d.ID = s.schedule.DoctorID →
        s.Doctor ∈ st.doctors ∧ s.Doctor.ID = s.schedule.DoctorID ∧
        ((st.doctors.map (fun x => x.ID)).Nodup → s.Doctor = d)) ∧
      ((∀ d ∈ st.doctors, d.ID ≠ s.schedule.DoctorID) → s.Doctor = Doctor.zero)) ∧
    (∀ e, (GetDoctorScreenState f st today cab).2.2 = some e ↔
      ((scheduleRepo.FindFirstScheduleForCabinetByDay f st today cab).2 = some e ∧
        e ≠ .recordNotFound)) := by
  refine ⟨fun s e hs hq => ?_, fun e => ?_⟩
  · have hslot : ∃ slot ∈ st.schedules, slot.Cabinet = some cab ∧ slot.Date = today ∧
        s = loadDoctor st slot := by
      rcases FindFirstSchedule_cases f st today cab with ⟨_, h1⟩ | ⟨_, _, h1⟩ |
          ⟨slot, _, hm, hc, hd, h1⟩
      · rw [h1] at hs; cases hs
      · rw [h1] at hs; cases hs
      · rw [h1] at hs
        simp only [Prod.mk.injEq, Option.some.injEq, and_true] at hs
        exact ⟨slot, hm, hc, hd, hs.symm⟩
    refine ⟨?_, hslot, ?_⟩
    · unfold GetDoctorScreenState
      rw [hs]
      simp only [ne_eq, not_true_eq_false, false_and, if_false, hq]
    · obtain ⟨slot, hm, hc, hd, rfl⟩ := hslot
      exact ⟨hm, hc, hd, fun d hdm hid => loadDoctor_doctor st slot d hdm hid,
        fun hno => loadDoctor_missing st slot hno⟩
  · rw [GetDoctorScreenState_error]
    rcases (scheduleRepo.FindFirstScheduleForCabinetByDay f st today cab).2 with _ | err
    · simp
    · by_cases hnf : err = .recordNotFound
      · subst hnf
        simp only [ne_eq, reduceCtorEq, not_false_eq_true, not_true_eq_false, and_false,
          if_false, Option.some.injEq, false_iff, not_and, not_not]
        intro h; exact h.symm
      · simp only [ne_eq, reduceCtorEq, not_false_eq_true, Option.some.injEq, hnf, and_self,
          if_true]
        constructor
        · intro h; exact ⟨h, by rw [← h]; exact hnf⟩
        · intro h; exact h.1

/-- The queue query of cabinet 5 fails; the slot 3, the earlier of the
cabinet's two slots of the day, is returned with the doctor 7. -/
theorem getDoctorScreenState_queue_failure_witness :
    GetDoctorScreenState { Faults.none with queueFind := true } cabinetStore 20000 5 =
      (some screenSchedule, [], none) ∧
    screenSchedule.Doctor ∈ cabinetStore.doctors ∧
    screenSchedule.Doctor.ID = screenSchedule.schedule.DoctorID :=
  have h := (getDoctorScreenState_queue_failure { Faults.none with queueFind := true }
    cabinetStore 20000 5).1 screenSchedule .storeFailure (by decide) (by decide)
  have hd := h.2.2.2.2.2.1 screenSchedule.Doctor (by decide) (by decide)
  ⟨h.1, hd.1, hd.2.1⟩

end ElectronicQueue

namespace ElectronicQueue

/-! ## Grouping the slots of a day by doctor -/

theorem mapGet_none {β : Type} (m : List (Nat × β)) (k : Nat) (h : mapGet m k = none) :
    ∀ e ∈ m, e.1 ≠ k := by
  unfold mapGet at h
  rcases hf : m.find? (fun e => decide (e.1 = k)) with _ | e
  · intro e he
    have := List.find?_eq_none.1 hf e he
    simpa using this
  · rw [hf] at h; cases h

theorem mapGet_some {β : Type} (m : List (Nat × β)) (k : Nat) (v : β)
    (h : mapGet m k = some v) : (k, v) ∈ m := by
  unfold mapGet at h
  rcases hf : m.find? (fun e => decide (e.1 = k)) with _ | e
  · rw [hf] at h; cases h
  · rw [hf] at h
    simp only [Option.map_some', Option.some.injEq] at h
    have hk : e.1 = k := by simpa using List.find?_some hf
    have hm := List.mem_of_find?_eq_some hf
    obtain ⟨e1, e2⟩ := e
    simp only at hk h
    subst hk; subst h
    exact hm

theorem mapSet_mem {β : Type} (m : List (Nat × β)) (k : Nat) (v : β) :
    ∀ e ∈ mapSet m k v, e = (k, v) ∨ (e ∈ m ∧ e.1 ≠ k) := by
  intro e he
  unfold mapSet at he
  split_ifs at he with hany
  · obtain ⟨x, hx, hxe⟩ := List.mem_map.1 he
    by_cases hk : x.1 = k
    · rw [if_pos hk] at hxe; exact Or.inl hxe.symm
    · rw [if_neg hk] at hxe; subst hxe; exact Or.inr ⟨hx, hk⟩
  · rcases List.mem_append.1 he with h | h
    · refine Or.inr ⟨h, fun hk => hany ?_⟩
      simp only [List.any_eq_true, decide_eq_true_eq]
      exact ⟨e, h, hk⟩
    · exact Or.inl (List.mem_singleton.1 h)

theorem mapSet_keys {β : Type} (m : List (Nat × β)) (k : Nat) (v : β) :
    (mapSet m k v).map (fun e => e.1) =
      if k ∈ m.map (fun e => e.1) then m.map (fun e => e.1) else m.map (fun e => e.1) ++ [k] := by
  unfold mapSet
  by_cases hany : m.any (fun e => decide (e.1 = k)) = true
  · have hk : k ∈ m.map (fun e => e.1) := by
      simp only [List.any_eq_true, decide_eq_true_eq] at hany
      obtain ⟨e, he, hek⟩ := hany
      exact List.mem_map.2 ⟨e, he, hek⟩
    rw [if_pos hany, if_pos hk, List.map_map]
    apply List.map_congr_left
    intro e _
    simp only [Function.comp]
    split_ifs with h
    · exact h.symm
    · rfl
  · have hk : k ∉ m.map (fun e => e.1) := by
      intro hk
      obtain ⟨e, he, hek⟩ := List.mem_map.1 hk
      apply hany
      simp only [List.any_eq_true, decide_eq_true_eq]
      exact ⟨e, he, hek⟩
    rw [if_neg hany, if_neg hk, List.map_append]
    rfl

theorem mapSet_self {β : Type} (m : List (Nat × β)) (k : Nat) (v : β) :
    (k, v) ∈ mapSet m k v := by
  unfold mapSet
  split_ifs with hany
  · simp only [List.any_eq_true, decide_eq_true_eq] at hany
    obtain ⟨e, he, hek⟩ := hany
    exact List.mem_map.2 ⟨e, he, by rw [if_pos hek]⟩
  · exact List.mem_append.2 (Or.inr (List.mem_singleton.2 rfl))

theorem slotsOfDoctor_append (xs : List LoadedSchedule) (r : LoadedSchedule) (k : Nat) :
    slotsOfDoctor (xs ++ [r]) k =
      if r.Doctor.ID ≠ 0 ∧ r.schedule.DoctorID = k then
        slotsOfDoctor xs k ++ [timeSlot r.schedule]
      else slotsOfDoctor xs k := by
  unfold slotsOfDoctor
  rw [List.filter_append, List.map_append]
  by_cases h : r.Doctor.ID ≠ 0 ∧ r.schedule.DoctorID = k
  · rw [if_pos h, List.filter_cons_of_pos (by simpa using h)]
    rfl
  · rw [if_neg h, List.filter_cons_of_neg (by simpa using h)]
    simp

theorem groupByDoctor_append (xs : List LoadedSchedule) (r : LoadedSchedule) :
    groupByDoctor (xs ++ [r]) = groupStep (groupByDoctor xs) r := by
  unfold groupByDoctor
  rw [List.foldl_append]
  rfl

/-- What the loop of `GetTodayScheduleState` leaves in the map, for rows whose
loaded doctor is the doctor of their `doctor_id`. -/
theorem groupByDoctor_spec (rows : List LoadedSchedule)
    (hjoin : ∀ r ∈ rows, r.Doctor.ID ≠ 0 → r.Doctor.ID = r.schedule.DoctorID) :
    ((groupByDoctor rows).map (fun e => e.1)).Nodup ∧
    (∀ e ∈ groupByDoctor rows, e.2.ID = e.1 ∧ e.2.Slots = slotsOfDoctor rows e.1 ∧
      e.2.Slots ≠ [] ∧
      ∃ r ∈ rows, r.Doctor.ID = e.1 ∧ r.schedule.DoctorID = e.1 ∧
        e.2.FullName = r.Doctor.FullName ∧ e.2.Specialization = r.Doctor.Specialization) ∧
    (∀ r ∈ rows, r.Doctor.ID ≠ 0 → r.schedule.DoctorID ∈ (groupByDoctor rows).map (fun e => e.1)) := by
  induction rows using List.reverseRecOn with
  | nil =>
    exact ⟨List.nodup_nil, fun e he => (by cases he), fun r hr => (by cases hr)⟩
  | append_singleton xs r ih =>
    obtain ⟨hnd, hent, hcov⟩ := ih (fun x hx => hjoin x (List.mem_append_left _ hx))
    rw [groupByDoctor_append]
    by_cases hz : r.Doctor.ID = 0
    · have hstep : groupStep (groupByDoctor xs) r = groupByDoctor xs := by
        simp only [groupStep, hz, if_true]
      rw [hstep]
      refine ⟨hnd, fun e he => ?_, fun x hx hxl => ?_⟩
      · obtain ⟨h1, h2, h3, x, hx, h4⟩ := hent e he
        refine ⟨h1, ?_, h3, x, List.mem_append_left _ hx, h4⟩
        rw [slotsOfDoctor_append, if_neg (fun h => h.1 hz)]
        exact h2
      · rcases List.mem_append.1 hx with hx | hx
        · exact hcov x hx hxl
        · rw [List.mem_singleton.1 hx] at hxl
          exact absurd hz hxl
    · have hrid := hjoin r (List.mem_append_right _ (List.mem_singleton.2 rfl)) hz
      have hstep : groupStep (groupByDoctor xs) r =
          mapSet (groupByDoctor xs) r.schedule.DoctorID
            { (match mapGet (groupByDoctor xs) r.schedule.DoctorID with
                | some d => d
                | none =>
                  { ID := r.Doctor.ID, FullName := r.Doctor.FullName,
                    Specialization := r.Doctor.Specialization, Slots := [] }) with
              Slots := (match mapGet (groupByDoctor xs) r.schedule.DoctorID with
                | some d => d
                | none =>
                  { ID := r.Doctor.ID, FullName := r.Doctor.FullName,
                    Specialization := r.Doctor.Specialization, Slots := [] }).Slots ++
                [timeSlot r.schedule] } := by
        simp only [groupStep, hz, if_false]
      rw [hstep]
      have hkeys := mapSet_keys (groupByDoctor xs) r.schedule.DoctorID
        { (match mapGet (groupByDoctor xs) r.schedule.DoctorID with
            | some d => d
            | none =>
              { ID := r.Doctor.ID, FullName := r.Doctor.FullName,
                Specialization := r.Doctor.Specialization, Slots := [] }) with
          Slots := (match mapGet (groupByDoctor xs) r.schedule.DoctorID with
            | some d => d
            | none =>
              { ID := r.Doctor.ID, FullName := r.Doctor.FullName,
                Specialization := r.Doctor.Specialization, Slots := [] }).Slots ++
            [timeSlot r.schedule] }
      refine ⟨?_, fun e he => ?_, fun x hx hxl => ?_⟩
      · rw [hkeys]
        split_ifs with hk
        · exact hnd
        · exact List.nodup_append.2 ⟨hnd, List.nodup_singleton _, by
            intro a ha hb
            rw [List.mem_singleton.1 hb] at ha
            exact hk ha⟩
      · rcases mapSet_mem _ _ _ e he with he | ⟨he, hne⟩
        · subst he
          rcases hg : mapGet (groupByDoctor xs) r.schedule.DoctorID with _ | d
          · have hnone := mapGet_none _ _ hg
            have hempty : slotsOfDoctor xs r.schedule.DoctorID = [] := by
              unfold slotsOfDoctor
              rw [List.map_eq_nil_iff, List.filter_eq_nil_iff]
              intro x hx hc
              simp only [decide_eq_true_eq] at hc
              obtain ⟨e, he, hek⟩ := List.mem_map.1 (hcov x hx hc.1)
              exact hnone e he (hek.trans hc.2)
            refine ⟨hrid, ?_, by simp, r, List.mem_append_right _ (List.mem_singleton.2 rfl),
              hrid, rfl, rfl, rfl⟩
            rw [slotsOfDoctor_append, if_pos ⟨hz, rfl⟩, hempty]
          · have hmem := mapGet_some _ _ _ hg
            obtain ⟨h1, h2, _, x, hx, h4⟩ := hent _ hmem
            refine ⟨h1, ?_, by simp, x, List.mem_append_left _ hx, h4⟩
            rw [slotsOfDoctor_append, if_pos ⟨hz, rfl⟩]
            exact congrArg (fun l => l ++ [timeSlot r.schedule]) h2
        · obtain ⟨h1, h2, h3, x, hx, h4⟩ := hent e he
          refine ⟨h1, ?_, h3, x, List.mem_append_left _ hx, h4⟩
          rw [slotsOfDoctor_append, if_neg (fun h => hne h.2.symm)]
          exact h2
      · rw [hkeys]
        have hin : x.schedule.DoctorID ∈ (groupByDoctor xs).map (fun e => e.1) ∨
            x.schedule.DoctorID = r.schedule.DoctorID := by
          rcases List.mem_append.1 hx with hx | hx
          · exact Or.inl (hcov x hx hxl)
          · exact Or.inr (by rw [List.mem_singleton.1 hx])
        split_ifs with hk
        · rcases hin with h | h
          · exact h
          · rw [h]; exact hk
        · rcases hin with h | h
          · exact List.mem_append_left _ h
          · exact List.mem_append_right _ (List.mem_singleton.2 h)

end ElectronicQueue

namespace ElectronicQueue

theorem loadDoctor_join (st : Store) (s : Schedule) :
    (loadDoctor st s).Doctor.ID ≠ 0 → (loadDoctor st s).Doctor.ID = (loadDoctor st s).schedule.DoctorID := by
  unfold loadDoctor
  rcases hf : st.doctors.find? (fun d => decide (d.ID = s.DoctorID)) with _ | d
  · simp only [hf, Option.getD_none]
    intro h; exact absurd rfl h
  · simp only [hf, Option.getD_some]
    intro _
    simpa using List.find?_some hf

theorem FindAllSchedulesForDate_ok {f : Faults} {st : Store} {date : Nat}
    {rows : List LoadedSchedule} (h : scheduleRepo.FindAllSchedulesForDate f st date = .ok rows) :
    rows = ((st.schedules.filter (fun s => decide (s.Date = date))).insertionSort
      doctorThenStart).map (loadDoctor st) := by
  unfold scheduleRepo.FindAllSchedulesForDate at h
  split_ifs at h
  simp only [Except.ok.injEq] at h
  exact h.symm

theorem slotsOfDoctor_sorted (st : Store) (l : List Schedule) (k : Nat)
    (hs : l.Sorted doctorThenStart) :
    (slotsOfDoctor (l.map (loadDoctor st)) k).Pairwise
      (fun a b => a.StartTime ≤ b.StartTime) := by
  unfold slotsOfDoctor
  rw [List.pairwise_map]
  have h1 : (l.map (loadDoctor st)).Pairwise
      (fun a b => doctorThenStart a.schedule b.schedule) := by
    rw [List.pairwise_map]
    exact hs
  have h2 := List.Pairwise.filter
    (fun r : LoadedSchedule => decide (r.Doctor.ID ≠ 0 ∧ r.schedule.DoctorID = k)) h1
  refine List.Pairwise.imp_of_mem ?_ h2
  intro a b ha hb hab
  have hak : a.schedule.DoctorID = k := by
    have := (List.mem_filter.1 ha).2
    simp only [decide_eq_true_eq] at this
    exact this.2
  have hbk : b.schedule.DoctorID = k := by
    have := (List.mem_filter.1 hb).2
    simp only [decide_eq_true_eq] at this
    exact this.2
  unfold doctorThenStart at hab
  simp only [timeSlot]
  omega

/-- The doctors the loop of `GetTodayScheduleState` collects from the rows of
`FindAllSchedulesForDate`, in the order of insertion. -/
theorem groupByDoctor_doctors (st : Store) (today : Nat) (rows : List LoadedSchedule)
    (hrows : rows = ((st.schedules.filter (fun s => decide (s.Date = today))).insertionSort
      doctorThenStart).map (loadDoctor st)) :
    (((groupByDoctor rows).map (fun e => e.2)).map (fun d => d.ID)).Nodup ∧
    (∀ d ∈ (groupByDoctor rows).map (fun e => e.2),
      d.Slots ≠ [] ∧ d.Slots = slotsOfDoctor rows d.ID ∧
      d.Slots.Pairwise (fun a b => a.StartTime ≤ b.StartTime)) ∧
    (∀ r ∈ rows, r.Doctor.ID ≠ 0 →
      ∃ d ∈ (groupByDoctor rows).map (fun e => e.2),
        d.ID = r.Doctor.ID ∧ timeSlot r.schedule ∈ d.Slots) := by
  have hjoin : ∀ r ∈ rows, r.Doctor.ID ≠ 0 → r.Doctor.ID = r.schedule.DoctorID := by
    intro r hr
    rw [hrows] at hr
    obtain ⟨s, _, hs⟩ := List.mem_map.1 hr
    rw [← hs]
    exact loadDoctor_join st s
  obtain ⟨hnd, hent, hcov⟩ := groupByDoctor_spec rows hjoin
  refine ⟨?_, ?_, ?_⟩
  · rw [List.map_map]
    have : (groupByDoctor rows).map ((fun d : DoctorScheduleModel => d.ID) ∘ fun e => e.2) =
        (groupByDoctor rows).map (fun e => e.1) := by
      apply List.map_congr_left
      intro e he
      exact (hent e he).1
    rw [this]
    exact hnd
  · intro d hd
    obtain ⟨e, he, hed⟩ := List.mem_map.1 hd
    obtain ⟨h1, h2, h3, _⟩ := hent e he
    subst hed
    rw [h1]
    refine ⟨h3, h2, ?_⟩
    rw [h2, hrows]
    exact slotsOfDoctor_sorted st _ e.1 (List.sorted_insertionSort _ _)
  · intro r hr hl
    obtain ⟨e, he, hek⟩ := List.mem_map.1 (hcov r hr hl)
    obtain ⟨h1, h2, _, _⟩ := hent e he
    refine ⟨e.2, List.mem_map.2 ⟨e, he, rfl⟩, ?_, ?_⟩
    · rw [h1, hek, hjoin r hr hl]
    · rw [h2]
      unfold slotsOfDoctor
      exact List.mem_map.2 ⟨r, List.mem_filter.2 ⟨hr, by simpa using ⟨hl, hek.symm⟩⟩, rfl⟩

/-- C23: in whatever order the map of doctors is ranged over, when both
queries succeed `GetTodayScheduleState` answers with the day's least start and
greatest end and a list of doctors in which no doctor id occurs twice and no
doctor is without slot. The slots of a doctor are the rows with a loaded
doctor of that doctor id, each once, in the order of the rows and so by
ascending start time, each slot carrying the start, end, availability and
cabinet of its row; every row with a loaded doctor has its slot in the entry
of its doctor. When the store has no slot of the day the answer is the window
09:00:00 to 18:00:00 with no doctor. -/
theorem todayScheduleState_groups (f : Faults) (st : Store) (today : Nat)
    (mapRange : List (Nat × DoctorScheduleModel) → List (Nat × DoctorScheduleModel))
    (hrange : ∀ m, (mapRange m).Perm m) :
    (∀ rows mn mx, scheduleRepo.FindMinMaxTimesForDate f st today = .ok (mn, mx) →
      scheduleRepo.FindAllSchedulesForDate f st today = .ok rows →
      ∃ doctors, GetTodayScheduleState f mapRange st today =
          .ok { Date := today, MinStartTime := mn, MaxEndTime := mx, Doctors := doctors } ∧
        (doctors.map (fun d => d.ID)).Nodup ∧
        (∀ d ∈ doctors, d.Slots ≠ [] ∧
          d.Slots =
            (rows.filter (fun r => decide (r.Doctor.ID ≠ 0 ∧ r.schedule.DoctorID = d.ID))).map
              (fun r => { StartTime := r.schedule.StartTime, EndTime := r.schedule.EndTime,
                          IsAvailable := r.schedule.IsAvailable,
                          Cabinet := r.schedule.Cabinet }) ∧
          d.Slots.Pairwise (fun a b => a.StartTime ≤ b.StartTime)) ∧
        (∀ r ∈ rows, r.Doctor.ID ≠ 0 →
          ∃ d ∈ doctors, d.ID = r.Doctor.ID ∧
            ({ StartTime := r.schedule.StartTime, EndTime := r.schedule.EndTime,
               IsAvailable := r.schedule.IsAvailable,
               Cabinet := r.schedule.Cabinet } : TimeSlotModel) ∈ d.Slots)) ∧
    (f.minMaxTimes = false → (∀ s ∈ st.schedules, s.Date ≠ today) →
      GetTodayScheduleState f mapRange st today =
        .ok { Date := today, MinStartTime := nineOClock, MaxEndTime := eighteenOClock,
              Doctors := [] }) := by
  refine ⟨fun rows mn mx hmm hall => ?_, fun hf hnone => ?_⟩
  · obtain ⟨hnd, hent, hcov⟩ :=
      groupByDoctor_doctors st today rows (FindAllSchedulesForDate_ok hall)
    have hp : ((mapRange (groupByDoctor rows)).map (fun e => e.2)).Perm
        ((groupByDoctor rows).map (fun e => e.2)) := (hrange _).map _
    refine ⟨(mapRange (groupByDoctor rows)).map (fun e => e.2), ?_, ?_, ?_, ?_⟩
    · simp only [GetTodayScheduleState, hmm, hall]
    · exact (hp.map (fun d => d.ID)).nodup_iff.mpr hnd
    · intro d hd
      exact hent d (hp.mem_iff.mp hd)
    · intro r hr hl
      obtain ⟨d, hd, hid, hslot⟩ := hcov r hr hl
      exact ⟨d, hp.mem_iff.mpr hd, hid, hslot⟩
  · have hnil : st.schedules.filter (fun s => decide (s.Date = today)) = [] := by
      rw [List.filter_eq_nil_iff]
      intro s hs
      simpa using hnone s hs
    simp [GetTodayScheduleState, scheduleRepo.FindMinMaxTimesForDate, hf, hnil]

/-- The day 20000 of `cabinetStore`, the map ranged over in reverse: the
doctors 8 and 7 with their slots; the slot without doctor row is left out; the
day 20001 has no slot. -/
theorem todayScheduleState_groups_witness :
    GetTodayScheduleState Faults.none List.reverse cabinetStore 20000 = .ok daySchedule ∧
    (∃ doctors, GetTodayScheduleState Faults.none List.reverse cabinetStore 20000 =
        .ok { Date := 20000, MinStartTime := 32400000000, MaxEndTime := 37800000000,
              Doctors := doctors } ∧
      (doctors.map (fun d => d.ID)).Nodup ∧
      (∀ d ∈ doctors, d.Slots ≠ [] ∧
        d.Slots =
          (dayRows.filter (fun r => decide (r.Doctor.ID ≠ 0 ∧ r.schedule.DoctorID = d.ID))).map
            (fun r => { StartTime := r.schedule.StartTime, EndTime := r.schedule.EndTime,
                        IsAvailable := r.schedule.IsAvailable,
                        Cabinet := r.schedule.Cabinet }) ∧
        d.Slots.Pairwise (fun a b => a.StartTime ≤ b.StartTime)) ∧
      (∀ r ∈ dayRows, r.Doctor.ID ≠ 0 →
        ∃ d ∈ doctors, d.ID = r.Doctor.ID ∧
          ({ StartTime := r.schedule.StartTime, EndTime := r.schedule.EndTime,
             IsAvailable := r.schedule.IsAvailable,
             Cabinet := r.schedule.Cabinet } : TimeSlotModel) ∈ d.Slots)) ∧
    GetTodayScheduleState Faults.none List.reverse cabinetStore 20001 =
      .ok { Date := 20001, MinStartTime := nineOClock, MaxEndTime := eighteenOClock,
            Doctors := [] } :=
  ⟨by decide,
   (todayScheduleState_groups Faults.none cabinetStore 20000 List.reverse
      (fun m => List.reverse_perm m)).1 dayRows 32400000000 37800000000 (by decide) (by decide),
   (todayScheduleState_groups Faults.none cabinetStore 20001 List.reverse
      (fun m => List.reverse_perm m)).2 rfl (by decide)⟩

end ElectronicQueue

namespace ElectronicQueue

/-! ## The daily cleanup and the slots -/

/-- C26, what the code does: `bookedStore`, reached from `clinicStore` by
`CreateAppointment`, satisfies the invariant of slots, and no stored ticket is
completed. `TruncateTickets` succeeds on it, deletes the three appointments
without ticket and leaves their slots unavailable, so that the invariant fails
afterwards; `DeleteAppointment` of the new appointment keeps the invariant by
freeing the slot. -/
theorem truncateTickets_keeps_slots_taken :
    SlotInvariant clinicStore ∧ SlotInvariant bookedStore ∧
    (TruncateTickets Faults.none noAction bookedStore).1 = none ∧
    (TruncateTickets Faults.none noAction bookedStore).2.appointments = [] ∧
    (TruncateTickets Faults.none noAction bookedStore).2.schedules = bookedStore.schedules ∧
    (∀ s ∈ (TruncateTickets Faults.none noAction bookedStore).2.schedules,
      s.IsAvailable = false) ∧
    ¬ SlotInvariant (TruncateTickets Faults.none noAction bookedStore).2 ∧
    (DeleteAppointment Faults.none bookedStore 3).1 = none ∧
    SlotInvariant (DeleteAppointment Faults.none bookedStore 3).2 := by
  decide

/-- The cleanup never writes the schedules: whatever the foreign keys on
`tickets` do to the tickets and their referencing rows, a cleanup that
deletes an appointment without ticket leaves the slot of that appointment as
it was. -/
theorem TruncateTickets_appointments (f : Faults) (references : List Nat → Store → Except Error Store)
    (st : Store) (hnone : ∀ t ∈ st.tickets, t.CompletedAt = none)
    (href : ∀ s, references [] s = .ok s)
    (hok : (TruncateTickets f references st).1 = none) :
    (TruncateTickets f references st).2 =
      { st with appointments := st.appointments.filter (fun a => a.TicketID ≠ none) } := by
  have hdel : st.tickets.filter (fun t => decide (t.CompletedAt ≠ none)) = [] := by
    rw [List.filter_eq_nil_iff]
    intro t ht
    simpa using hnone t ht
  have hkeep : st.tickets.filter (fun t => decide (t.CompletedAt = none)) = st.tickets := by
    rw [List.filter_eq_self]
    intro t ht
    simpa using hnone t ht
  unfold TruncateTickets at hok ⊢
  simp only [hdel, hkeep, List.map_nil, href] at hok ⊢
  split_ifs at hok ⊢
  rfl

end ElectronicQueue

namespace ElectronicQueue

/-! ## What the ticket operations do to the ticket table -/

theorem receptionLogRepoCreate_tickets {f : Faults} {st st1 : Store} {l : ReceptionLog}
    (h : receptionLogRepo.Create f st l = .ok st1) : st1.tickets = st.tickets := by
  unfold receptionLogRepo.Create insertLog at h
  split_ifs at h <;> simp only [Except.ok.injEq, reduceCtorEq] at h <;> (rw [← h])

theorem appointmentRepoUpdate_tickets {b : Bool} {st st1 : Store} {a : Appointment}
    (h : appointmentRepo.Update b st a = .ok st1) : st1.tickets = st.tickets := by
  unfold appointmentRepo.Update insertAppointment at h
  split_ifs at h <;>
    simp only [Except.map, Except.ok.injEq, reduceCtorEq] at h <;> (rw [← h])

/-- A successful save of a rewritten stored ticket overwrites the rows of its
primary key. -/
theorem ticketRepoUpdate_rewrites {f : Faults} {st : Store} {t w : Ticket} {r : Ticket × Store}
    (ht : t ∈ st.tickets) (hid : w.ID = t.ID) (hnum : w.TicketNumber = t.TicketNumber)
    (h : ticketRepo.Update f st w = .ok r) :
    r.2.tickets = st.tickets.map (fun y => if y.ID = t.ID then w else y) := by
  obtain ⟨r1, r2⟩ := r
  obtain ⟨_, _, _, h4⟩ := ticketRepoUpdate_stored (x := t) (t := w) ht hid hnum h
  rw [h4, hid]

theorem StartAppointment_rewrites (f : Faults) (st : Store) (now : Int) (id : Nat) :
    Rewrites st (StartAppointment f st now id).2 (fun t => t.Status = StatusRegistered)
      (fun t => startTicket t now) := by
  rcases hg : ticketRepo.GetByID f st id with e | t
  · left; simp only [StartAppointment, hg]
  · by_cases hs : t.Status = StatusRegistered
    · rcases hu : ticketRepo.Update f st (startTicket t now) with e | r
      · left
        unfold startTicket at hu
        simp only [StartAppointment, hg, hs, ne_eq, not_true_eq_false, if_false, hu]
      · have hmem := (find?_ticket_mem (ticketRepoGetByID_ok hg).2).1
        have hrw := ticketRepoUpdate_rewrites (w := startTicket t now) hmem rfl rfl hu
        right
        refine ⟨t, hmem, hs, ?_⟩
        unfold startTicket at hu
        simp only [StartAppointment, hg, hs, ne_eq, not_true_eq_false, if_false, hu]
        exact hrw
    · left; simp only [StartAppointment, hg, hs, ne_eq, not_false_eq_true, if_true]

theorem CompleteAppointment_rewrites (f : Faults) (st : Store) (now : Int) (id : Nat) :
    Rewrites st (CompleteAppointment f st now id).2 (fun t => t.Status = StatusInProgress)
      (fun t => completeTicket t now) := by
  rcases hg : ticketRepo.GetByID f st id with e | t
  · left; simp only [CompleteAppointment, hg]
  · by_cases hs : t.Status = StatusInProgress
    · rcases hu : ticketRepo.Update f st (completeTicket t now) with e | r
      · left
        unfold completeTicket at hu
        simp only [CompleteAppointment, hg, hs, ne_eq, not_true_eq_false, if_false, hu]
      · have hmem := (find?_ticket_mem (ticketRepoGetByID_ok hg).2).1
        have hrw := ticketRepoUpdate_rewrites (w := completeTicket t now) hmem rfl rfl hu
        right
        refine ⟨t, hmem, hs, ?_⟩
        unfold completeTicket at hu
        simp only [CompleteAppointment, hg, hs, ne_eq, not_true_eq_false, if_false, hu]
        exact hrw
    · left; simp only [CompleteAppointment, hg, hs, ne_eq, not_false_eq_true, if_true]

theorem CallSpecificTicket_rewrites (f : Faults) (st : Store) (now : Int) (id : Nat) (w : Int) :
    Rewrites st (CallSpecificTicket f st now id w).2 (fun t => t.Status = StatusWaiting)
      (fun t => invite t w now) := by
  rcases hg : ticketRepo.GetByID f st id with e | t
  · left
    simp only [CallSpecificTicket, hg]
    split_ifs <;> rfl
  · by_cases hs : t.Status = StatusWaiting
    · rcases hu : ticketRepo.Update f st (invite t w now) with e | r
      · left
        unfold invite at hu
        simp only [CallSpecificTicket, hg, hs, ne_eq, not_true_eq_false, if_false, hu]
      · have hmem := (find?_ticket_mem (ticketRepoGetByID_ok hg).2).1
        have hrw := ticketRepoUpdate_rewrites (w := invite t w now) hmem rfl rfl hu
        right
        refine ⟨t, hmem, hs, ?_⟩
        unfold invite at hu
        simp only [CallSpecificTicket, hg, hs, ne_eq, not_true_eq_false, if_false, hu]
        split
        · exact hrw
        · rename_i st2 hc
          rw [receptionLogRepoCreate_tickets hc]
          exact hrw
    · left; simp only [CallSpecificTicket, hg, hs, ne_eq, not_false_eq_true, if_true]

theorem GetNextWaitingTicket_waiting {f : Faults} {st : Store} {c : DBClock} {ps : List Str}
    {t : Ticket} (h : ticketRepo.GetNextWaitingTicket f st c ps = .ok t) :
    t.Status = StatusWaiting := by
  unfold ticketRepo.GetNextWaitingTicket at h
  split_ifs at h
  split at h
  · cases h
  · rename_i r hr
    simp only [Except.ok.injEq] at h
    subst h
    exact ((waitingRows_tickets st c ps r.ticket).1 ⟨r, (firstRow_spec c _ r hr).1, rfl⟩).2.1

theorem CallNextTicket_rewrites (f : Faults) (st : Store) (c : DBClock) (now w : Int)
    (cat : Str) (reg : Nat) :
    Rewrites st (CallNextTicket f st c now w cat reg).2 (fun t => t.Status = StatusWaiting)
      (fun t => invite t w now) := by
  rcases hp : registrarPrefixes f st cat reg with e | prefixes
  · left; simp only [CallNextTicket, hp]
  · rcases hn : ticketRepo.GetNextWaitingTicket f st c prefixes with e | t
    · left
      simp only [CallNextTicket, hp, hn]
      split_ifs <;> rfl
    · rcases hu : ticketRepo.Update f st (invite t w now) with e | r
      · left
        unfold invite at hu
        simp only [CallNextTicket, hp, hn, hu]
      · have hmem := GetNextWaitingTicket_mem hn
        have hrw := ticketRepoUpdate_rewrites (w := invite t w now) hmem rfl rfl hu
        right
        refine ⟨t, hmem, GetNextWaitingTicket_waiting hn, ?_⟩
        unfold invite at hu
        simp only [CallNextTicket, hp, hn, hu]
        split
        · exact hrw
        · rename_i st2 hc
          rw [receptionLogRepoCreate_tickets hc]
          exact hrw

end ElectronicQueue

namespace ElectronicQueue

theorem ConfirmAppointment_rewrites (f : Faults) (st : Store) (aid tid : Nat) :
    Rewrites st (ConfirmAppointment f st aid tid).2
      (fun t => storedTicket st tid = some t ∧
        ¬ (t.Status = StatusRegistered ∨ t.Status = StatusInProgress))
      (fun t => { t with Status := StatusRegistered }) := by
  rcases ha : appointmentRepo.FindByID f.appointmentFind st aid with e | found
  · left; simp only [ConfirmAppointment, ha]
  · by_cases hn0 : found.TicketID ≠ none
    · left; simp only [ConfirmAppointment, ha]; rw [if_pos hn0]
    · have hn : found.TicketID = none := not_not.mp hn0
      rcases hg : ticketRepo.GetByID f st tid with e | t
      · left; simp only [ConfirmAppointment, ha, hn, ne_eq, not_true_eq_false, if_false, hg]
      · by_cases hs : t.Status = StatusRegistered ∨ t.Status = StatusInProgress
        · left; simp only [ConfirmAppointment, ha, hn, ne_eq, not_true_eq_false, if_false, hg, hs, if_true]
        · rcases hau : appointmentRepo.Update f.appointmentUpdate st
              { found with TicketID := some tid } with e | st1
          · left; simp only [ConfirmAppointment, ha, hn, ne_eq, not_true_eq_false, if_false, hg, hs, hau]
          · have ht1 := appointmentRepoUpdate_tickets hau
            have hfind := (ticketRepoGetByID_ok hg).2
            have hmem := (find?_ticket_mem hfind).1
            rcases hu : ticketRepo.Update f st1 { t with Status := StatusRegistered } with e | r
            · left
              simp only [ConfirmAppointment, ha, hn, ne_eq, not_true_eq_false, if_false, hg, hs, hau, hu]
              split
              · exact ht1
              · rename_i st2 hrev
                rw [appointmentRepoUpdate_tickets hrev]
                exact ht1
            · right
              refine ⟨t, hmem, ⟨hfind, hs⟩, ?_⟩
              have hrw := ticketRepoUpdate_rewrites (w := { t with Status := StatusRegistered })
                (t := t) (by rw [ht1]; exact hmem) rfl rfl hu
              rw [ht1] at hrw
              simp only [ConfirmAppointment, ha, hn, ne_eq, not_true_eq_false, if_false, hg, hs, hau, hu]
              exact hrw

theorem stampCompleted_same (t : Ticket) (now : Int) :
    (stampCompleted t now).ID = t.ID ∧ (stampCompleted t now).TicketNumber = t.TicketNumber := by
  unfold stampCompleted
  split_ifs <;> exact ⟨rfl, rfl⟩

/-- `UpdateTicket` on a ticket that keeps the primary key and the number of a
stored ticket leaves the ticket table or overwrites the rows of that key. -/
theorem UpdateTicket_tickets (f : Faults) (st : Store) (now : Int) (t w : Ticket)
    (ht : t ∈ st.tickets) (hid : w.ID = t.ID) (hnum : w.TicketNumber = t.TicketNumber) :
    (UpdateTicket f st now w).2.tickets = st.tickets ∨
      (UpdateTicket f st now w).2.tickets =
        st.tickets.map (fun y => if y.ID = t.ID then stampCompleted w now else y) := by
  by_cases hfinal : w.Status = StatusCompleted ∨ w.Status = StatusRegistered
  · rcases hg : ticketRepo.GetByID f st w.ID with e | cur
    · left
      simp only [UpdateTicket, hfinal, if_true, finalizeReceptionAndUpdateTicket, hg]
    · by_cases hguard : cur.Status = StatusRegistered ∧ w.Status = StatusCompleted
      · left
        simp only [UpdateTicket, hfinal, if_true, finalizeReceptionAndUpdateTicket, hg, hguard,
          and_self, true_or]
      · rcases hu : ticketRepo.Update f st (stampCompleted w now) with e | r
        · left
          unfold stampCompleted at hu
          simp only [UpdateTicket, hfinal, if_true, finalizeReceptionAndUpdateTicket, hg, hguard,
            if_false, hu]
        · have hrw := ticketRepoUpdate_rewrites (w := stampCompleted w now) ht
            ((stampCompleted_same w now).1.trans hid) ((stampCompleted_same w now).2.trans hnum) hu
          right
          unfold stampCompleted at hu
          simp only [UpdateTicket, hfinal, if_true, finalizeReceptionAndUpdateTicket, hg, hguard,
            if_false, hu]
          split
          · exact hrw
          · split
            · exact hrw
            · rename_i st2 hlog
              rw [receptionLogRepoUpdate_tickets hlog]
              exact hrw
  · have hnc : ¬ w.Status = StatusCompleted := fun h => hfinal (Or.inl h)
    have hsame : stampCompleted w now = w := by
      unfold stampCompleted; rw [if_neg hnc]
    rcases hu : ticketRepo.Update f st w with e | r
    · left
      simp only [UpdateTicket, hfinal, if_false, hu]
    · right
      rw [hsame]
      simp only [UpdateTicket, hfinal, if_false, hu]
      exact ticketRepoUpdate_rewrites (w := w) ht hid hnum hu

theorem UpdateStatus_rewrites (f : Faults) (st : Store) (now : Int) (id : Nat)
    (status : TicketStatus) :
    Rewrites st (RegistrarHandler.UpdateStatus f st now id status).2
      (fun t => storedTicket st id = some t)
      (fun t => stampCompleted { t with Status := status } now) := by
  by_cases he : status = ""
  · left; simp only [RegistrarHandler.UpdateStatus, he, if_true]
  rcases hg : ticketRepo.GetByID f st id with e | t
  · left; simp only [RegistrarHandler.UpdateStatus, he, if_false, hg]
  · have hfind := (ticketRepoGetByID_ok hg).2
    have hmem := (find?_ticket_mem hfind).1
    have h2 : (RegistrarHandler.UpdateStatus f st now id status).2 =
        (UpdateTicket f st now { t with Status := status }).2 := by
      simp only [RegistrarHandler.UpdateStatus, he, if_false, hg]
      rcases UpdateTicket f st now { t with Status := status } with ⟨o, s⟩
      cases o <;> rfl
    rw [h2]
    rcases UpdateTicket_tickets f st now t { t with Status := status } hmem rfl rfl with h | h
    · exact Or.inl h
    · exact Or.inr ⟨t, hmem, hfind, h⟩

theorem insertTicket_appends {st st1 : Store} {t t1 : Ticket}
    (h : insertTicket st t = .ok (t1, st1)) :
    st1.tickets = st.tickets ++ [t1] ∧ t1.Status = t.Status ∧ t1.CompletedAt = t.CompletedAt := by
  unfold insertTicket at h
  split_ifs at h <;> simp only [Except.ok.injEq, Prod.mk.injEq, reduceCtorEq] at h <;>
    (obtain ⟨h1, h2⟩ := h; subst h1; subst h2; exact ⟨rfl, rfl, rfl⟩)

theorem CreateTicket_appends (f : Faults) (st : Store) (now : Int) (serviceID : String) :
    Appends st (CreateTicket f st now serviceID).2 := by
  rcases h : CreateTicket f st now serviceID with ⟨res, st1⟩
  rcases res with e | t
  · left
    rw [(CreateTicket_store f st st1 now serviceID).2 e h]
  · right
    obtain ⟨h1, _, _, h4, h5⟩ := (CreateTicket_store f st st1 now serviceID).1 t h
    exact ⟨t, h4, h5, by rw [h1]⟩

theorem AssignTicketToAppointment_appends {f : Faults} {st st1 : Store} {a : Appointment}
    {t t1 : Ticket} (h : appointmentRepo.AssignTicketToAppointment f st a t = .ok (t1, st1)) :
    st1.tickets = st.tickets ++ [t1] ∧ t1.Status = t.Status ∧ t1.CompletedAt = t.CompletedAt := by
  unfold appointmentRepo.AssignTicketToAppointment ticketRepo.Create at h
  by_cases hc : f.ticketCreate = true
  · simp only [hc, if_true, reduceCtorEq] at h
  · rw [if_neg hc] at h
    rcases hi : insertTicket st t with e | r
    · rw [hi] at h
      cases h
    · obtain ⟨t2, st2⟩ := r
      obtain ⟨h1, h2, h3⟩ := insertTicket_appends hi
      rw [hi] at h
      dsimp only at h
      split_ifs at h
      simp only [Except.ok.injEq, Prod.mk.injEq] at h
      obtain ⟨ht, hst⟩ := h
      subst ht
      subst hst
      exact ⟨h1, h2, h3⟩

theorem CheckInByPhone_appends (f : Faults) (st : Store) (now : WallClock) (created : Int)
    (phone : Str) : Appends st (CheckInByPhone f st now created phone).2 := by
  rcases hp : patientRepo.FindByPhone f st (sanitizePhone phone) with e | patient
  · left
    simp only [CheckInByPhone, hp]
    split_ifs <;> rfl
  · rcases ha : appointmentRepo.FindUpcomingByPatientID f st patient.ID now with e | appointment
    · left
      simp only [CheckInByPhone, hp, ha]
      split_ifs <;> rfl
    · rcases hn : generateTicketNumber f st "confirm_appointment" with e | number
      · left
        simp only [CheckInByPhone, hp, ha, hn]
      · rcases hat : appointmentRepo.AssignTicketToAppointment f st appointment
            { ID := 0, TicketNumber := number, Status := StatusWaiting,
              ServiceType := some "confirm_appointment", WindowNumber := none, QRCode := [],
              CreatedAt := created, CalledAt := none, StartedAt := none,
              CompletedAt := none } with e | r
        · left
          simp only [CheckInByPhone, hp, ha, hn, hat]
        · obtain ⟨t1, st1⟩ := r
          obtain ⟨h1, h2, h3⟩ := AssignTicketToAppointment_appends hat
          right
          simp only [CheckInByPhone, hp, ha, hn, hat]
          exact ⟨t1, h2, h3, h1⟩

end ElectronicQueue

namespace ElectronicQueue

/-! ## The completion invariant -/

theorem Rewrites_preserves {P : Ticket → Prop} {st st1 : Store} {guard : Ticket → Prop}
    {w : Ticket → Ticket} (h : Rewrites st st1 guard w)
    (hw : ∀ t ∈ st.tickets, P t → guard t → P (w t)) (hP : ∀ t ∈ st.tickets, P t) :
    ∀ t ∈ st1.tickets, P t := by
  rcases h with h | ⟨t, ht, hg, h⟩
  · rw [h]; exact hP
  · intro y hy
    rw [h] at hy
    obtain ⟨y0, hy0, rfl⟩ := List.mem_map.mp hy
    split_ifs
    · exact hw t ht (hP t ht) hg
    · exact hP y0 hy0

theorem Appends_preserves {P : Ticket → Prop} {st st1 : Store} (h : Appends st st1)
    (hx : ∀ x : Ticket, x.Status = StatusWaiting → x.CompletedAt = none → P x)
    (hP : ∀ t ∈ st.tickets, P t) : ∀ t ∈ st1.tickets, P t := by
  rcases h with h | ⟨x, hs, hc, h⟩
  · rw [h]; exact hP
  · intro y hy
    rw [h] at hy
    rcases List.mem_append.mp hy with hy | hy
    · exact hP y hy
    · rw [List.mem_singleton.mp hy]
      exact hx x hs hc

theorem waiting_invariant (x : Ticket) (hs : x.Status = StatusWaiting)
    (hc : x.CompletedAt = none) : x.CompletedAt ≠ none ↔ x.Status = StatusCompleted := by
  rw [hs, hc]
  decide

theorem invite_invariant (t : Ticket) (w now : Int)
    (h : t.CompletedAt ≠ none ↔ t.Status = StatusCompleted) (hs : t.Status = StatusWaiting) :
    (invite t w now).CompletedAt ≠ none ↔ (invite t w now).Status = StatusCompleted := by
  have hc : t.CompletedAt = none := by
    by_contra hne
    have := h.mp hne
    rw [hs] at this
    exact absurd this (by decide)
  show t.CompletedAt ≠ none ↔ StatusInvited = StatusCompleted
  rw [hc]
  decide

theorem startTicket_invariant (t : Ticket) (now : Int)
    (h : t.CompletedAt ≠ none ↔ t.Status = StatusCompleted) (hs : t.Status = StatusRegistered) :
    (startTicket t now).CompletedAt ≠ none ↔ (startTicket t now).Status = StatusCompleted := by
  have hc : t.CompletedAt = none := by
    by_contra hne
    have := h.mp hne
    rw [hs] at this
    exact absurd this (by decide)
  show t.CompletedAt ≠ none ↔ StatusInProgress = StatusCompleted
  rw [hc]
  decide

theorem completeTicket_invariant (t : Ticket) (now : Int) :
    (completeTicket t now).CompletedAt ≠ none ↔
      (completeTicket t now).Status = StatusCompleted := by
  show some now ≠ none ↔ StatusCompleted = StatusCompleted
  simp only [ne_eq, reduceCtorEq, not_false_eq_true]

theorem stampCompleted_stamped (t : Ticket) (now : Int) :
    (stampCompleted t now).Status = StatusCompleted → (stampCompleted t now).CompletedAt ≠ none := by
  unfold stampCompleted
  split_ifs with h
  · intro _
    show some now ≠ none
    exact Option.some_ne_none now
  · intro h2
    exact absurd h2 h

theorem stampCompleted_invariant (t : Ticket) (status : TicketStatus) (now : Int)
    (h : t.CompletedAt ≠ none ↔ t.Status = StatusCompleted)
    (hc : t.Status = StatusCompleted → status = StatusCompleted) :
    (stampCompleted { t with Status := status } now).CompletedAt ≠ none ↔
      (stampCompleted { t with Status := status } now).Status = StatusCompleted := by
  unfold stampCompleted
  by_cases hs : status = StatusCompleted
  · rw [if_pos hs]
    show some now ≠ none ↔ status = StatusCompleted
    simp only [ne_eq, reduceCtorEq, not_false_eq_true, hs]
  · rw [if_neg hs]
    show t.CompletedAt ≠ none ↔ status = StatusCompleted
    constructor
    · intro hne
      exact absurd (hc (h.mp hne)) hs
    · intro h2
      exact absurd h2 hs

theorem register_invariant (t : Ticket)
    (h : t.CompletedAt ≠ none ↔ t.Status = StatusCompleted) (hs : t.Status ≠ StatusCompleted) :
    ({ t with Status := StatusRegistered } : Ticket).CompletedAt ≠ none ↔
      ({ t with Status := StatusRegistered } : Ticket).Status = StatusCompleted := by
  show t.CompletedAt ≠ none ↔ StatusRegistered = StatusCompleted
  constructor
  · intro hne
    exact absurd (h.mp hne) hs
  · intro h2
    exact absurd h2 (by decide)

end ElectronicQueue

namespace ElectronicQueue

/-- C24, the claim fails: on a store that satisfies the invariant the
registrar's status endpoint answers 200 for moving the completed ticket 1 back
to waiting and leaves its `completed_at` set, and `ConfirmAppointment` succeeds
in attaching the completed ticket 1 and leaves it registered with
`completed_at` set; the invariant does not hold afterwards. -/
theorem completion_invariant_broken :
    CompletionInvariant archiveStore ∧
    (RegistrarHandler.UpdateStatus Faults.none archiveStore 100 1 StatusWaiting).1 = 200 ∧
    ¬ CompletionInvariant
        (RegistrarHandler.UpdateStatus Faults.none archiveStore 100 1 StatusWaiting).2 ∧
    (ConfirmAppointment Faults.none archiveStore 1 1).1 =
      .ok { ID := 1, ScheduleID := 10, PatientID := none, TicketID := some 1, CreatedAt := 0 } ∧
    ¬ CompletionInvariant (ConfirmAppointment Faults.none archiveStore 1 1).2 := by
  decide

/-- C24 (amended): every one of the eight operations keeps `completed_at` set
on every completed ticket. The full invariant, `completed_at` set exactly on
the completed tickets, is kept by `CreateTicket`, `CallNextTicket`,
`CallSpecificTicket`, `StartAppointment`, `CompleteAppointment` and
`CheckInByPhone`; by the registrar's status endpoint when the addressed ticket
is not completed or the requested status is completed; and by
`ConfirmAppointment` when the addressed ticket is not completed. -/
theorem completion_invariant_preserved (f : Faults) (st : Store) (c : DBClock)
    (wall : WallClock) (now w : Int) (id aid reg : Nat) (cat phone : Str) (sid : String)
    (status : TicketStatus) :
    (CompletedStamped st →
      CompletedStamped (CreateTicket f st now sid).2 ∧
      CompletedStamped (CallNextTicket f st c now w cat reg).2 ∧
      CompletedStamped (CallSpecificTicket f st now id w).2 ∧
      CompletedStamped (RegistrarHandler.UpdateStatus f st now id status).2 ∧
      CompletedStamped (StartAppointment f st now id).2 ∧
      CompletedStamped (CompleteAppointment f st now id).2 ∧
      CompletedStamped (ConfirmAppointment f st aid id).2 ∧
      CompletedStamped (CheckInByPhone f st wall now phone).2) ∧
    (CompletionInvariant st →
      CompletionInvariant (CreateTicket f st now sid).2 ∧
      CompletionInvariant (CallNextTicket f st c now w cat reg).2 ∧
      CompletionInvariant (CallSpecificTicket f st now id w).2 ∧
      ((∀ t, storedTicket st id = some t → t.Status = StatusCompleted →
          status = StatusCompleted) →
        CompletionInvariant (RegistrarHandler.UpdateStatus f st now id status).2) ∧
      CompletionInvariant (StartAppointment f st now id).2 ∧
      CompletionInvariant (CompleteAppointment f st now id).2 ∧
      ((∀ t, storedTicket st id = some t → t.Status ≠ StatusCompleted) →
        CompletionInvariant (ConfirmAppointment f st aid id).2) ∧
      CompletionInvariant (CheckInByPhone f st wall now phone).2) := by
  constructor
  · intro h
    have hwait : ∀ x : Ticket, x.Status = StatusWaiting → x.CompletedAt = none →
        x.Status = StatusCompleted → x.CompletedAt ≠ none := by
      intro x hs _ h2
      rw [hs] at h2
      exact absurd h2 (by decide)
    refine ⟨Appends_preserves (CreateTicket_appends f st now sid) hwait h,
      Rewrites_preserves (CallNextTicket_rewrites f st c now w cat reg) ?_ h,
      Rewrites_preserves (CallSpecificTicket_rewrites f st now id w) ?_ h,
      Rewrites_preserves (UpdateStatus_rewrites f st now id status) ?_ h,
      Rewrites_preserves (StartAppointment_rewrites f st now id) ?_ h,
      Rewrites_preserves (CompleteAppointment_rewrites f st now id) ?_ h,
      Rewrites_preserves (ConfirmAppointment_rewrites f st aid id) ?_ h,
      Appends_preserves (CheckInByPhone_appends f st wall now phone) hwait h⟩
    · intro t _ _ _ h2
      exact absurd (show StatusInvited = StatusCompleted from h2) (by decide)
    · intro t _ _ _ h2
      exact absurd (show StatusInvited = StatusCompleted from h2) (by decide)
    · intro t _ _ _
      exact stampCompleted_stamped _ now
    · intro t _ _ _ h2
      exact absurd (show StatusInProgress = StatusCompleted from h2) (by decide)
    · intro t _ _ _ _
      exact Option.some_ne_none now
    · intro t _ _ _ h2
      exact absurd (show StatusRegistered = StatusCompleted from h2) (by decide)
  · intro h
    refine ⟨Appends_preserves (CreateTicket_appends f st now sid) waiting_invariant h,
      Rewrites_preserves (CallNextTicket_rewrites f st c now w cat reg) ?_ h,
      Rewrites_preserves (CallSpecificTicket_rewrites f st now id w) ?_ h,
      fun hc => Rewrites_preserves (UpdateStatus_rewrites f st now id status) ?_ h,
      Rewrites_preserves (StartAppointment_rewrites f st now id) ?_ h,
      Rewrites_preserves (CompleteAppointment_rewrites f st now id) ?_ h,
      fun hc => Rewrites_preserves (ConfirmAppointment_rewrites f st aid id) ?_ h,
      Appends_preserves (CheckInByPhone_appends f st wall now phone) waiting_invariant h⟩
    · intro t _ hP hg
      exact invite_invariant t w now hP hg
    · intro t _ hP hg
      exact invite_invariant t w now hP hg
    · intro t _ hP hg
      exact stampCompleted_invariant t status now hP (hc t hg)
    · intro t _ hP hg
      exact startTicket_invariant t now hP hg
    · intro t _ _ _
      exact completeTicket_invariant t now
    · intro t _ hP hg
      exact register_invariant t hP (hc t hg.1)

theorem completion_invariant_preserved_witness :
    CompletedStamped archiveStore ∧
    CompletedStamped
      (RegistrarHandler.UpdateStatus Faults.none archiveStore 100 1 StatusWaiting).2 ∧
    CompletionInvariant deskStore ∧
    CompletionInvariant (CompleteAppointment Faults.none deskStore 300 3).2 ∧
    CompletionInvariant (RegistrarHandler.UpdateStatus Faults.none deskStore 300 3
      StatusCompleted).2 :=
  ⟨by decide,
   ((completion_invariant_preserved Faults.none archiveStore { date := 20000, time := 0 }
      noonWall 100 1 1 1 1 ['A'] [] "make_appointment" StatusWaiting).1 (by decide)).2.2.2.1,
   by decide,
   ((completion_invariant_preserved Faults.none deskStore { date := 20000, time := 0 }
      noonWall 300 1 3 1 7 ['A'] [] "make_appointment" StatusCompleted).2 (by decide)).2.2.2.2.2.1,
   ((completion_invariant_preserved Faults.none deskStore { date := 20000, time := 0 }
      noonWall 300 1 3 1 7 ['A'] [] "make_appointment" StatusCompleted).2 (by decide)).2.2.2.1
      (fun _ _ _ => rfl)⟩

end ElectronicQueue

namespace ElectronicQueue

/-! ## Completed tickets -/

theorem nodup_ID_eq {l : List Ticket} (h : (l.map (fun t => t.ID)).Nodup) {x y : Ticket}
    (hx : x ∈ l) (hy : y ∈ l) (hid : y.ID = x.ID) : y = x := by
  induction l with
  | nil => cases hx
  | cons a l ih =>
    rw [List.map_cons, List.nodup_cons] at h
    rcases List.mem_cons.mp hx with hxa | hxl <;> rcases List.mem_cons.mp hy with hya | hyl
    · rw [hxa, hya]
    · subst hxa
      exact (h.1 (List.mem_map.mpr ⟨y, hyl, hid⟩)).elim
    · subst hya
      exact (h.1 (List.mem_map.mpr ⟨x, hxl, hid.symm⟩)).elim
    · exact ih h.2 hxl hyl

theorem Rewrites_keeps {st st1 : Store} {guard : Ticket → Prop} {w : Ticket → Ticket}
    (h : Rewrites st st1 guard w) (hnd : (st.tickets.map (fun t => t.ID)).Nodup)
    (hw : ∀ t, (w t).ID = t.ID) {x : Ticket} (hx : x ∈ st.tickets) (hg : ¬ guard x) :
    OnlyRow st1 x := by
  rcases h with h | ⟨t, ht, hgt, h⟩
  · unfold OnlyRow
    rw [h]
    exact ⟨hx, fun y hy hid => nodup_ID_eq hnd hx hy hid⟩
  · have hne : ¬ x.ID = t.ID := by
      intro hid
      have := nodup_ID_eq hnd ht hx hid
      rw [this] at hg
      exact hg hgt
    unfold OnlyRow
    rw [h]
    constructor
    · exact List.mem_map.mpr ⟨x, hx, by rw [if_neg hne]⟩
    · intro y hy hid
      obtain ⟨y0, hy0, rfl⟩ := List.mem_map.mp hy
      by_cases h0 : y0.ID = t.ID
      · rw [if_pos h0] at hid
        rw [hw t] at hid
        exact absurd hid.symm hne
      · rw [if_neg h0] at hid ⊢
        exact nodup_ID_eq hnd hx hy0 hid

/-- C25, the claim fails: `UpdateTicket`, handed the completed ticket 1 with the
status waiting, and `ConfirmAppointment`, handed the completed ticket 1, both
succeed and the stored status of ticket 1 is no longer completed. -/
theorem completed_not_terminal :
    storedTicket archiveStore 1 = some servedTicket ∧
    servedTicket.Status = StatusCompleted ∧
    (UpdateTicket Faults.none archiveStore 100 { servedTicket with Status := StatusWaiting }).1
      = none ∧
    (storedTicket (UpdateTicket Faults.none archiveStore 100
      { servedTicket with Status := StatusWaiting }).2 1).map (fun t => t.Status)
      = some StatusWaiting ∧
    (ConfirmAppointment Faults.none archiveStore 1 1).1 =
      .ok { ID := 1, ScheduleID := 10, PatientID := none, TicketID := some 1, CreatedAt := 0 } ∧
    (storedTicket (ConfirmAppointment Faults.none archiveStore 1 1).2 1).map (fun t => t.Status)
      = some StatusRegistered := by
  decide

/-- C25 (amended): when the primary keys of the stored tickets are distinct,
`CallNextTicket`, `CallSpecificTicket`, `StartAppointment` and
`CompleteAppointment` leave every completed ticket as it is: after each of them
the only row of its primary key is the ticket itself. -/
theorem completed_is_terminal (f : Faults) (st : Store) (c : DBClock) (now w : Int)
    (id reg : Nat) (cat : Str) (x : Ticket)
    (hnd : (st.tickets.map (fun t => t.ID)).Nodup) (hx : x ∈ st.tickets)
    (hs : x.Status = StatusCompleted) :
    OnlyRow (CallNextTicket f st c now w cat reg).2 x ∧
    OnlyRow (CallSpecificTicket f st now id w).2 x ∧
    OnlyRow (StartAppointment f st now id).2 x ∧
    OnlyRow (CompleteAppointment f st now id).2 x := by
  refine ⟨Rewrites_keeps (CallNextTicket_rewrites f st c now w cat reg) hnd (fun _ => rfl) hx ?_,
    Rewrites_keeps (CallSpecificTicket_rewrites f st now id w) hnd (fun _ => rfl) hx ?_,
    Rewrites_keeps (StartAppointment_rewrites f st now id) hnd (fun _ => rfl) hx ?_,
    Rewrites_keeps (CompleteAppointment_rewrites f st now id) hnd (fun _ => rfl) hx ?_⟩ <;>
  · intro hg
    rw [hs] at hg
    exact absurd hg (by decide)

theorem completed_is_terminal_witness :
    (archiveStore.tickets.map (fun t => t.ID)).Nodup ∧ servedTicket ∈ archiveStore.tickets ∧
    servedTicket.Status = StatusCompleted ∧
    OnlyRow (CallNextTicket Faults.none archiveStore { date := 20000, time := 0 } 100 1 []
      7).2 servedTicket ∧
    OnlyRow (CallSpecificTicket Faults.none archiveStore 100 1 1).2 servedTicket ∧
    OnlyRow (StartAppointment Faults.none archiveStore 100 1).2 servedTicket ∧
    OnlyRow (CompleteAppointment Faults.none archiveStore 100 1).2 servedTicket :=
  ⟨by decide, by decide, by decide,
   completed_is_terminal Faults.none archiveStore { date := 20000, time := 0 } 100 1 1 7 []
     servedTicket (by decide) (by decide) (by decide)⟩

end ElectronicQueue
